import Mathlib

/-!
Intersection traffic controller (`src/Task2.cpp`)

A shallow embedding of the `Intersection` class: the four vehicle queues, the
two priority flags, the light state, the two green durations, the arrival
entry point `addVehicle` and one pass through the body of the control loop
`runTrafficLight`.

Modelling conventions.

* A `std::queue<Vehicle>` is a `List Vehicle`, head of the list = front of the
  queue; `push` appends at the end, `pop` removes the head.
* Everything a function prints, and every lock, unlock and sleep it performs,
  is returned as a list of `Event`s in program order.  The events for the two
  "vehicle passed" lines carry the whole vehicle whose `id` the line prints.
* `addVehicle` and one loop iteration both run under `queueMutex`, so each is
  an atomic state transformer; an interleaving of producers and the control
  loop is a list of `Op`s.
* The function-local `static atomic<int> vehicleId` is carried in the state;
  `vehicleId++` on a 32-bit `int` wraps, modelled by `wrapInt32`.
* Queue sizes are `size_t`; a queue held in memory never comes near `2^63`
  elements, so sizes and the products `ew * 2`, `ns * 2` are plain naturals.
* `chrono::system_clock::now()` is an input (`now`) of `addVehicle`.
-/

namespace Task2

/-- Vehicle classes: `enum class VehicleType`. -/
inductive VehicleType where
  | CAR
  | EMERGENCY
  deriving DecidableEq

/-- A queued vehicle: `struct Vehicle`. -/
structure Vehicle where
  id : Int
  type : VehicleType
  arrivalTime : Nat
  deriving DecidableEq

/-- Signal states: `enum class LightState`. -/
inductive LightState where
  | NORTH_SOUTH
  | EAST_WEST
  | EMERGENCY
  | CONGESTION
  deriving DecidableEq

/-- Observable actions of the intersection, in program order. -/
inductive Event where
  /-- The `queueMutex` is acquired. -/
  | lock
  /-- The `queueMutex` is released. -/
  | unlock
  /-- A `this_thread::sleep_for` of the given number of seconds. -/
  | sleep (seconds : Nat)
  /-- The line "dirName зеленый" of `processDirection`. -/
  | green (dirName : String)
  /-- The line "ТС id проехало в направлении dirName" of `processDirection`. -/
  | passed (vehicle : Vehicle) (dirName : String)
  /-- The line "ПРИОРИТЕТ: ... Экстренное ТС id проехало". -/
  | priorityPassed (vehicle : Vehicle)
  /-- The line "Активирован режим экстренной службы" of `handleEmergency`. -/
  | emergencyMode
  /-- The line "Активирована система управления затором". -/
  | congestionMode
  /-- The line "Адаптированы интервалы" with the two new durations. -/
  | timingsAdapted (northSouth eastWest : Nat)
  /-- The line "ТС id (class) прибыло с направления direction". -/
  | arrived (vehicle : Vehicle) (direction : String)
  deriving DecidableEq

/-- The mutable fields of `class Intersection`, plus the static id counter of
`addVehicle`. -/
structure Intersection where
  id : Int
  northQueue : List Vehicle
  southQueue : List Vehicle
  eastQueue : List Vehicle
  westQueue : List Vehicle
  emergencyFlag : Bool
  congestionFlag : Bool
  currentState : LightState
  northSouthTime : Nat
  eastWestTime : Nat
  vehicleId : Int
  deriving DecidableEq

/-- Two's-complement wrap of a 32-bit `int`. -/
def wrapInt32 (x : Int) : Int :=
  (x + 2147483648) % 4294967296 - 2147483648

/-- A freshly constructed intersection: member initialisers of the class and
the initial value `1` of the static counter. -/
def Intersection.fresh (id : Int) : Intersection :=
  { id := id
    northQueue := []
    southQueue := []
    eastQueue := []
    westQueue := []
    emergencyFlag := false
    congestionFlag := false
    currentState := LightState.NORTH_SOUTH
    northSouthTime := 10
    eastWestTime := 10
    vehicleId := 1 }

/-- Sum of the four queue sizes: `getTotalVehicles`. -/
def getTotalVehicles (s : Intersection) : Nat :=
  s.northQueue.length + s.southQueue.length + s.eastQueue.length + s.westQueue.length

/-- Raises the congestion flag above ten vehicles: `checkCongestion`. -/
def checkCongestion (s : Intersection) : Intersection :=
  if getTotalVehicles s > 10 then { s with congestionFlag := true } else s

/-- The `while (!q.empty())` loop of `processEmergencyVehicles`: `q` is what is
left of the queue, `temp` the vehicles kept so far, `out` the lines printed. -/
def processEmergencyVehiclesLoop :
    List Vehicle → List Vehicle → List Event → List Vehicle × List Event
  | [], temp, out => (temp, out)
  | vehicle :: q, temp, out =>
    if vehicle.type = VehicleType.EMERGENCY then
      processEmergencyVehiclesLoop q temp (out ++ [Event.priorityPassed vehicle])
    else
      processEmergencyVehiclesLoop q (temp ++ [vehicle]) out

/-- Sweep of one queue, `processEmergencyVehicles`: the new queue (`q = temp`)
and the lines printed. -/
def processEmergencyVehicles (q : List Vehicle) : List Vehicle × List Event :=
  processEmergencyVehiclesLoop q [] []

/-- One `if (!q.empty()) { front; pop; print }` block of `processDirection`. -/
def passFront (q : List Vehicle) (dirName : String) : List Vehicle × List Event :=
  match q with
  | [] => ([], [])
  | vehicle :: rest => (rest, [Event.passed vehicle dirName])

/-- A green phase for a pair of queues, `processDirection`: the new primary
queue, the new secondary queue and the lines printed. -/
def processDirection (primary secondary : List Vehicle) (dirName : String) :
    List Vehicle × List Vehicle × List Event :=
  let p1 := processEmergencyVehicles primary
  let s1 := processEmergencyVehicles secondary
  let p2 := passFront p1.1 dirName
  let s2 := passFront s1.1 dirName
  (p2.1, s2.1, [Event.green dirName] ++ p1.2 ++ s1.2 ++ p2.2 ++ s2.2)

/-- The emergency handler, `handleEmergency`: four sweeps, then a 5 s sleep. -/
def handleEmergency (s : Intersection) : Intersection × List Event :=
  let n := processEmergencyVehicles s.northQueue
  let so := processEmergencyVehicles s.southQueue
  let e := processEmergencyVehicles s.eastQueue
  let w := processEmergencyVehicles s.westQueue
  ({ s with northQueue := n.1, southQueue := so.1, eastQueue := e.1, westQueue := w.1 },
    [Event.emergencyMode] ++ n.2 ++ so.2 ++ e.2 ++ w.2 ++ [Event.sleep 5])

/-- Body of the `for` loop of `handleCongestion`: a North-South phase followed
by an East-West phase. -/
def congestionRound (s : Intersection) : Intersection × List Event :=
  let ns := processDirection s.northQueue s.southQueue "Север-Юг (аварийный режим)"
  let ew := processDirection s.eastQueue s.westQueue "Восток-Запад (аварийный режим)"
  ({ s with northQueue := ns.1, southQueue := ns.2.1, eastQueue := ew.1, westQueue := ew.2.1 },
    ns.2.2 ++ ew.2.2)

/-- The `for (int i = 0; i < 2; ++i)` loop of `handleCongestion`, with the
number of rounds still to run. -/
def handleCongestionLoop : Nat → Intersection → Intersection × List Event
  | 0, s => (s, [])
  | n + 1, s =>
    let r := congestionRound s
    let rest := handleCongestionLoop n r.1
    (rest.1, r.2 ++ rest.2)

/-- The congestion handler, `handleCongestion`. -/
def handleCongestion (s : Intersection) : Intersection × List Event :=
  let r := handleCongestionLoop 2 s
  (r.1, [Event.congestionMode] ++ r.2)

/-- The adaptive timer, `adaptTimings`. -/
def adaptTimings (s : Intersection) : Intersection × List Event :=
  let ns := s.northQueue.length + s.southQueue.length
  let ew := s.eastQueue.length + s.westQueue.length
  let s1 :=
    if ns > ew * 2 then { s with northSouthTime := 15, eastWestTime := 5 }
    else if ew > ns * 2 then { s with northSouthTime := 5, eastWestTime := 15 }
    else { s with northSouthTime := 10, eastWestTime := 10 }
  (s1, [Event.timingsAdapted s1.northSouthTime s1.eastWestTime])

/-- The `switch (currentState)` of `runTrafficLight`. -/
def normalPhase (s : Intersection) : Intersection × List Event :=
  match s.currentState with
  | LightState.NORTH_SOUTH =>
    let r := processDirection s.northQueue s.southQueue "Север-Юг"
    ({ s with northQueue := r.1, southQueue := r.2.1, currentState := LightState.EAST_WEST },
      r.2.2)
  | LightState.EAST_WEST =>
    let r := processDirection s.eastQueue s.westQueue "Восток-Запад"
    ({ s with eastQueue := r.1, westQueue := r.2.1, currentState := LightState.NORTH_SOUTH },
      r.2.2)
  | _ => (s, [])

/-- One pass through the body of `while (!stopFlag)` in `runTrafficLight`.
The `unique_lock` is released by `lock.unlock()` on the normal path and by its
destructor at `continue` on the two handler paths. -/
def runTrafficLightIteration (s : Intersection) : Intersection × List Event :=
  let s1 := checkCongestion s
  if s1.emergencyFlag then
    let r := handleEmergency { s1 with currentState := LightState.EMERGENCY }
    ({ r.1 with emergencyFlag := false }, [Event.lock] ++ r.2 ++ [Event.unlock])
  else if s1.congestionFlag then
    let r := handleCongestion { s1 with currentState := LightState.CONGESTION }
    ({ r.1 with congestionFlag := false }, [Event.lock] ++ r.2 ++ [Event.unlock])
  else
    let a := if getTotalVehicles s1 > 7 then adaptTimings s1 else (s1, [])
    let r := normalPhase a.1
    (r.1, [Event.lock] ++ a.2 ++ r.2 ++
      [Event.unlock,
       Event.sleep (if r.1.currentState = LightState.NORTH_SOUTH
                    then r.1.northSouthTime else r.1.eastWestTime)])

/-- The arrival entry point, `addVehicle`; `now` is the clock reading stored
in the new vehicle. -/
def addVehicle (s : Intersection) (type : VehicleType) (direction : String) (now : Nat) :
    Intersection × List Event :=
  let vehicle : Vehicle := { id := s.vehicleId, type := type, arrivalTime := now }
  let s1 := { s with vehicleId := wrapInt32 (s.vehicleId + 1) }
  let s2 :=
    if direction = "north" then { s1 with northQueue := s1.northQueue ++ [vehicle] }
    else if direction = "south" then { s1 with southQueue := s1.southQueue ++ [vehicle] }
    else if direction = "east" then { s1 with eastQueue := s1.eastQueue ++ [vehicle] }
    else if direction = "west" then { s1 with westQueue := s1.westQueue ++ [vehicle] }
    else s1
  let s3 := if type = VehicleType.EMERGENCY then { s2 with emergencyFlag := true } else s2
  (s3, [Event.lock, Event.arrived vehicle direction, Event.unlock])

/-- What `printStatus` reports: the four sizes, the total and the state. -/
structure Status where
  north : Nat
  south : Nat
  east : Nat
  west : Nat
  total : Nat
  currentState : LightState
  deriving DecidableEq

/-- The status report, `printStatus`. -/
def printStatus (s : Intersection) : Status :=
  { north := s.northQueue.length
    south := s.southQueue.length
    east := s.eastQueue.length
    west := s.westQueue.length
    total := getTotalVehicles s
    currentState := s.currentState }

/-! ## Interleavings -/

/-- An atomic action on the intersection: a call of `addVehicle`, a call of
`addVehicle` on another `Intersection` object (which only advances the shared
static counter), or one iteration of the control loop. -/
inductive Op where
  | arrive (type : VehicleType) (direction : String) (now : Nat)
  | arriveElsewhere
  | iterate
  deriving DecidableEq

/-- Effect of one atomic action. -/
def step (s : Intersection) : Op → Intersection × List Event
  | Op.arrive type direction now => addVehicle s type direction now
  | Op.arriveElsewhere => ({ s with vehicleId := wrapInt32 (s.vehicleId + 1) }, [])
  | Op.iterate => runTrafficLightIteration s

/-- Effect of a sequence of atomic actions: the final state and everything
this intersection printed or did, in order. -/
def exec (s : Intersection) : List Op → Intersection × List Event
  | [] => (s, [])
  | op :: ops =>
    let r := step s op
    let rest := exec r.1 ops
    (rest.1, r.2 ++ rest.2)

/-! ## Vocabulary of the specification -/

/-- The four direction strings `addVehicle` recognises. -/
def validDirection (direction : String) : Prop :=
  direction = "north" ∨ direction = "south" ∨ direction = "east" ∨ direction = "west"

instance (direction : String) : Decidable (validDirection direction) := by
  unfold validDirection; infer_instance

/-- Whether a vehicle is Emergency-class. -/
def isEmergency (v : Vehicle) : Bool :=
  decide (v.type = VehicleType.EMERGENCY)

/-- The non-Emergency subsequence of a queue, in the original order. -/
def nonEmergency (q : List Vehicle) : List Vehicle :=
  q.filter (fun v => !isEmergency v)

/-- The Emergency subsequence of a queue, in the original order. -/
def emergencies (q : List Vehicle) : List Vehicle :=
  q.filter isEmergency

/-- All queued vehicles: North, South, East, West. -/
def allVehicles (s : Intersection) : List Vehicle :=
  s.northQueue ++ s.southQueue ++ s.eastQueue ++ s.westQueue

/-- The vehicle a log line reports as having passed, if it is such a line. -/
def Event.serviced : Event → Option Vehicle
  | Event.passed vehicle _ => some vehicle
  | Event.priorityPassed vehicle => some vehicle
  | _ => none

/-- The vehicles logged as serviced, in log order. -/
def servicedVehicles (log : List Event) : List Vehicle :=
  log.filterMap Event.serviced

/-- The vehicle a log line reports as having arrived, if it is such a line. -/
def Event.arrival : Event → Option Vehicle
  | Event.arrived vehicle _ => some vehicle
  | _ => none

/-- The vehicles logged as arrived at this intersection, in log order. -/
def arrivedVehicles (log : List Event) : List Vehicle :=
  log.filterMap Event.arrival

/-- Whether an action is not an arrival from an unrecognised direction. -/
def Op.wellDirected : Op → Bool
  | Op.arrive _ direction _ => decide (validDirection direction)
  | _ => true

/-- The four approach directions. -/
inductive Direction where
  | north
  | south
  | east
  | west
  deriving DecidableEq

/-- The string by which `addVehicle` recognises a direction. -/
def Direction.name : Direction → String
  | Direction.north => "north"
  | Direction.south => "south"
  | Direction.east => "east"
  | Direction.west => "west"

/-- The queue of a direction. -/
def queueAt (s : Intersection) : Direction → List Vehicle
  | Direction.north => s.northQueue
  | Direction.south => s.southQueue
  | Direction.east => s.eastQueue
  | Direction.west => s.westQueue

/-- The vehicle an arrival line reports for direction `d`, if it is such a line. -/
def Event.arrivalAt (d : Direction) : Event → Option Vehicle
  | Event.arrived vehicle direction => if direction = d.name then some vehicle else none
  | _ => none

/-- The vehicles logged as arrived from direction `d`, in log order. -/
def arrivedAt (d : Direction) (log : List Event) : List Vehicle :=
  log.filterMap (Event.arrivalAt d)

/-- The vehicle a "passed in direction" line of a green phase reports, if it is
such a line. -/
def Event.passedVehicle : Event → Option Vehicle
  | Event.passed vehicle _ => some vehicle
  | _ => none

/-- The vehicles logged as passed in a green phase, in log order. -/
def passedVehicles (log : List Event) : List Vehicle :=
  log.filterMap Event.passedVehicle

/-- Whether an action is the arrival of an Emergency vehicle from direction `d`. -/
def Op.emergencyAt (d : Direction) : Op → Bool
  | Op.arrive type direction _ =>
    decide (type = VehicleType.EMERGENCY) && decide (direction = d.name)
  | _ => false

/-- A queue went from `q` to `q2` by losing a front segment whose vehicles
appear, in queue order, among the vehicles `log` reports as passed. -/
def FifoStep (q q2 : List Vehicle) (log : List Event) : Prop :=
  ∃ dequeued : List Vehicle, q = dequeued ++ q2 ∧ dequeued.Sublist (passedVehicles log)

/-- No vehicle of the queue is Emergency-class. -/
def emergencyFree (q : List Vehicle) : Prop :=
  ∀ v ∈ q, v.type ≠ VehicleType.EMERGENCY

/-- The name a "green" line of `processDirection` announces, if it is such a
line. -/
def Event.greenName : Event → Option String
  | Event.green dirName => some dirName
  | _ => none

/-- The green phases a log records, in order: one entry per call of
`processDirection`. -/
def greenPhases (log : List Event) : List String :=
  log.filterMap Event.greenName

/-- The ids of a list of vehicles, in order. -/
def ids (q : List Vehicle) : List Int :=
  q.map Vehicle.id

/-- How many ids an action takes from the shared counter. -/
def Op.idCost : Op → Nat
  | Op.arrive _ _ _ => 1
  | Op.arriveElsewhere => 1
  | Op.iterate => 0

/-- How many ids a sequence of actions takes from the shared counter. -/
def idsTaken : List Op → Nat
  | [] => 0
  | op :: ops => op.idCost + idsTaken ops

/-- Id discipline of a state whose counter stands at `k` (before wrapping):
every queued id is below `k`, no id is queued twice, and ids increase from head
to tail of each queue. -/
def IdInv (k : Int) (s : Intersection) : Prop :=
  (∀ v ∈ allVehicles s, v.id < k) ∧
  (ids (allVehicles s)).Nodup ∧
  ∀ d : Direction, (ids (queueAt s d)).Pairwise (fun a b => a < b)

/-- The pair of green durations `(northSouthTime, eastWestTime)`. -/
def timing (s : Intersection) : Nat × Nat :=
  (s.northSouthTime, s.eastWestTime)

/-- The duration of a sleep, if the event is one. -/
def Event.sleepSeconds : Event → Option Nat
  | Event.sleep seconds => some seconds
  | _ => none

/-- The sleeps a log records, in order. -/
def sleeps (log : List Event) : List Nat :=
  log.filterMap Event.sleepSeconds

/-- The sleeps performed while `queueMutex` is held: `held` tells whether the
lock is held before the first event of the log. -/
def sleepsUnderLock : Bool → List Event → List Nat
  | _, [] => []
  | _, Event.lock :: rest => sleepsUnderLock true rest
  | _, Event.unlock :: rest => sleepsUnderLock false rest
  | held, Event.sleep seconds :: rest =>
    if held then seconds :: sleepsUnderLock held rest else sleepsUnderLock held rest
  | held, _ :: rest => sleepsUnderLock held rest

/-- The vehicle a "ПРИОРИТЕТ" line of an emergency sweep reports, if it is such
a line. -/
def Event.priorityVehicle : Event → Option Vehicle
  | Event.priorityPassed vehicle => some vehicle
  | _ => none

/-- The vehicles removed by emergency sweeps, in log order. -/
def priorityVehicles (log : List Event) : List Vehicle :=
  log.filterMap Event.priorityVehicle

/-- The pair of durations an "Адаптированы интервалы" line reports, if it is
such a line. -/
def Event.retiming : Event → Option (Nat × Nat)
  | Event.timingsAdapted northSouth eastWest => some (northSouth, eastWest)
  | _ => none

/-- The calls of `adaptTimings` a log records, each with the pair it set. -/
def timerCalls (log : List Event) : List (Nat × Nat) :=
  log.filterMap Event.retiming

/-- The flag covers the queues: when `emergencyFlag` is clear, no queued
vehicle is Emergency-class. -/
def FlagCoversEmergencies (s : Intersection) : Prop :=
  s.emergencyFlag = false → ∀ d : Direction, emergencyFree (queueAt s d)

end Task2

/-!
Load-balancing dispatcher (`src/Task1.cpp`)

A shallow embedding of `Task`, `Server` and `Cluster`.

Modelling conventions.

* A `std::priority_queue<Task>` is the list of its tasks in push order; `top`
  is a greatest task under `Task::operator<`, found by a left-to-right scan
  that keeps the earlier of two tasks neither of which is below the other
  (the standard leaves that choice open); `pop` removes that task.
* `Server::addTask` and one pass of the loop of `Server::processTasks` run
  under the server's mutex and are atomic state transformers; `Cluster::addTask`
  is run against one snapshot of the servers' loads.
* `currentLoad`, `minLoad` and `totalLoad` are `int`s counting queued tasks.
  They are modelled as mathematical integers: executions in which one of
  `++`, `--`, `minLoad + 1` or `totalLoad +=` would overflow an `int` are
  outside the model.  The sentinel `numeric_limits<int>::max()` is 2147483647.
* The two `double` comparisons against `loadThreshold * 4` are modelled in the
  rationals with `loadThreshold = 4/5`.  On the values the code compares this
  agrees with IEEE doubles: `0.8 * 4` is the double nearest to 16/5, an `int`
  exceeds it exactly when it is at least 4, and `checkLoad` is only called with
  five servers, where `totalLoad / 5.0` exceeds it exactly when
  `totalLoad > 16` (for `totalLoad = 16` the quotient rounds to the same
  double).
-/

namespace Task1

/-- A task: `class Task`. -/
structure Task where
  id : Int
  priority : Int
  deriving DecidableEq

/-- The ordering `Task::operator<`: `a < other` when `a.priority > other.priority`. -/
def Task.lt (a other : Task) : Bool :=
  decide (a.priority > other.priority)

/-- Scan for the top of a priority queue: `best` is the greatest task found so
far under `Task::operator<`. -/
def topFrom (best : Task) : List Task → Task
  | [] => best
  | task :: rest => if best.lt task then topFrom task rest else topFrom best rest

/-- The element `priority_queue::top` returns, if the queue is not empty. -/
def top : List Task → Option Task
  | [] => none
  | task :: rest => some (topFrom task rest)

/-- The fields of `class Server` that the dispatcher logic uses. -/
structure Server where
  id : Int
  taskQueue : List Task
  currentLoad : Int
  deriving DecidableEq

/-- A newly constructed server: `Server(serverId)`. -/
def Server.new (serverId : Int) : Server :=
  { id := serverId, taskQueue := [], currentLoad := 0 }

/-- One pass through the body of `while (!stopFlag)` in `processTasks`: the new
server state and the task taken for processing, if any. -/
def Server.processTasks (s : Server) : Server × Option Task :=
  match top s.taskQueue with
  | some task =>
    ({ s with taskQueue := s.taskQueue.erase task, currentLoad := s.currentLoad - 1 },
      some task)
  | none => (s, none)

/-- Queues a task: `Server::addTask`. -/
def Server.addTask (s : Server) (task : Task) : Server :=
  { s with taskQueue := s.taskQueue ++ [task], currentLoad := s.currentLoad + 1 }

/-- The load read by the cluster: `getCurrentLoad`. -/
def Server.getCurrentLoad (s : Server) : Int :=
  s.currentLoad

/-- The servers of a `Cluster`, in creation order. -/
structure Cluster where
  servers : List Server
  deriving DecidableEq

/-- The constant `initialServerCount`. -/
def initialServerCount : Nat := 5

/-- The constant `loadThreshold` (0.8). -/
def loadThreshold : ℚ := 4 / 5

/-- The value of `numeric_limits<int>::max()`. -/
def intMax : Int := 2147483647

/-- The constructor `Cluster()`: servers 1 to 5. -/
def Cluster.new : Cluster :=
  { servers := [Server.new 1, Server.new 2, Server.new 3, Server.new 4, Server.new 5] }

/-- Appends a server numbered `size + 1`: `addServer`. -/
def Cluster.addServer (c : Cluster) : Cluster :=
  { servers := c.servers ++ [Server.new (c.servers.length + 1)] }

/-- The sum computed by the `for` loop of `checkLoad`. -/
def totalLoad (servers : List Server) : Int :=
  (servers.map Server.getCurrentLoad).sum

/-- Adds a server when the average load exceeds `loadThreshold * 4`:
`checkLoad`. -/
def Cluster.checkLoad (c : Cluster) : Cluster :=
  let avgLoad : ℚ := (totalLoad c.servers : ℚ) / (c.servers.length : ℚ)
  if avgLoad > loadThreshold * 4 then c.addServer else c

/-- The selection loop of `Cluster::addTask`: `i` is the position of the next
server, `minLoad` the least load seen so far and `target` the position of the
server that has it, if any. -/
def selectLoop : List Server → Nat → Int → Option Nat → Int × Option Nat
  | [], _, minLoad, target => (minLoad, target)
  | server :: rest, i, minLoad, target =>
    if server.getCurrentLoad < minLoad then
      selectLoop rest (i + 1) server.getCurrentLoad (some i)
    else
      selectLoop rest (i + 1) minLoad target

/-- Applies `f` to the server at position `i`, as a call through the pointer
`targetServer` does. -/
def applyAt (f : Server → Server) : Nat → List Server → List Server
  | _, [] => []
  | 0, server :: rest => f server :: rest
  | i + 1, server :: rest => server :: applyAt f i rest

/-- Dispatches a task: `Cluster::addTask`. -/
def Cluster.addTask (c : Cluster) (task : Task) : Cluster :=
  let r := selectLoop c.servers 0 intMax none
  match r.2 with
  | some i =>
    let c1 : Cluster := { servers := applyAt (fun server => server.addTask task) i c.servers }
    if c1.servers.length = initialServerCount ∧ ((r.1 + 1 : Int) : ℚ) > loadThreshold * 4 then
      c1.checkLoad
    else c1
  | none => c

/-- An atomic action on the cluster: a call of `Cluster::addTask`, or one pass
of the worker loop of the server at position `i`. -/
inductive ClusterOp where
  | addTask (task : Task)
  | process (i : Nat)
  deriving DecidableEq

/-- Effect of one atomic action. -/
def Cluster.step (c : Cluster) : ClusterOp → Cluster
  | ClusterOp.addTask task => c.addTask task
  | ClusterOp.process i =>
    { servers := applyAt (fun server => server.processTasks.1) i c.servers }

/-- Effect of a sequence of atomic actions. -/
def Cluster.exec (c : Cluster) : List ClusterOp → Cluster
  | [] => c
  | op :: ops => (c.step op).exec ops

/-- An atomic action on one server: `Server::addTask`, or one pass of its
worker loop. -/
inductive ServerOp where
  | addTask (task : Task)
  | process
  deriving DecidableEq

/-- Effect of a sequence of atomic actions on one server. -/
def Server.exec (s : Server) : List ServerOp → Server
  | [] => s
  | ServerOp.addTask task :: ops => (s.addTask task).exec ops
  | ServerOp.process :: ops => (s.processTasks.1).exec ops

/-- How many `Cluster::addTask` calls a sequence of actions contains. -/
def addCount : List ClusterOp → Nat
  | [] => 0
  | ClusterOp.addTask _ :: ops => addCount ops + 1
  | ClusterOp.process _ :: ops => addCount ops

/-- Every server's `currentLoad` is the number of tasks in its queue. -/
def Cluster.Consistent (c : Cluster) : Prop :=
  ∀ s ∈ c.servers, s.currentLoad = (s.taskQueue.length : Int)

/-- The loads of a list of servers, in order. -/
def loads (servers : List Server) : List Int :=
  servers.map Server.getCurrentLoad

end Task1

namespace Task2

/-! ## Basic facts about the queue sweeps -/

theorem processEmergencyVehiclesLoop_eq (q temp : List Vehicle) (out : List Event) :
    processEmergencyVehiclesLoop q temp out
      = (temp ++ nonEmergency q, out ++ (emergencies q).map Event.priorityPassed) := by
  induction q generalizing temp out with
  | nil => simp [processEmergencyVehiclesLoop, nonEmergency, emergencies]
  | cons v q ih =>
    by_cases hv : v.type = VehicleType.EMERGENCY
    · simp [processEmergencyVehiclesLoop, hv, ih, nonEmergency, emergencies, isEmergency]
    · simp [processEmergencyVehiclesLoop, hv, ih, nonEmergency, emergencies, isEmergency]

theorem processEmergencyVehicles_eq (q : List Vehicle) :
    processEmergencyVehicles q
      = (nonEmergency q, (emergencies q).map Event.priorityPassed) := by
  simp [processEmergencyVehicles, processEmergencyVehiclesLoop_eq]

theorem passFront_eq (q : List Vehicle) (dirName : String) :
    passFront q dirName = (q.drop 1, (q.take 1).map (fun v => Event.passed v dirName)) := by
  cases q <;> simp [passFront]

theorem processDirection_eq (primary secondary : List Vehicle) (dirName : String) :
    processDirection primary secondary dirName
      = ((nonEmergency primary).drop 1, (nonEmergency secondary).drop 1,
          [Event.green dirName]
            ++ (emergencies primary).map Event.priorityPassed
            ++ (emergencies secondary).map Event.priorityPassed
            ++ ((nonEmergency primary).take 1).map (fun v => Event.passed v dirName)
            ++ ((nonEmergency secondary).take 1).map (fun v => Event.passed v dirName)) := by
  simp [processDirection, processEmergencyVehicles_eq, passFront_eq]

theorem wrapInt32_succ_ne (x : Int) : wrapInt32 (x + 1) ≠ x := by
  unfold wrapInt32
  omega

/-! ## C1: `addVehicle` with an unrecognised direction -/

/-- C1, as stated, fails: on a fresh intersection an Emergency arrival from the
unrecognised direction "up" raises `emergencyFlag` and advances the id counter,
so it is not true that every call with an invalid direction leaves the queues,
both flags and the counter as they were. -/
theorem C1_invalid_direction_mutates_state :
    ¬ (∀ (s : Intersection) (type : VehicleType) (direction : String) (now : Nat),
        ¬ validDirection direction →
          (addVehicle s type direction now).1.northQueue = s.northQueue ∧
          (addVehicle s type direction now).1.southQueue = s.southQueue ∧
          (addVehicle s type direction now).1.eastQueue = s.eastQueue ∧
          (addVehicle s type direction now).1.westQueue = s.westQueue ∧
          (addVehicle s type direction now).1.emergencyFlag = s.emergencyFlag ∧
          (addVehicle s type direction now).1.congestionFlag = s.congestionFlag ∧
          (addVehicle s type direction now).1.vehicleId = s.vehicleId) := by
  intro h
  have h1 := h (Intersection.fresh 1) VehicleType.EMERGENCY "up" 0 (by decide)
  have h2 := h1.2.2.2.2.1
  revert h2
  decide

/-- C1, amended: a call of `addVehicle` with a direction other than the four
recognised strings is not rejected; it leaves the four queues, the congestion
flag, the light state and both green durations unchanged, but it still consumes
an id (the counter advances by one, with 32-bit wrap, and so always changes) and
it still raises `emergencyFlag` when the class is Emergency (the flag is
unchanged for a Normal vehicle); it logs the arrival under the lock. -/
theorem C1_addVehicle_invalid_direction
    (s : Intersection) (type : VehicleType) (direction : String) (now : Nat)
    (h : ¬ validDirection direction) :
    addVehicle s type direction now
      = ({ s with
            vehicleId := wrapInt32 (s.vehicleId + 1)
            emergencyFlag := if type = VehicleType.EMERGENCY then true else s.emergencyFlag },
          [Event.lock,
           Event.arrived { id := s.vehicleId, type := type, arrivalTime := now } direction,
           Event.unlock])
      ∧ (addVehicle s type direction now).1.vehicleId ≠ s.vehicleId := by
  simp only [validDirection, not_or] at h
  obtain ⟨h1, h2, h3, h4⟩ := h
  refine ⟨?_, ?_⟩
  · by_cases ht : type = VehicleType.EMERGENCY <;> simp [addVehicle, h1, h2, h3, h4, ht]
  · by_cases ht : type = VehicleType.EMERGENCY <;>
      simp [addVehicle, h1, h2, h3, h4, ht, wrapInt32_succ_ne]

/-- Witness for C1 amended: a Normal arrival from "up" at a fresh intersection. -/
theorem C1_addVehicle_invalid_direction_witness :
    ¬ validDirection "up" ∧
    (addVehicle (Intersection.fresh 1) VehicleType.CAR "up" 7
      = ({ Intersection.fresh 1 with
            vehicleId := wrapInt32 ((Intersection.fresh 1).vehicleId + 1)
            emergencyFlag :=
              if VehicleType.CAR = VehicleType.EMERGENCY then true
              else (Intersection.fresh 1).emergencyFlag },
          [Event.lock,
           Event.arrived
            { id := (Intersection.fresh 1).vehicleId, type := VehicleType.CAR, arrivalTime := 7 }
            "up",
           Event.unlock])
      ∧ (addVehicle (Intersection.fresh 1) VehicleType.CAR "up" 7).1.vehicleId
          ≠ (Intersection.fresh 1).vehicleId) :=
  ⟨by decide, C1_addVehicle_invalid_direction (Intersection.fresh 1) VehicleType.CAR "up" 7
    (by decide)⟩

/-! ## C2: `addVehicle` with a recognised direction -/

/-- C2: for each of the four recognised directions, `addVehicle` appends exactly
one new vehicle of the requested class (carrying the current counter value as
its id) at the tail of that direction's queue, leaves the other three queues,
the congestion flag, the light state and the two green durations unchanged, and
sets `emergencyFlag` to true for an Emergency vehicle while leaving it unchanged
for a Normal one; the only other field that changes is the id counter. -/
theorem C2_addVehicle_valid_direction (s : Intersection) (type : VehicleType) (now : Nat) :
    (addVehicle s type "north" now).1
      = { s with
          northQueue := s.northQueue ++ [{ id := s.vehicleId, type := type, arrivalTime := now }]
          emergencyFlag := if type = VehicleType.EMERGENCY then true else s.emergencyFlag
          vehicleId := wrapInt32 (s.vehicleId + 1) } ∧
    (addVehicle s type "south" now).1
      = { s with
          southQueue := s.southQueue ++ [{ id := s.vehicleId, type := type, arrivalTime := now }]
          emergencyFlag := if type = VehicleType.EMERGENCY then true else s.emergencyFlag
          vehicleId := wrapInt32 (s.vehicleId + 1) } ∧
    (addVehicle s type "east" now).1
      = { s with
          eastQueue := s.eastQueue ++ [{ id := s.vehicleId, type := type, arrivalTime := now }]
          emergencyFlag := if type = VehicleType.EMERGENCY then true else s.emergencyFlag
          vehicleId := wrapInt32 (s.vehicleId + 1) } ∧
    (addVehicle s type "west" now).1
      = { s with
          westQueue := s.westQueue ++ [{ id := s.vehicleId, type := type, arrivalTime := now }]
          emergencyFlag := if type = VehicleType.EMERGENCY then true else s.emergencyFlag
          vehicleId := wrapInt32 (s.vehicleId + 1) } := by
  refine ⟨?_, ?_, ?_, ?_⟩ <;>
    by_cases ht : type = VehicleType.EMERGENCY <;> simp [addVehicle, ht]

/-! ## Conservation of vehicles -/

theorem servicedVehicles_append (a b : List Event) :
    servicedVehicles (a ++ b) = servicedVehicles a ++ servicedVehicles b := by
  simp [servicedVehicles]

theorem servicedVehicles_priorityPassed (l : List Vehicle) :
    servicedVehicles (l.map Event.priorityPassed) = l := by
  induction l with
  | nil => rfl
  | cons v l ih =>
    simp only [servicedVehicles] at ih
    simp [servicedVehicles, Event.serviced, ih]

theorem servicedVehicles_passed (l : List Vehicle) (dirName : String) :
    servicedVehicles (l.map (fun v => Event.passed v dirName)) = l := by
  induction l with
  | nil => rfl
  | cons v l ih =>
    simp only [servicedVehicles] at ih
    simp [servicedVehicles, Event.serviced, ih]

theorem coe_split_emergency (q : List Vehicle) :
    (↑q : Multiset Vehicle) = ↑(nonEmergency q) + ↑(emergencies q) := by
  rw [Multiset.coe_add, Multiset.coe_eq_coe]
  have h := List.filter_append_perm isEmergency q
  exact (h.symm.trans List.perm_append_comm)

theorem coe_split_front (q : List Vehicle) :
    (↑q : Multiset Vehicle) = ↑(q.drop 1) + ↑(q.take 1) := by
  rw [Multiset.coe_add, Multiset.coe_eq_coe]
  have h : q.take 1 ++ q.drop 1 = q := List.take_append_drop 1 q
  exact (List.perm_append_comm.trans (List.Perm.of_eq h)).symm

theorem processDirection_conserves (primary secondary : List Vehicle) (dirName : String) :
    (↑primary : Multiset Vehicle) + ↑secondary
      = ↑(processDirection primary secondary dirName).1
        + ↑(processDirection primary secondary dirName).2.1
        + ↑(servicedVehicles (processDirection primary secondary dirName).2.2) := by
  rw [processDirection_eq]
  simp only [servicedVehicles_append, servicedVehicles_priorityPassed, servicedVehicles_passed]
  have hg : servicedVehicles [Event.green dirName] = [] := rfl
  rw [hg, List.nil_append]
  simp only [← Multiset.coe_add]
  conv_lhs => rw [coe_split_emergency primary, coe_split_emergency secondary,
    coe_split_front (nonEmergency primary), coe_split_front (nonEmergency secondary)]
  abel

theorem coe_allVehicles (s : Intersection) :
    (↑(allVehicles s) : Multiset Vehicle)
      = (↑s.northQueue + ↑s.southQueue) + (↑s.eastQueue + ↑s.westQueue) := by
  simp [allVehicles]

theorem getTotalVehicles_eq_length (s : Intersection) :
    getTotalVehicles s = (allVehicles s).length := by
  simp [getTotalVehicles, allVehicles]; omega

theorem allVehicles_checkCongestion (s : Intersection) :
    allVehicles (checkCongestion s) = allVehicles s := by
  unfold checkCongestion
  split <;> rfl

theorem handleEmergency_eq (s : Intersection) :
    handleEmergency s
      = ({ s with
            northQueue := nonEmergency s.northQueue
            southQueue := nonEmergency s.southQueue
            eastQueue := nonEmergency s.eastQueue
            westQueue := nonEmergency s.westQueue },
          [Event.emergencyMode]
            ++ (emergencies s.northQueue).map Event.priorityPassed
            ++ (emergencies s.southQueue).map Event.priorityPassed
            ++ (emergencies s.eastQueue).map Event.priorityPassed
            ++ (emergencies s.westQueue).map Event.priorityPassed
            ++ [Event.sleep 5]) := by
  simp [handleEmergency, processEmergencyVehicles_eq]

theorem handleEmergency_conserves (s : Intersection) :
    (↑(allVehicles s) : Multiset Vehicle)
      = ↑(allVehicles (handleEmergency s).1) + ↑(servicedVehicles (handleEmergency s).2) := by
  rw [handleEmergency_eq]
  simp only [servicedVehicles_append, servicedVehicles_priorityPassed]
  have h1 : servicedVehicles [Event.emergencyMode] = [] := rfl
  have h2 : servicedVehicles [Event.sleep 5] = [] := rfl
  rw [h1, h2, List.nil_append, List.append_nil]
  simp only [coe_allVehicles, ← Multiset.coe_add]
  conv_lhs => rw [coe_split_emergency s.northQueue, coe_split_emergency s.southQueue,
    coe_split_emergency s.eastQueue, coe_split_emergency s.westQueue]
  abel

theorem congestionRound_conserves (s : Intersection) :
    (↑(allVehicles s) : Multiset Vehicle)
      = ↑(allVehicles (congestionRound s).1) + ↑(servicedVehicles (congestionRound s).2) := by
  have h1 := processDirection_conserves s.northQueue s.southQueue "Север-Юг (аварийный режим)"
  have h2 := processDirection_conserves s.eastQueue s.westQueue "Восток-Запад (аварийный режим)"
  simp only [congestionRound, servicedVehicles_append, coe_allVehicles, ← Multiset.coe_add]
  rw [h1, h2]
  abel

theorem handleCongestionLoop_conserves (n : Nat) (s : Intersection) :
    (↑(allVehicles s) : Multiset Vehicle)
      = ↑(allVehicles (handleCongestionLoop n s).1)
        + ↑(servicedVehicles (handleCongestionLoop n s).2) := by
  induction n generalizing s with
  | zero => simp [handleCongestionLoop, servicedVehicles]
  | succ n ih =>
    simp only [handleCongestionLoop, servicedVehicles_append, ← Multiset.coe_add]
    rw [congestionRound_conserves s, ih (congestionRound s).1]
    abel

theorem handleCongestion_conserves (s : Intersection) :
    (↑(allVehicles s) : Multiset Vehicle)
      = ↑(allVehicles (handleCongestion s).1) + ↑(servicedVehicles (handleCongestion s).2) := by
  simp only [handleCongestion, servicedVehicles_append]
  have h1 : servicedVehicles [Event.congestionMode] = [] := rfl
  rw [h1, List.nil_append]
  exact handleCongestionLoop_conserves 2 s

theorem adaptTimings_allVehicles (s : Intersection) :
    allVehicles (adaptTimings s).1 = allVehicles s ∧ servicedVehicles (adaptTimings s).2 = [] := by
  unfold adaptTimings
  refine ⟨?_, rfl⟩
  dsimp only
  split
  · rfl
  · split <;> rfl

theorem normalPhase_conserves (s : Intersection) :
    (↑(allVehicles s) : Multiset Vehicle)
      = ↑(allVehicles (normalPhase s).1) + ↑(servicedVehicles (normalPhase s).2) := by
  unfold normalPhase
  split
  · have h1 := processDirection_conserves s.northQueue s.southQueue "Север-Юг"
    simp only [coe_allVehicles]
    rw [h1]
    abel
  · have h1 := processDirection_conserves s.eastQueue s.westQueue "Восток-Запад"
    simp only [coe_allVehicles]
    rw [h1]
    abel
  · simp [servicedVehicles]

theorem runTrafficLightIteration_conserves (s : Intersection) :
    (↑(allVehicles s) : Multiset Vehicle)
      = ↑(allVehicles (runTrafficLightIteration s).1)
        + ↑(servicedVehicles (runTrafficLightIteration s).2) := by
  have hl : servicedVehicles [Event.lock] = [] := rfl
  have hu : servicedVehicles [Event.unlock] = [] := rfl
  unfold runTrafficLightIteration
  dsimp only
  split
  · simp only [servicedVehicles_append, hl, hu, List.nil_append, List.append_nil]
    have h := handleEmergency_conserves
      { checkCongestion s with currentState := LightState.EMERGENCY }
    have h0 : allVehicles { checkCongestion s with currentState := LightState.EMERGENCY }
        = allVehicles s := allVehicles_checkCongestion s
    rw [h0] at h
    exact h
  · split
    · simp only [servicedVehicles_append, hl, hu, List.nil_append, List.append_nil]
      have h := handleCongestion_conserves
        { checkCongestion s with currentState := LightState.CONGESTION }
      have h0 : allVehicles { checkCongestion s with currentState := LightState.CONGESTION }
          = allVehicles s := allVehicles_checkCongestion s
      rw [h0] at h
      exact h
    · simp only [servicedVehicles_append, hl, List.nil_append]
      have hs : ∀ n, servicedVehicles [Event.unlock, Event.sleep n] = [] := fun _ => rfl
      rw [hs, List.append_nil]
      split
      · have h := normalPhase_conserves (adaptTimings (checkCongestion s)).1
        rw [(adaptTimings_allVehicles _).1, allVehicles_checkCongestion] at h
        rw [(adaptTimings_allVehicles _).2, List.nil_append]
        exact h
      · have h := normalPhase_conserves (checkCongestion s)
        rw [allVehicles_checkCongestion] at h
        simpa using h

/-! ## Arrival lines in the log -/

theorem arrivedVehicles_append (a b : List Event) :
    arrivedVehicles (a ++ b) = arrivedVehicles a ++ arrivedVehicles b := by
  simp [arrivedVehicles]

theorem arrivedVehicles_priorityPassed (l : List Vehicle) :
    arrivedVehicles (l.map Event.priorityPassed) = [] := by
  induction l with
  | nil => rfl
  | cons v l ih =>
    simp only [arrivedVehicles] at ih
    simp [arrivedVehicles, Event.arrival, ih]

theorem arrivedVehicles_passed (l : List Vehicle) (dirName : String) :
    arrivedVehicles (l.map (fun v => Event.passed v dirName)) = [] := by
  induction l with
  | nil => rfl
  | cons v l ih =>
    simp only [arrivedVehicles] at ih
    simp [arrivedVehicles, Event.arrival, ih]

theorem arrivedVehicles_processDirection (primary secondary : List Vehicle) (dirName : String) :
    arrivedVehicles (processDirection primary secondary dirName).2.2 = [] := by
  rw [processDirection_eq]
  simp only [arrivedVehicles_append, arrivedVehicles_priorityPassed, arrivedVehicles_passed]
  rfl

theorem arrivedVehicles_handleCongestionLoop (n : Nat) (s : Intersection) :
    arrivedVehicles (handleCongestionLoop n s).2 = [] := by
  induction n generalizing s with
  | zero => rfl
  | succ n ih =>
    simp only [handleCongestionLoop, congestionRound, arrivedVehicles_append,
      arrivedVehicles_processDirection, ih, List.append_nil]

theorem arrivedVehicles_normalPhase (s : Intersection) :
    arrivedVehicles (normalPhase s).2 = [] := by
  unfold normalPhase
  split
  · exact arrivedVehicles_processDirection _ _ _
  · exact arrivedVehicles_processDirection _ _ _
  · rfl

theorem arrivedVehicles_runTrafficLightIteration (s : Intersection) :
    arrivedVehicles (runTrafficLightIteration s).2 = [] := by
  unfold runTrafficLightIteration
  dsimp only
  split
  · rw [handleEmergency_eq]
    simp only [arrivedVehicles_append, arrivedVehicles_priorityPassed]
    rfl
  · split
    · simp only [handleCongestion, arrivedVehicles_append, arrivedVehicles_handleCongestionLoop]
      rfl
    · simp only [arrivedVehicles_append, arrivedVehicles_normalPhase]
      split <;> rfl

/-! ## Conservation along an interleaving -/

theorem addVehicle_conserves (s : Intersection) (type : VehicleType) (direction : String)
    (now : Nat) (h : validDirection direction) :
    (↑(allVehicles s) : Multiset Vehicle) + ↑(arrivedVehicles (addVehicle s type direction now).2)
      = ↑(allVehicles (addVehicle s type direction now).1)
        + ↑(servicedVehicles (addVehicle s type direction now).2) := by
  have ha : arrivedVehicles (addVehicle s type direction now).2
      = [{ id := s.vehicleId, type := type, arrivalTime := now }] := rfl
  have hs : servicedVehicles (addVehicle s type direction now).2 = [] := rfl
  rw [ha, hs]
  rcases h with h | h | h | h <;> subst h <;>
    by_cases ht : type = VehicleType.EMERGENCY <;>
    simp only [addVehicle, ht, if_true, if_false, coe_allVehicles, ← Multiset.coe_add,
      String.reduceEq] <;>
    abel

theorem step_conserves (s : Intersection) (op : Op) (h : op.wellDirected = true) :
    (↑(allVehicles s) : Multiset Vehicle) + ↑(arrivedVehicles (step s op).2)
      = ↑(allVehicles (step s op).1) + ↑(servicedVehicles (step s op).2) := by
  cases op with
  | arrive type direction now =>
    exact addVehicle_conserves s type direction now (by simpa [Op.wellDirected] using h)
  | arriveElsewhere => simp [step, allVehicles, arrivedVehicles, servicedVehicles]
  | iterate =>
    simp only [step, arrivedVehicles_runTrafficLightIteration]
    simpa using runTrafficLightIteration_conserves s

theorem exec_conserves (ops : List Op) (s : Intersection)
    (h : ∀ op ∈ ops, op.wellDirected = true) :
    (↑(allVehicles s) : Multiset Vehicle) + ↑(arrivedVehicles (exec s ops).2)
      = ↑(allVehicles (exec s ops).1) + ↑(servicedVehicles (exec s ops).2) := by
  induction ops generalizing s with
  | nil => simp [exec, arrivedVehicles, servicedVehicles]
  | cons op ops ih =>
    have h1 := step_conserves s op (h op (List.mem_cons_self _ _))
    have h2 := ih (step s op).1 (fun o ho => h o (List.mem_cons_of_mem _ ho))
    simp only [exec, arrivedVehicles_append, servicedVehicles_append, ← Multiset.coe_add]
    calc (↑(allVehicles s) : Multiset Vehicle)
          + (↑(arrivedVehicles (step s op).2) + ↑(arrivedVehicles (exec (step s op).1 ops).2))
        = (↑(allVehicles s) + ↑(arrivedVehicles (step s op).2))
          + ↑(arrivedVehicles (exec (step s op).1 ops).2) := by abel
      _ = (↑(allVehicles (step s op).1) + ↑(arrivedVehicles (exec (step s op).1 ops).2))
          + ↑(servicedVehicles (step s op).2) := by rw [h1]; abel
      _ = _ := by rw [h2]; abel

/-! ## C3: no vehicle is lost or duplicated -/

/-- C3: every control-loop iteration conserves vehicles: the vehicles queued
before it are, as a multiset, the vehicles queued after it plus the vehicles it
logged as serviced, and so the total before equals the total after plus the
number serviced; an arrival from a recognised direction raises the total by
exactly one; and after any interleaving of arrivals from recognised directions
(at this or another intersection) and iterations, started on a fresh
intersection, the vehicles logged as arrived are the queued vehicles plus the
vehicles logged as serviced, so the total reported by `printStatus` is the
number of arrivals minus the number serviced. -/
theorem C3_no_vehicle_lost_or_duplicated (id : Int) (ops : List Op)
    (h : ∀ op ∈ ops, op.wellDirected = true) :
    (∀ s : Intersection,
        (↑(allVehicles s) : Multiset Vehicle)
          = ↑(allVehicles (runTrafficLightIteration s).1)
            + ↑(servicedVehicles (runTrafficLightIteration s).2)
        ∧ getTotalVehicles s
          = getTotalVehicles (runTrafficLightIteration s).1
            + (servicedVehicles (runTrafficLightIteration s).2).length) ∧
    (∀ (s : Intersection) (type : VehicleType) (direction : String) (now : Nat),
        validDirection direction →
          getTotalVehicles (addVehicle s type direction now).1 = getTotalVehicles s + 1) ∧
    (↑(arrivedVehicles (exec (Intersection.fresh id) ops).2) : Multiset Vehicle)
      = ↑(allVehicles (exec (Intersection.fresh id) ops).1)
        + ↑(servicedVehicles (exec (Intersection.fresh id) ops).2) ∧
    (servicedVehicles (exec (Intersection.fresh id) ops).2).length
      ≤ (arrivedVehicles (exec (Intersection.fresh id) ops).2).length ∧
    (printStatus (exec (Intersection.fresh id) ops).1).total
      = (arrivedVehicles (exec (Intersection.fresh id) ops).2).length
        - (servicedVehicles (exec (Intersection.fresh id) ops).2).length := by
  have hexec := exec_conserves ops (Intersection.fresh id) h
  have h0 : allVehicles (Intersection.fresh id) = [] := rfl
  rw [h0] at hexec
  have hexec2 : (↑(arrivedVehicles (exec (Intersection.fresh id) ops).2) : Multiset Vehicle)
      = ↑(allVehicles (exec (Intersection.fresh id) ops).1)
        + ↑(servicedVehicles (exec (Intersection.fresh id) ops).2) := by
    rw [← hexec]; simp
  have hcard := congrArg Multiset.card hexec2
  simp only [Multiset.coe_card, Multiset.card_add] at hcard
  refine ⟨fun s => ⟨runTrafficLightIteration_conserves s, ?_⟩, ?_, hexec2, ?_, ?_⟩
  · have hc := congrArg Multiset.card (runTrafficLightIteration_conserves s)
    simp only [Multiset.coe_card, Multiset.card_add] at hc
    rw [getTotalVehicles_eq_length, getTotalVehicles_eq_length]
    exact hc
  · intro s type direction now hd
    have hc := congrArg Multiset.card (addVehicle_conserves s type direction now hd)
    have ha : arrivedVehicles (addVehicle s type direction now).2
        = [{ id := s.vehicleId, type := type, arrivalTime := now }] := rfl
    have hs : servicedVehicles (addVehicle s type direction now).2 = [] := rfl
    rw [ha, hs] at hc
    simp only [Multiset.coe_card, Multiset.card_add, List.length_singleton,
      List.length_nil] at hc
    rw [getTotalVehicles_eq_length, getTotalVehicles_eq_length]
    omega
  · omega
  · simp only [printStatus]
    rw [getTotalVehicles_eq_length]
    omega

/-- Witness for C3: three Normal arrivals at North, one Emergency arrival at
South, an arrival elsewhere and two iterations. -/
theorem C3_no_vehicle_lost_or_duplicated_witness :
    (∀ op ∈ [Op.arrive VehicleType.CAR "north" 0, Op.arrive VehicleType.CAR "north" 1,
              Op.arrive VehicleType.CAR "north" 2, Op.arrive VehicleType.EMERGENCY "south" 3,
              Op.arriveElsewhere, Op.iterate, Op.iterate], op.wellDirected = true) ∧
    (printStatus (exec (Intersection.fresh 1)
        [Op.arrive VehicleType.CAR "north" 0, Op.arrive VehicleType.CAR "north" 1,
          Op.arrive VehicleType.CAR "north" 2, Op.arrive VehicleType.EMERGENCY "south" 3,
          Op.arriveElsewhere, Op.iterate, Op.iterate]).1).total
      = (arrivedVehicles (exec (Intersection.fresh 1)
          [Op.arrive VehicleType.CAR "north" 0, Op.arrive VehicleType.CAR "north" 1,
            Op.arrive VehicleType.CAR "north" 2, Op.arrive VehicleType.EMERGENCY "south" 3,
            Op.arriveElsewhere, Op.iterate, Op.iterate]).2).length
        - (servicedVehicles (exec (Intersection.fresh 1)
          [Op.arrive VehicleType.CAR "north" 0, Op.arrive VehicleType.CAR "north" 1,
            Op.arrive VehicleType.CAR "north" 2, Op.arrive VehicleType.EMERGENCY "south" 3,
            Op.arriveElsewhere, Op.iterate, Op.iterate]).2).length :=
  ⟨by decide,
    (C3_no_vehicle_lost_or_duplicated 1
      [Op.arrive VehicleType.CAR "north" 0, Op.arrive VehicleType.CAR "north" 1,
        Op.arrive VehicleType.CAR "north" 2, Op.arrive VehicleType.EMERGENCY "south" 3,
        Op.arriveElsewhere, Op.iterate, Op.iterate] (by decide)).2.2.2.2⟩

/-! ## First-in first-out service -/

theorem passedVehicles_append (a b : List Event) :
    passedVehicles (a ++ b) = passedVehicles a ++ passedVehicles b := by
  simp [passedVehicles]

theorem passedVehicles_priorityPassed (l : List Vehicle) :
    passedVehicles (l.map Event.priorityPassed) = [] := by
  induction l with
  | nil => rfl
  | cons v l ih =>
    simp only [passedVehicles] at ih
    simp [passedVehicles, Event.passedVehicle, ih]

theorem passedVehicles_passed (l : List Vehicle) (dirName : String) :
    passedVehicles (l.map (fun v => Event.passed v dirName)) = l := by
  induction l with
  | nil => rfl
  | cons v l ih =>
    simp only [passedVehicles] at ih
    simp [passedVehicles, Event.passedVehicle, ih]

theorem passedVehicles_processDirection (primary secondary : List Vehicle) (dirName : String) :
    passedVehicles (processDirection primary secondary dirName).2.2
      = (nonEmergency primary).take 1 ++ (nonEmergency secondary).take 1 := by
  rw [processDirection_eq]
  simp only [passedVehicles_append, passedVehicles_priorityPassed, passedVehicles_passed]
  have hg : passedVehicles [Event.green dirName] = [] := rfl
  simp [hg]

theorem nonEmergency_of_emergencyFree (q : List Vehicle) (h : emergencyFree q) :
    nonEmergency q = q := by
  unfold nonEmergency
  rw [List.filter_eq_self]
  intro v hv
  simpa [isEmergency] using h v hv

theorem emergencyFree_of_suffix (dq q q2 : List Vehicle) (h : q = dq ++ q2)
    (hq : emergencyFree q) : emergencyFree q2 := by
  intro v hv
  exact hq v (by rw [h]; exact List.mem_append_right _ hv)

theorem FifoStep.same (q : List Vehicle) (log : List Event) : FifoStep q q log :=
  ⟨[], rfl, List.nil_sublist _⟩

theorem FifoStep.comp (q q1 q2 : List Vehicle) (l1 l2 : List Event)
    (h1 : FifoStep q q1 l1) (h2 : FifoStep q1 q2 l2) : FifoStep q q2 (l1 ++ l2) := by
  obtain ⟨d1, e1, s1⟩ := h1
  obtain ⟨d2, e2, s2⟩ := h2
  refine ⟨d1 ++ d2, ?_, ?_⟩
  · rw [e1, e2, List.append_assoc]
  · rw [passedVehicles_append]
    exact List.Sublist.append s1 s2

theorem FifoStep.log_left (q q2 : List Vehicle) (l0 l : List Event) (h : FifoStep q q2 l) :
    FifoStep q q2 (l0 ++ l) := by
  have := FifoStep.comp q q q2 l0 l (FifoStep.same q l0) h
  exact this

theorem FifoStep.log_right (q q2 : List Vehicle) (l l0 : List Event) (h : FifoStep q q2 l) :
    FifoStep q q2 (l ++ l0) := by
  have := FifoStep.comp q q2 q2 l l0 h (FifoStep.same q2 l0)
  exact this

theorem processDirection_fifo_primary (primary secondary : List Vehicle) (dirName : String)
    (h : emergencyFree primary) :
    FifoStep primary (processDirection primary secondary dirName).1
      (processDirection primary secondary dirName).2.2 := by
  refine ⟨primary.take 1, ?_, ?_⟩
  · rw [processDirection_eq, nonEmergency_of_emergencyFree primary h]
    exact (List.take_append_drop 1 primary).symm
  · rw [passedVehicles_processDirection, nonEmergency_of_emergencyFree primary h]
    exact List.sublist_append_left _ _

theorem processDirection_fifo_secondary (primary secondary : List Vehicle) (dirName : String)
    (h : emergencyFree secondary) :
    FifoStep secondary (processDirection primary secondary dirName).2.1
      (processDirection primary secondary dirName).2.2 := by
  refine ⟨secondary.take 1, ?_, ?_⟩
  · rw [processDirection_eq, nonEmergency_of_emergencyFree secondary h]
    exact (List.take_append_drop 1 secondary).symm
  · rw [passedVehicles_processDirection, nonEmergency_of_emergencyFree secondary h]
    exact List.sublist_append_right _ _

theorem congestionRound_fifo (d : Direction) (s : Intersection)
    (h : emergencyFree (queueAt s d)) :
    FifoStep (queueAt s d) (queueAt (congestionRound s).1 d) (congestionRound s).2 := by
  cases d with
  | north =>
    exact FifoStep.log_right _ _ _ _ (processDirection_fifo_primary _ _ _ h)
  | south =>
    exact FifoStep.log_right _ _ _ _ (processDirection_fifo_secondary _ _ _ h)
  | east =>
    exact FifoStep.log_left _ _ _ _ (processDirection_fifo_primary _ _ _ h)
  | west =>
    exact FifoStep.log_left _ _ _ _ (processDirection_fifo_secondary _ _ _ h)

theorem FifoStep.emergencyFree (q q2 : List Vehicle) (log : List Event)
    (h : FifoStep q q2 log) (hq : emergencyFree q) : Task2.emergencyFree q2 := by
  obtain ⟨dq, e, _⟩ := h
  exact emergencyFree_of_suffix dq q q2 e hq

theorem handleCongestionLoop_fifo (d : Direction) (n : Nat) (s : Intersection)
    (h : emergencyFree (queueAt s d)) :
    FifoStep (queueAt s d) (queueAt (handleCongestionLoop n s).1 d)
      (handleCongestionLoop n s).2 := by
  induction n generalizing s with
  | zero => exact FifoStep.same _ _
  | succ n ih =>
    have h1 := congestionRound_fifo d s h
    have h2 := ih (congestionRound s).1 (FifoStep.emergencyFree _ _ _ h1 h)
    exact FifoStep.comp _ _ _ _ _ h1 h2

theorem normalPhase_fifo (d : Direction) (s : Intersection)
    (h : emergencyFree (queueAt s d)) :
    FifoStep (queueAt s d) (queueAt (normalPhase s).1 d) (normalPhase s).2 := by
  unfold normalPhase
  split
  · cases d with
    | north => exact processDirection_fifo_primary _ _ _ h
    | south => exact processDirection_fifo_secondary _ _ _ h
    | east => exact FifoStep.same _ _
    | west => exact FifoStep.same _ _
  · cases d with
    | north => exact FifoStep.same _ _
    | south => exact FifoStep.same _ _
    | east => exact processDirection_fifo_primary _ _ _ h
    | west => exact processDirection_fifo_secondary _ _ _ h
  · exact FifoStep.same _ _

theorem queueAt_checkCongestion (d : Direction) (s : Intersection) :
    queueAt (checkCongestion s) d = queueAt s d := by
  unfold checkCongestion
  split <;> cases d <;> rfl

theorem queueAt_adaptTimings (d : Direction) (s : Intersection) :
    queueAt (adaptTimings s).1 d = queueAt s d := by
  unfold adaptTimings
  dsimp only
  split
  · cases d <;> rfl
  · split <;> cases d <;> rfl

theorem runTrafficLightIteration_fifo (d : Direction) (s : Intersection)
    (h : emergencyFree (queueAt s d)) :
    FifoStep (queueAt s d) (queueAt (runTrafficLightIteration s).1 d)
      (runTrafficLightIteration s).2 := by
  have hc := queueAt_checkCongestion d s
  unfold runTrafficLightIteration
  dsimp only
  split
  · rw [handleEmergency_eq]
    have hq : queueAt { checkCongestion s with
          currentState := LightState.EMERGENCY
          northQueue := nonEmergency (checkCongestion s).northQueue
          southQueue := nonEmergency (checkCongestion s).southQueue
          eastQueue := nonEmergency (checkCongestion s).eastQueue
          westQueue := nonEmergency (checkCongestion s).westQueue
          emergencyFlag := false } d = queueAt s d := by
      rw [← nonEmergency_of_emergencyFree _ h, ← hc]
      cases d <;> rfl
    exact ⟨[], by rw [List.nil_append]; exact hq.symm, List.nil_sublist _⟩
  · split
    · have hl := handleCongestionLoop_fifo d 2
        { checkCongestion s with currentState := LightState.CONGESTION }
        (by
          have e : queueAt { checkCongestion s with currentState := LightState.CONGESTION } d
              = queueAt s d := by rw [← hc]; cases d <;> rfl
          rw [e]; exact h)
      have e1 : queueAt { checkCongestion s with currentState := LightState.CONGESTION } d
          = queueAt s d := by rw [← hc]; cases d <;> rfl
      rw [e1] at hl
      have e2 : queueAt { (handleCongestion
            { checkCongestion s with currentState := LightState.CONGESTION }).1 with
            congestionFlag := false } d
          = queueAt (handleCongestionLoop 2
            { checkCongestion s with currentState := LightState.CONGESTION }).1 d := by
        cases d <;> rfl
      rw [e2]
      unfold handleCongestion
      dsimp only
      exact FifoStep.log_right _ _ _ _ (FifoStep.log_left _ _ _ _
        (FifoStep.log_left _ _ _ _ hl))
    · split
      · have hn := normalPhase_fifo d (adaptTimings (checkCongestion s)).1
          (by rw [queueAt_adaptTimings, hc]; exact h)
        rw [queueAt_adaptTimings, hc] at hn
        exact FifoStep.log_right _ _ _ _ (FifoStep.log_left _ _ _ _ hn)
      · have hn := normalPhase_fifo d (checkCongestion s) (by rw [hc]; exact h)
        rw [hc] at hn
        exact FifoStep.log_right _ _ _ _ (FifoStep.log_left _ _ _ _ hn)

theorem arrivedAt_append (d : Direction) (a b : List Event) :
    arrivedAt d (a ++ b) = arrivedAt d a ++ arrivedAt d b := by
  simp [arrivedAt]

theorem arrivedAt_eq_nil (d : Direction) (log : List Event) (h : arrivedVehicles log = []) :
    arrivedAt d log = [] := by
  unfold arrivedAt
  unfold arrivedVehicles at h
  rw [List.filterMap_eq_nil_iff] at h ⊢
  intro e he
  have h1 := h e he
  cases e <;> simp_all [Event.arrival, Event.arrivalAt]

theorem addVehicle_arrivedAt (d : Direction) (s : Intersection) (type : VehicleType)
    (direction : String) (now : Nat) :
    arrivedAt d (addVehicle s type direction now).2
      = if direction = d.name then [{ id := s.vehicleId, type := type, arrivalTime := now }]
        else [] := by
  by_cases hd : direction = d.name <;> simp [addVehicle, arrivedAt, Event.arrivalAt, hd]

theorem addVehicle_queueAt (d : Direction) (s : Intersection) (type : VehicleType)
    (direction : String) (now : Nat) :
    queueAt (addVehicle s type direction now).1 d
      = queueAt s d ++ arrivedAt d (addVehicle s type direction now).2 := by
  rw [addVehicle_arrivedAt]
  by_cases h1 : direction = "north"
  · subst h1
    cases d <;> by_cases ht : type = VehicleType.EMERGENCY <;>
      simp [addVehicle, queueAt, Direction.name, ht]
  · by_cases h2 : direction = "south"
    · subst h2
      cases d <;> by_cases ht : type = VehicleType.EMERGENCY <;>
        simp [addVehicle, queueAt, Direction.name, ht]
    · by_cases h3 : direction = "east"
      · subst h3
        cases d <;> by_cases ht : type = VehicleType.EMERGENCY <;>
          simp [addVehicle, queueAt, Direction.name, ht]
      · by_cases h4 : direction = "west"
        · subst h4
          cases d <;> by_cases ht : type = VehicleType.EMERGENCY <;>
            simp [addVehicle, queueAt, Direction.name, ht]
        · cases d <;> by_cases ht : type = VehicleType.EMERGENCY <;>
            simp [addVehicle, queueAt, Direction.name, ht, h1, h2, h3, h4]

theorem addVehicle_arrivedAt_type (d : Direction) (s : Intersection) (type : VehicleType)
    (direction : String) (now : Nat) :
    ∀ v ∈ arrivedAt d (addVehicle s type direction now).2,
      v.type = type ∧ direction = d.name := by
  intro v hv
  rw [addVehicle_arrivedAt] at hv
  by_cases hd : direction = d.name
  · rw [if_pos hd, List.mem_singleton] at hv
    subst hv
    exact ⟨rfl, hd⟩
  · rw [if_neg hd] at hv
    exact absurd hv (List.not_mem_nil _)

theorem step_fifo (d : Direction) (s : Intersection) (op : Op)
    (hq : emergencyFree (queueAt s d)) (h : op.emergencyAt d = false) :
    emergencyFree (queueAt (step s op).1 d) ∧
    ∃ dequeued : List Vehicle,
      queueAt s d ++ arrivedAt d (step s op).2 = dequeued ++ queueAt (step s op).1 d ∧
      dequeued.Sublist (passedVehicles (step s op).2) := by
  cases op with
  | arrive type direction now =>
    simp only [step]
    rw [addVehicle_queueAt]
    refine ⟨?_, [], by simp, List.nil_sublist _⟩
    intro v hv
    rcases List.mem_append.1 hv with hv | hv
    · exact hq v hv
    · obtain ⟨ht, hd⟩ := addVehicle_arrivedAt_type d s type direction now v hv
      intro he
      rw [ht] at he
      simp [Op.emergencyAt, he, hd] at h
  | arriveElsewhere =>
    have e : queueAt (step s Op.arriveElsewhere).1 d = queueAt s d := by cases d <;> rfl
    rw [e]
    exact ⟨hq, [], by simp [step, arrivedAt], List.nil_sublist _⟩
  | iterate =>
    have hf := runTrafficLightIteration_fifo d s hq
    refine ⟨FifoStep.emergencyFree _ _ _ hf hq, ?_⟩
    obtain ⟨dq, e, hs⟩ := hf
    refine ⟨dq, ?_, hs⟩
    simp only [step]
    rw [arrivedAt_eq_nil d _ (arrivedVehicles_runTrafficLightIteration s), List.append_nil]
    exact e

theorem exec_fifo (d : Direction) (ops : List Op) (s : Intersection)
    (hq : emergencyFree (queueAt s d)) (h : ∀ op ∈ ops, op.emergencyAt d = false) :
    ∃ dequeued : List Vehicle,
      queueAt s d ++ arrivedAt d (exec s ops).2 = dequeued ++ queueAt (exec s ops).1 d ∧
      dequeued.Sublist (passedVehicles (exec s ops).2) := by
  induction ops generalizing s with
  | nil => exact ⟨[], by simp [exec, arrivedAt], List.nil_sublist _⟩
  | cons op ops ih =>
    obtain ⟨hq1, dq1, e1, s1⟩ := step_fifo d s op hq (h op (List.mem_cons_self _ _))
    obtain ⟨dq2, e2, s2⟩ := ih (step s op).1 hq1 (fun o ho => h o (List.mem_cons_of_mem _ ho))
    refine ⟨dq1 ++ dq2, ?_, ?_⟩
    · simp only [exec, arrivedAt_append]
      rw [← List.append_assoc, e1, List.append_assoc, e2, List.append_assoc]
    · simp only [exec, passedVehicles_append]
      exact List.Sublist.append s1 s2

/-! ## C4: FIFO service of a direction without Emergency vehicles -/

/-- C4: take any interleaving of arrivals and control-loop iterations, started
on a fresh intersection, in which no Emergency vehicle arrives from direction
`d`.  Then the vehicles that arrived from `d`, in arrival order, split into a
front segment of dequeued vehicles followed by exactly the current contents of
the queue of `d`, in order; and the dequeued vehicles appear in the log of
vehicles that passed on green in that same (arrival) order. -/
theorem C4_fifo_without_emergency (id : Int) (d : Direction) (ops : List Op)
    (h : ∀ op ∈ ops, op.emergencyAt d = false) :
    ∃ dequeued : List Vehicle,
      arrivedAt d (exec (Intersection.fresh id) ops).2
        = dequeued ++ queueAt (exec (Intersection.fresh id) ops).1 d ∧
      dequeued.Sublist (passedVehicles (exec (Intersection.fresh id) ops).2) := by
  have hq : emergencyFree (queueAt (Intersection.fresh id) d) := by
    intro v hv
    cases d <;> simp [queueAt, Intersection.fresh] at hv
  obtain ⟨dq, e, hs⟩ := exec_fifo d ops (Intersection.fresh id) hq h
  refine ⟨dq, ?_, hs⟩
  have e0 : queueAt (Intersection.fresh id) d = [] := by cases d <;> rfl
  rw [e0, List.nil_append] at e
  exact e

/-- Witness for C4: a Normal vehicle arrives at South and three at North, with
three iterations in between (North-South, East-West, North-South).  Two
vehicles are dequeued from North: the first two that arrived there, in arrival
order, and the third is what the queue still holds. -/
theorem C4_fifo_without_emergency_witness :
    (∀ op ∈ [Op.arrive VehicleType.CAR "south" 0, Op.arrive VehicleType.CAR "north" 1,
              Op.arrive VehicleType.CAR "north" 2, Op.iterate,
              Op.arrive VehicleType.CAR "north" 3, Op.iterate, Op.iterate],
        op.emergencyAt Direction.north = false) ∧
    passedVehicles (exec (Intersection.fresh 1)
        [Op.arrive VehicleType.CAR "south" 0, Op.arrive VehicleType.CAR "north" 1,
          Op.arrive VehicleType.CAR "north" 2, Op.iterate,
          Op.arrive VehicleType.CAR "north" 3, Op.iterate, Op.iterate]).2
      = [{ id := 2, type := VehicleType.CAR, arrivalTime := 1 },
         { id := 1, type := VehicleType.CAR, arrivalTime := 0 },
         { id := 3, type := VehicleType.CAR, arrivalTime := 2 }] ∧
    ∃ dequeued : List Vehicle,
      dequeued = [{ id := 2, type := VehicleType.CAR, arrivalTime := 1 },
                  { id := 3, type := VehicleType.CAR, arrivalTime := 2 }] ∧
      arrivedAt Direction.north (exec (Intersection.fresh 1)
          [Op.arrive VehicleType.CAR "south" 0, Op.arrive VehicleType.CAR "north" 1,
            Op.arrive VehicleType.CAR "north" 2, Op.iterate,
            Op.arrive VehicleType.CAR "north" 3, Op.iterate, Op.iterate]).2
        = dequeued ++ queueAt (exec (Intersection.fresh 1)
          [Op.arrive VehicleType.CAR "south" 0, Op.arrive VehicleType.CAR "north" 1,
            Op.arrive VehicleType.CAR "north" 2, Op.iterate,
            Op.arrive VehicleType.CAR "north" 3, Op.iterate, Op.iterate]).1 Direction.north ∧
      dequeued.Sublist (passedVehicles (exec (Intersection.fresh 1)
          [Op.arrive VehicleType.CAR "south" 0, Op.arrive VehicleType.CAR "north" 1,
            Op.arrive VehicleType.CAR "north" 2, Op.iterate,
            Op.arrive VehicleType.CAR "north" 3, Op.iterate, Op.iterate]).2) := by
  refine ⟨by decide, by decide, ?_⟩
  obtain ⟨dequeued, h1, h2⟩ := C4_fifo_without_emergency 1 Direction.north
    [Op.arrive VehicleType.CAR "south" 0, Op.arrive VehicleType.CAR "north" 1,
      Op.arrive VehicleType.CAR "north" 2, Op.iterate,
      Op.arrive VehicleType.CAR "north" 3, Op.iterate, Op.iterate] (by decide)
  refine ⟨dequeued, ?_, h1, h2⟩
  have ha : arrivedAt Direction.north (exec (Intersection.fresh 1)
      [Op.arrive VehicleType.CAR "south" 0, Op.arrive VehicleType.CAR "north" 1,
        Op.arrive VehicleType.CAR "north" 2, Op.iterate,
        Op.arrive VehicleType.CAR "north" 3, Op.iterate, Op.iterate]).2
      = [{ id := 2, type := VehicleType.CAR, arrivalTime := 1 },
         { id := 3, type := VehicleType.CAR, arrivalTime := 2 }]
        ++ [{ id := 4, type := VehicleType.CAR, arrivalTime := 3 }] := by decide
  have hq : queueAt (exec (Intersection.fresh 1)
      [Op.arrive VehicleType.CAR "south" 0, Op.arrive VehicleType.CAR "north" 1,
        Op.arrive VehicleType.CAR "north" 2, Op.iterate,
        Op.arrive VehicleType.CAR "north" 3, Op.iterate, Op.iterate]).1 Direction.north
      = [{ id := 4, type := VehicleType.CAR, arrivalTime := 3 }] := by decide
  rw [ha, hq] at h1
  exact (List.append_cancel_right h1).symm

/-! ## C5 and C6: the emergency path -/

theorem getTotalVehicles_checkCongestion (s : Intersection) :
    checkCongestion s
      = { s with congestionFlag := s.congestionFlag || decide (getTotalVehicles s > 10) } := by
  unfold checkCongestion
  by_cases h : getTotalVehicles s > 10 <;> simp [h]

theorem runTrafficLightIteration_emergency (s : Intersection) (h : s.emergencyFlag = true) :
    runTrafficLightIteration s
      = ({ s with
            northQueue := nonEmergency s.northQueue
            southQueue := nonEmergency s.southQueue
            eastQueue := nonEmergency s.eastQueue
            westQueue := nonEmergency s.westQueue
            currentState := LightState.EMERGENCY
            emergencyFlag := false
            congestionFlag := s.congestionFlag || decide (getTotalVehicles s > 10) },
          [Event.lock, Event.emergencyMode]
            ++ (emergencies s.northQueue).map Event.priorityPassed
            ++ (emergencies s.southQueue).map Event.priorityPassed
            ++ (emergencies s.eastQueue).map Event.priorityPassed
            ++ (emergencies s.westQueue).map Event.priorityPassed
            ++ [Event.sleep 5, Event.unlock]) := by
  unfold runTrafficLightIteration
  rw [getTotalVehicles_checkCongestion]
  simp [h, handleEmergency_eq]

theorem greenPhases_append (a b : List Event) :
    greenPhases (a ++ b) = greenPhases a ++ greenPhases b := by
  simp [greenPhases]

theorem greenPhases_priorityPassed (l : List Vehicle) :
    greenPhases (l.map Event.priorityPassed) = [] := by
  induction l with
  | nil => rfl
  | cons v l ih =>
    simp only [greenPhases] at ih
    simp [greenPhases, Event.greenName, ih]

theorem greenPhases_passed (l : List Vehicle) (dirName : String) :
    greenPhases (l.map (fun v => Event.passed v dirName)) = [] := by
  induction l with
  | nil => rfl
  | cons v l ih =>
    simp only [greenPhases] at ih
    simp [greenPhases, Event.greenName, ih]

theorem mem_emergencies (q : List Vehicle) (v : Vehicle) :
    v ∈ emergencies q ↔ v ∈ q ∧ v.type = VehicleType.EMERGENCY := by
  simp [emergencies, isEmergency]

theorem mem_nonEmergency (q : List Vehicle) (v : Vehicle) :
    v ∈ nonEmergency q ↔ v ∈ q ∧ v.type ≠ VehicleType.EMERGENCY := by
  simp [nonEmergency, isEmergency]

/-- C5: when `emergencyFlag` is set at the start of an iteration (whatever the
total and whatever `congestionFlag`), the iteration runs only the emergency
sweep: the state becomes `EMERGENCY`, `emergencyFlag` is cleared, every queue
keeps exactly its non-Emergency vehicles in order, the log shows the emergency
handler with its 5 s hold under the lock, no green phase (neither a normal one
nor a congestion round) and no congestion handler, no vehicle passes on green,
and every vehicle serviced is Emergency-class. -/
theorem C5_emergency_wins_over_congestion (s : Intersection) (h : s.emergencyFlag = true) :
    runTrafficLightIteration s
      = ({ s with
            northQueue := nonEmergency s.northQueue
            southQueue := nonEmergency s.southQueue
            eastQueue := nonEmergency s.eastQueue
            westQueue := nonEmergency s.westQueue
            currentState := LightState.EMERGENCY
            emergencyFlag := false
            congestionFlag := s.congestionFlag || decide (getTotalVehicles s > 10) },
          [Event.lock, Event.emergencyMode]
            ++ (emergencies s.northQueue).map Event.priorityPassed
            ++ (emergencies s.southQueue).map Event.priorityPassed
            ++ (emergencies s.eastQueue).map Event.priorityPassed
            ++ (emergencies s.westQueue).map Event.priorityPassed
            ++ [Event.sleep 5, Event.unlock]) ∧
    (runTrafficLightIteration s).1.currentState = LightState.EMERGENCY ∧
    (runTrafficLightIteration s).1.emergencyFlag = false ∧
    greenPhases (runTrafficLightIteration s).2 = [] ∧
    Event.congestionMode ∉ (runTrafficLightIteration s).2 ∧
    passedVehicles (runTrafficLightIteration s).2 = [] ∧
    (∀ v ∈ servicedVehicles (runTrafficLightIteration s).2, v.type = VehicleType.EMERGENCY) ∧
    (∀ d : Direction,
      nonEmergency (queueAt (runTrafficLightIteration s).1 d) = nonEmergency (queueAt s d)) := by
  have he := runTrafficLightIteration_emergency s h
  refine ⟨he, ?_, ?_, ?_, ?_, ?_, ?_, ?_⟩
  · rw [he]
  · rw [he]
  · rw [he]
    simp only [greenPhases_append, greenPhases_priorityPassed]
    rfl
  · rw [he]
    simp
  · rw [he]
    simp only [passedVehicles_append, passedVehicles_priorityPassed]
    rfl
  · rw [he]
    simp only [servicedVehicles_append, servicedVehicles_priorityPassed]
    have h1 : servicedVehicles [Event.lock, Event.emergencyMode] = [] := rfl
    have h2 : servicedVehicles [Event.sleep 5, Event.unlock] = [] := rfl
    rw [h1, h2]
    intro v hv
    simp only [List.nil_append, List.append_nil, List.mem_append, mem_emergencies] at hv
    rcases hv with ((hv | hv) | hv) | hv <;> exact hv.2
  · intro d
    rw [he]
    cases d <;> simp [queueAt, nonEmergency]

/-- Witness for C5: eleven queued vehicles, one of them Emergency-class, with
both flags already raised. -/
theorem C5_emergency_wins_over_congestion_witness :
    ({ Intersection.fresh 1 with
        northQueue := List.replicate 6 { id := 1, type := VehicleType.CAR, arrivalTime := 0 }
        eastQueue := { id := 2, type := VehicleType.EMERGENCY, arrivalTime := 0 }
          :: List.replicate 4 { id := 3, type := VehicleType.CAR, arrivalTime := 0 }
        emergencyFlag := true
        congestionFlag := true } : Intersection).emergencyFlag = true ∧
    (runTrafficLightIteration
      { Intersection.fresh 1 with
        northQueue := List.replicate 6 { id := 1, type := VehicleType.CAR, arrivalTime := 0 }
        eastQueue := { id := 2, type := VehicleType.EMERGENCY, arrivalTime := 0 }
          :: List.replicate 4 { id := 3, type := VehicleType.CAR, arrivalTime := 0 }
        emergencyFlag := true
        congestionFlag := true }).1.currentState = LightState.EMERGENCY ∧
    greenPhases (runTrafficLightIteration
      { Intersection.fresh 1 with
        northQueue := List.replicate 6 { id := 1, type := VehicleType.CAR, arrivalTime := 0 }
        eastQueue := { id := 2, type := VehicleType.EMERGENCY, arrivalTime := 0 }
          :: List.replicate 4 { id := 3, type := VehicleType.CAR, arrivalTime := 0 }
        emergencyFlag := true
        congestionFlag := true }).2 = [] :=
  ⟨rfl,
    (C5_emergency_wins_over_congestion _ rfl).2.1,
    (C5_emergency_wins_over_congestion
      { Intersection.fresh 1 with
        northQueue := List.replicate 6 { id := 1, type := VehicleType.CAR, arrivalTime := 0 }
        eastQueue := { id := 2, type := VehicleType.EMERGENCY, arrivalTime := 0 }
          :: List.replicate 4 { id := 3, type := VehicleType.CAR, arrivalTime := 0 }
        emergencyFlag := true
        congestionFlag := true } rfl).2.2.2.1⟩

/-- C6: the emergency handler turns each of the four queues into its
non-Emergency subsequence (original relative order kept) and logs as serviced
exactly the Emergency vehicles it removed, queue by queue, before its 5 s hold.
Scenario: after three Normal arrivals at North and one Emergency arrival at
South on a fresh intersection the status shows North 3, South 1, total 4; one
iteration later North holds the same three vehicles, South is empty and the one
vehicle serviced is the Emergency one. -/
theorem C6_emergency_handler_removes_exactly_emergencies :
    (∀ s : Intersection,
      handleEmergency s
        = ({ s with
              northQueue := nonEmergency s.northQueue
              southQueue := nonEmergency s.southQueue
              eastQueue := nonEmergency s.eastQueue
              westQueue := nonEmergency s.westQueue },
            [Event.emergencyMode]
              ++ (emergencies s.northQueue).map Event.priorityPassed
              ++ (emergencies s.southQueue).map Event.priorityPassed
              ++ (emergencies s.eastQueue).map Event.priorityPassed
              ++ (emergencies s.westQueue).map Event.priorityPassed
              ++ [Event.sleep 5])) ∧
    (∀ (s : Intersection) (d : Direction),
      queueAt (handleEmergency s).1 d = nonEmergency (queueAt s d)) ∧
    (∀ s : Intersection,
      servicedVehicles (handleEmergency s).2
        = emergencies s.northQueue ++ emergencies s.southQueue
          ++ emergencies s.eastQueue ++ emergencies s.westQueue) ∧
    printStatus (exec (Intersection.fresh 1)
        [Op.arrive VehicleType.CAR "north" 0, Op.arrive VehicleType.CAR "north" 1,
          Op.arrive VehicleType.CAR "north" 2, Op.arrive VehicleType.EMERGENCY "south" 3]).1
      = { north := 3, south := 1, east := 0, west := 0, total := 4,
          currentState := LightState.NORTH_SOUTH } ∧
    (exec (Intersection.fresh 1)
        [Op.arrive VehicleType.CAR "north" 0, Op.arrive VehicleType.CAR "north" 1,
          Op.arrive VehicleType.CAR "north" 2, Op.arrive VehicleType.EMERGENCY "south" 3]).1.northQueue
      = [{ id := 1, type := VehicleType.CAR, arrivalTime := 0 },
         { id := 2, type := VehicleType.CAR, arrivalTime := 1 },
         { id := 3, type := VehicleType.CAR, arrivalTime := 2 }] ∧
    (exec (Intersection.fresh 1)
        [Op.arrive VehicleType.CAR "north" 0, Op.arrive VehicleType.CAR "north" 1,
          Op.arrive VehicleType.CAR "north" 2, Op.arrive VehicleType.EMERGENCY "south" 3,
          Op.iterate]).1.northQueue
      = [{ id := 1, type := VehicleType.CAR, arrivalTime := 0 },
         { id := 2, type := VehicleType.CAR, arrivalTime := 1 },
         { id := 3, type := VehicleType.CAR, arrivalTime := 2 }] ∧
    (exec (Intersection.fresh 1)
        [Op.arrive VehicleType.CAR "north" 0, Op.arrive VehicleType.CAR "north" 1,
          Op.arrive VehicleType.CAR "north" 2, Op.arrive VehicleType.EMERGENCY "south" 3,
          Op.iterate]).1.southQueue = [] ∧
    servicedVehicles (exec (Intersection.fresh 1)
        [Op.arrive VehicleType.CAR "north" 0, Op.arrive VehicleType.CAR "north" 1,
          Op.arrive VehicleType.CAR "north" 2, Op.arrive VehicleType.EMERGENCY "south" 3,
          Op.iterate]).2
      = [{ id := 4, type := VehicleType.EMERGENCY, arrivalTime := 3 }] := by
  refine ⟨handleEmergency_eq, ?_, ?_, ?_, ?_, ?_, ?_, ?_⟩
  · intro s d
    rw [handleEmergency_eq]
    cases d <;> rfl
  · intro s
    rw [handleEmergency_eq]
    simp only [servicedVehicles_append, servicedVehicles_priorityPassed]
    have h1 : servicedVehicles [Event.emergencyMode] = [] := rfl
    have h2 : servicedVehicles [Event.sleep 5] = [] := rfl
    rw [h1, h2, List.nil_append, List.append_nil]
  · decide
  · decide
  · decide
  · decide
  · decide

/-! ## C7: the congestion path -/

theorem emergencyFree_nonEmergency (q : List Vehicle) : emergencyFree (nonEmergency q) := by
  intro v hv
  exact ((mem_nonEmergency q v).1 hv).2

theorem emergencyFree_drop (q : List Vehicle) (n : Nat) (h : emergencyFree q) :
    emergencyFree (q.drop n) := by
  intro v hv
  exact h v (List.mem_of_mem_drop hv)

theorem nonEmergency_drop_nonEmergency (q : List Vehicle) (n : Nat) :
    nonEmergency ((nonEmergency q).drop n) = (nonEmergency q).drop n :=
  nonEmergency_of_emergencyFree _ (emergencyFree_drop _ n (emergencyFree_nonEmergency q))

theorem emergencies_of_emergencyFree (q : List Vehicle) (h : emergencyFree q) :
    emergencies q = [] := by
  unfold emergencies
  rw [List.filter_eq_nil_iff]
  intro v hv
  simpa [isEmergency] using h v hv

theorem runTrafficLightIteration_congestion (s : Intersection)
    (he : s.emergencyFlag = false) (ht : getTotalVehicles s > 10) :
    runTrafficLightIteration s
      = ({ s with
            northQueue := (processDirection
              (processDirection s.northQueue s.southQueue "Север-Юг (аварийный режим)").1
              (processDirection s.northQueue s.southQueue "Север-Юг (аварийный режим)").2.1
              "Север-Юг (аварийный режим)").1
            southQueue := (processDirection
              (processDirection s.northQueue s.southQueue "Север-Юг (аварийный режим)").1
              (processDirection s.northQueue s.southQueue "Север-Юг (аварийный режим)").2.1
              "Север-Юг (аварийный режим)").2.1
            eastQueue := (processDirection
              (processDirection s.eastQueue s.westQueue "Восток-Запад (аварийный режим)").1
              (processDirection s.eastQueue s.westQueue "Восток-Запад (аварийный режим)").2.1
              "Восток-Запад (аварийный режим)").1
            westQueue := (processDirection
              (processDirection s.eastQueue s.westQueue "Восток-Запад (аварийный режим)").1
              (processDirection s.eastQueue s.westQueue "Восток-Запад (аварийный режим)").2.1
              "Восток-Запад (аварийный режим)").2.1
            currentState := LightState.CONGESTION
            congestionFlag := false },
          [Event.lock, Event.congestionMode]
            ++ (processDirection s.northQueue s.southQueue "Север-Юг (аварийный режим)").2.2
            ++ (processDirection s.eastQueue s.westQueue "Восток-Запад (аварийный режим)").2.2
            ++ (processDirection
              (processDirection s.northQueue s.southQueue "Север-Юг (аварийный режим)").1
              (processDirection s.northQueue s.southQueue "Север-Юг (аварийный режим)").2.1
              "Север-Юг (аварийный режим)").2.2
            ++ (processDirection
              (processDirection s.eastQueue s.westQueue "Восток-Запад (аварийный режим)").1
              (processDirection s.eastQueue s.westQueue "Восток-Запад (аварийный режим)").2.1
              "Восток-Запад (аварийный режим)").2.2
            ++ [Event.unlock]) := by
  unfold runTrafficLightIteration
  rw [getTotalVehicles_checkCongestion]
  simp [he, ht, handleCongestion, handleCongestionLoop, congestionRound]

theorem processDirection_fst (primary secondary : List Vehicle) (dirName : String) :
    (processDirection primary secondary dirName).1 = (nonEmergency primary).drop 1 := by
  rw [processDirection_eq]

theorem processDirection_snd (primary secondary : List Vehicle) (dirName : String) :
    (processDirection primary secondary dirName).2.1 = (nonEmergency secondary).drop 1 := by
  rw [processDirection_eq]

theorem greenPhases_processDirection (primary secondary : List Vehicle) (dirName : String) :
    greenPhases (processDirection primary secondary dirName).2.2 = [dirName] := by
  rw [processDirection_eq]
  simp only [greenPhases_append, greenPhases_priorityPassed, greenPhases_passed]
  rfl

theorem length_passedVehicles_processDirection (primary secondary : List Vehicle)
    (dirName : String) :
    (passedVehicles (processDirection primary secondary dirName).2.2).length ≤ 2 := by
  rw [passedVehicles_processDirection]
  simp only [List.length_append, List.length_take]
  omega

theorem passedVehicles_processDirection_type (primary secondary : List Vehicle)
    (dirName : String) :
    ∀ v ∈ passedVehicles (processDirection primary secondary dirName).2.2,
      v.type ≠ VehicleType.EMERGENCY := by
  rw [passedVehicles_processDirection]
  intro v hv
  rcases List.mem_append.1 hv with hv | hv
  · exact ((mem_nonEmergency _ v).1 (List.mem_of_mem_take hv)).2
  · exact ((mem_nonEmergency _ v).1 (List.mem_of_mem_take hv)).2

/-- C7: with `emergencyFlag` clear and more than ten vehicles queued, the
iteration sets the state to `CONGESTION`, clears `congestionFlag` and runs,
under the lock and with no sleep, exactly four green phases in the order
North-South, East-West, North-South, East-West, each being the same
`processDirection` a normal phase runs, the second round working on the queues
the first round left.  Each queue ends as its non-Emergency subsequence without
its first two vehicles (all of them when it has fewer), so at most two Normal
vehicles leave each queue; at most eight vehicles pass on green and all of them
are Normal-class. -/
theorem C7_congestion_drain (s : Intersection)
    (he : s.emergencyFlag = false) (ht : getTotalVehicles s > 10) :
    runTrafficLightIteration s
      = ({ s with
            northQueue := (processDirection
              (processDirection s.northQueue s.southQueue "Север-Юг (аварийный режим)").1
              (processDirection s.northQueue s.southQueue "Север-Юг (аварийный режим)").2.1
              "Север-Юг (аварийный режим)").1
            southQueue := (processDirection
              (processDirection s.northQueue s.southQueue "Север-Юг (аварийный режим)").1
              (processDirection s.northQueue s.southQueue "Север-Юг (аварийный режим)").2.1
              "Север-Юг (аварийный режим)").2.1
            eastQueue := (processDirection
              (processDirection s.eastQueue s.westQueue "Восток-Запад (аварийный режим)").1
              (processDirection s.eastQueue s.westQueue "Восток-Запад (аварийный режим)").2.1
              "Восток-Запад (аварийный режим)").1
            westQueue := (processDirection
              (processDirection s.eastQueue s.westQueue "Восток-Запад (аварийный режим)").1
              (processDirection s.eastQueue s.westQueue "Восток-Запад (аварийный режим)").2.1
              "Восток-Запад (аварийный режим)").2.1
            currentState := LightState.CONGESTION
            congestionFlag := false },
          [Event.lock, Event.congestionMode]
            ++ (processDirection s.northQueue s.southQueue "Север-Юг (аварийный режим)").2.2
            ++ (processDirection s.eastQueue s.westQueue "Восток-Запад (аварийный режим)").2.2
            ++ (processDirection
              (processDirection s.northQueue s.southQueue "Север-Юг (аварийный режим)").1
              (processDirection s.northQueue s.southQueue "Север-Юг (аварийный режим)").2.1
              "Север-Юг (аварийный режим)").2.2
            ++ (processDirection
              (processDirection s.eastQueue s.westQueue "Восток-Запад (аварийный режим)").1
              (processDirection s.eastQueue s.westQueue "Восток-Запад (аварийный режим)").2.1
              "Восток-Запад (аварийный режим)").2.2
            ++ [Event.unlock]) ∧
    (runTrafficLightIteration s).1.currentState = LightState.CONGESTION ∧
    (runTrafficLightIteration s).1.congestionFlag = false ∧
    greenPhases (runTrafficLightIteration s).2
      = ["Север-Юг (аварийный режим)", "Восток-Запад (аварийный режим)",
         "Север-Юг (аварийный режим)", "Восток-Запад (аварийный режим)"] ∧
    (∀ d : Direction,
      queueAt (runTrafficLightIteration s).1 d = (nonEmergency (queueAt s d)).drop 2 ∧
      (nonEmergency (queueAt s d)).length - (queueAt (runTrafficLightIteration s).1 d).length
        = min 2 (nonEmergency (queueAt s d)).length) ∧
    (passedVehicles (runTrafficLightIteration s).2).length ≤ 8 ∧
    (∀ v ∈ passedVehicles (runTrafficLightIteration s).2, v.type ≠ VehicleType.EMERGENCY) := by
  have hc := runTrafficLightIteration_congestion s he ht
  have hq : ∀ d : Direction,
      queueAt (runTrafficLightIteration s).1 d = (nonEmergency (queueAt s d)).drop 2 := by
    intro d
    rw [hc]
    cases d <;>
      simp only [queueAt, processDirection_fst, processDirection_snd,
        nonEmergency_drop_nonEmergency, List.drop_drop]
  refine ⟨hc, ?_, ?_, ?_, ?_, ?_, ?_⟩
  · rw [hc]
  · rw [hc]
  · rw [hc]
    simp only [greenPhases_append, greenPhases_processDirection]
    rfl
  · intro d
    refine ⟨hq d, ?_⟩
    rw [hq d, List.length_drop]
    omega
  · rw [hc]
    simp only [passedVehicles_append]
    have h1 : passedVehicles [Event.lock, Event.congestionMode] = [] := rfl
    have h2 : passedVehicles [Event.unlock] = [] := rfl
    rw [h1, h2]
    simp only [List.nil_append, List.append_nil, List.length_append]
    have a1 := length_passedVehicles_processDirection s.northQueue s.southQueue
      "Север-Юг (аварийный режим)"
    have a2 := length_passedVehicles_processDirection s.eastQueue s.westQueue
      "Восток-Запад (аварийный режим)"
    have a3 := length_passedVehicles_processDirection
      (processDirection s.northQueue s.southQueue "Север-Юг (аварийный режим)").1
      (processDirection s.northQueue s.southQueue "Север-Юг (аварийный режим)").2.1
      "Север-Юг (аварийный режим)"
    have a4 := length_passedVehicles_processDirection
      (processDirection s.eastQueue s.westQueue "Восток-Запад (аварийный режим)").1
      (processDirection s.eastQueue s.westQueue "Восток-Запад (аварийный режим)").2.1
      "Восток-Запад (аварийный режим)"
    omega
  · rw [hc]
    simp only [passedVehicles_append]
    have h1 : passedVehicles [Event.lock, Event.congestionMode] = [] := rfl
    have h2 : passedVehicles [Event.unlock] = [] := rfl
    rw [h1, h2]
    intro v hv
    simp only [List.nil_append, List.append_nil, List.mem_append] at hv
    rcases hv with ((hv | hv) | hv) | hv <;>
      exact passedVehicles_processDirection_type _ _ _ v hv

/-- Witness for C7: eleven Normal vehicles, six at North and five at East. -/
theorem C7_congestion_drain_witness :
    ({ Intersection.fresh 1 with
        northQueue := List.replicate 6 { id := 1, type := VehicleType.CAR, arrivalTime := 0 }
        eastQueue := List.replicate 5 { id := 3, type := VehicleType.CAR, arrivalTime := 0 } }
      : Intersection).emergencyFlag = false ∧
    getTotalVehicles
      { Intersection.fresh 1 with
        northQueue := List.replicate 6 { id := 1, type := VehicleType.CAR, arrivalTime := 0 }
        eastQueue := List.replicate 5 { id := 3, type := VehicleType.CAR, arrivalTime := 0 } }
      > 10 ∧
    greenPhases (runTrafficLightIteration
      { Intersection.fresh 1 with
        northQueue := List.replicate 6 { id := 1, type := VehicleType.CAR, arrivalTime := 0 }
        eastQueue := List.replicate 5 { id := 3, type := VehicleType.CAR, arrivalTime := 0 } }).2
      = ["Север-Юг (аварийный режим)", "Восток-Запад (аварийный режим)",
         "Север-Юг (аварийный режим)", "Восток-Запад (аварийный режим)"] :=
  ⟨rfl, by decide,
    (C7_congestion_drain
      { Intersection.fresh 1 with
        northQueue := List.replicate 6 { id := 1, type := VehicleType.CAR, arrivalTime := 0 }
        eastQueue := List.replicate 5 { id := 3, type := VehicleType.CAR, arrivalTime := 0 } }
      rfl (by decide)).2.2.2.1⟩

/-! ## C8: the adaptive timer -/

/-- C8: `adaptTimings` changes nothing but the two green durations, and sets
them from the combined sizes `ns` (North + South) and `ew` (East + West) alone:
(15, 5) when `ns > 2 * ew`, (5, 15) when `ew > 2 * ns`, (10, 10) otherwise,
whatever the durations were before; it logs the new pair.  Examples: sizes 12
and 3 give (15, 5); sizes 6 and 5 give (10, 10). -/
theorem C8_adaptive_timer_policy :
    (∀ s : Intersection,
      ((adaptTimings s).1.northSouthTime, (adaptTimings s).1.eastWestTime)
        = if s.northQueue.length + s.southQueue.length
              > 2 * (s.eastQueue.length + s.westQueue.length) then (15, 5)
          else if s.eastQueue.length + s.westQueue.length
              > 2 * (s.northQueue.length + s.southQueue.length) then (5, 15)
          else (10, 10)) ∧
    (∀ s : Intersection,
      adaptTimings s
        = ({ s with
              northSouthTime := (adaptTimings s).1.northSouthTime
              eastWestTime := (adaptTimings s).1.eastWestTime },
            [Event.timingsAdapted (adaptTimings s).1.northSouthTime
              (adaptTimings s).1.eastWestTime])) ∧
    (∀ (s : Intersection) (a b : Nat),
      ((adaptTimings { s with northSouthTime := a, eastWestTime := b }).1.northSouthTime,
        (adaptTimings { s with northSouthTime := a, eastWestTime := b }).1.eastWestTime)
        = ((adaptTimings s).1.northSouthTime, (adaptTimings s).1.eastWestTime)) ∧
    ((adaptTimings
        { Intersection.fresh 1 with
          northQueue := List.replicate 7 { id := 1, type := VehicleType.CAR, arrivalTime := 0 }
          southQueue := List.replicate 5 { id := 2, type := VehicleType.CAR, arrivalTime := 0 }
          eastQueue := List.replicate 3 { id := 3, type := VehicleType.CAR, arrivalTime := 0 }
          northSouthTime := 5
          eastWestTime := 15 }).1.northSouthTime,
      (adaptTimings
        { Intersection.fresh 1 with
          northQueue := List.replicate 7 { id := 1, type := VehicleType.CAR, arrivalTime := 0 }
          southQueue := List.replicate 5 { id := 2, type := VehicleType.CAR, arrivalTime := 0 }
          eastQueue := List.replicate 3 { id := 3, type := VehicleType.CAR, arrivalTime := 0 }
          northSouthTime := 5
          eastWestTime := 15 }).1.eastWestTime) = (15, 5) ∧
    ((adaptTimings
        { Intersection.fresh 1 with
          northQueue := List.replicate 6 { id := 1, type := VehicleType.CAR, arrivalTime := 0 }
          eastQueue := List.replicate 2 { id := 3, type := VehicleType.CAR, arrivalTime := 0 }
          westQueue := List.replicate 3 { id := 4, type := VehicleType.CAR, arrivalTime := 0 }
          northSouthTime := 15
          eastWestTime := 5 }).1.northSouthTime,
      (adaptTimings
        { Intersection.fresh 1 with
          northQueue := List.replicate 6 { id := 1, type := VehicleType.CAR, arrivalTime := 0 }
          eastQueue := List.replicate 2 { id := 3, type := VehicleType.CAR, arrivalTime := 0 }
          westQueue := List.replicate 3 { id := 4, type := VehicleType.CAR, arrivalTime := 0 }
          northSouthTime := 15
          eastWestTime := 5 }).1.eastWestTime) = (10, 10) := by
  refine ⟨?_, ?_, ?_, by decide, by decide⟩
  · intro s
    unfold adaptTimings
    by_cases h1 : s.northQueue.length + s.southQueue.length
        > (s.eastQueue.length + s.westQueue.length) * 2
    · have h1b : s.northQueue.length + s.southQueue.length
          > 2 * (s.eastQueue.length + s.westQueue.length) := by omega
      simp only [h1, h1b, if_true]
    · have h1b : ¬ s.northQueue.length + s.southQueue.length
          > 2 * (s.eastQueue.length + s.westQueue.length) := by omega
      by_cases h2 : s.eastQueue.length + s.westQueue.length
          > (s.northQueue.length + s.southQueue.length) * 2
      · have h2b : s.eastQueue.length + s.westQueue.length
            > 2 * (s.northQueue.length + s.southQueue.length) := by omega
        simp only [h1, h1b, h2, h2b, if_true, if_false]
      · have h2b : ¬ s.eastQueue.length + s.westQueue.length
            > 2 * (s.northQueue.length + s.southQueue.length) := by omega
        simp only [h1, h1b, h2, h2b, if_false]
  · intro s
    unfold adaptTimings
    by_cases h1 : s.northQueue.length + s.southQueue.length
        > (s.eastQueue.length + s.westQueue.length) * 2
    · simp only [h1, if_true]
    · by_cases h2 : s.eastQueue.length + s.westQueue.length
          > (s.northQueue.length + s.southQueue.length) * 2
      · simp only [h1, h2, if_true, if_false]
      · simp only [h1, h2, if_false]
  · intro s a b
    unfold adaptTimings
    by_cases h1 : s.northQueue.length + s.southQueue.length
        > (s.eastQueue.length + s.westQueue.length) * 2
    · simp only [h1, if_true]
    · by_cases h2 : s.eastQueue.length + s.westQueue.length
          > (s.northQueue.length + s.southQueue.length) * 2
      · simp only [h1, h2, if_true, if_false]
      · simp only [h1, h2, if_false]

/-! ## C9: the light state after a handler has run -/

theorem adaptTimings_currentState (s : Intersection) :
    (adaptTimings s).1.currentState = s.currentState := by
  unfold adaptTimings
  dsimp only
  split
  · rfl
  · split <;> rfl

theorem normalPhase_handler_state (s : Intersection)
    (hs : s.currentState = LightState.EMERGENCY ∨ s.currentState = LightState.CONGESTION) :
    normalPhase s = (s, []) := by
  unfold normalPhase
  rcases hs with hs | hs <;> rw [hs]

/-- Once the state is `EMERGENCY` or `CONGESTION`, an iteration with no flag
raised and at most ten vehicles runs no green phase and changes neither the
queues nor the state: the `switch` falls to `default`. -/
theorem runTrafficLightIteration_stuck (s : Intersection)
    (hs : s.currentState = LightState.EMERGENCY ∨ s.currentState = LightState.CONGESTION)
    (he : s.emergencyFlag = false) (hc : s.congestionFlag = false)
    (ht : getTotalVehicles s ≤ 10) :
    (runTrafficLightIteration s).1.currentState = s.currentState ∧
    (∀ d : Direction, queueAt (runTrafficLightIteration s).1 d = queueAt s d) ∧
    greenPhases (runTrafficLightIteration s).2 = [] ∧
    servicedVehicles (runTrafficLightIteration s).2 = [] := by
  have h10 : ¬ getTotalVehicles s > 10 := by omega
  have hcc : checkCongestion s = s := by
    unfold checkCongestion
    rw [if_neg h10]
  unfold runTrafficLightIteration
  rw [hcc]
  simp only [he, hc, Bool.false_eq_true, if_false]
  by_cases h7 : getTotalVehicles s > 7
  · have hn := normalPhase_handler_state (adaptTimings s).1
      (by rw [adaptTimings_currentState]; exact hs)
    simp only [h7, if_true, hn]
    refine ⟨adaptTimings_currentState s, fun d => queueAt_adaptTimings d s, rfl, rfl⟩
  · have hn := normalPhase_handler_state s hs
    rw [if_neg h7, hn]
    exact ⟨rfl, fun d => rfl, rfl, rfl⟩

/-- C9, evaluated on the code: an Emergency vehicle arrives at South and a
Normal one at North of a fresh intersection.  The first iteration services the
Emergency vehicle and leaves the state `EMERGENCY` with both flags clear; the
second iteration, in which neither flag is pending, runs no green phase, leaves
the Normal vehicle at the head of North unserviced and leaves the state
`EMERGENCY` (and so does every later one). -/
theorem C9_state_stays_in_handler_state :
    (exec (Intersection.fresh 1)
        [Op.arrive VehicleType.EMERGENCY "south" 0, Op.arrive VehicleType.CAR "north" 1,
          Op.iterate]).1
      = { Intersection.fresh 1 with
          northQueue := [{ id := 2, type := VehicleType.CAR, arrivalTime := 1 }]
          currentState := LightState.EMERGENCY
          vehicleId := 3 } ∧
    runTrafficLightIteration
        { Intersection.fresh 1 with
          northQueue := [{ id := 2, type := VehicleType.CAR, arrivalTime := 1 }]
          currentState := LightState.EMERGENCY
          vehicleId := 3 }
      = ({ Intersection.fresh 1 with
            northQueue := [{ id := 2, type := VehicleType.CAR, arrivalTime := 1 }]
            currentState := LightState.EMERGENCY
            vehicleId := 3 },
          [Event.lock, Event.unlock, Event.sleep 10]) ∧
    (exec (Intersection.fresh 1)
        [Op.arrive VehicleType.EMERGENCY "south" 0, Op.arrive VehicleType.CAR "north" 1,
          Op.iterate, Op.iterate, Op.iterate, Op.iterate]).1.currentState
      = LightState.EMERGENCY ∧
    (exec (Intersection.fresh 1)
        [Op.arrive VehicleType.EMERGENCY "south" 0, Op.arrive VehicleType.CAR "north" 1,
          Op.iterate, Op.iterate, Op.iterate, Op.iterate]).1.northQueue
      = [{ id := 2, type := VehicleType.CAR, arrivalTime := 1 }] := by
  refine ⟨by decide, by decide, by decide, by decide⟩

/-! ## C10: vehicle ids -/

theorem nonEmergency_sublist (q : List Vehicle) : (nonEmergency q).Sublist q :=
  List.filter_sublist q

theorem processDirection_fst_sublist (primary secondary : List Vehicle) (dirName : String) :
    (processDirection primary secondary dirName).1.Sublist primary := by
  rw [processDirection_fst]
  exact (List.drop_sublist 1 _).trans (nonEmergency_sublist primary)

theorem processDirection_snd_sublist (primary secondary : List Vehicle) (dirName : String) :
    (processDirection primary secondary dirName).2.1.Sublist secondary := by
  rw [processDirection_snd]
  exact (List.drop_sublist 1 _).trans (nonEmergency_sublist secondary)

theorem congestionRound_sublist (d : Direction) (s : Intersection) :
    (queueAt (congestionRound s).1 d).Sublist (queueAt s d) := by
  cases d with
  | north =>
    exact processDirection_fst_sublist s.northQueue s.southQueue "Север-Юг (аварийный режим)"
  | south =>
    exact processDirection_snd_sublist s.northQueue s.southQueue "Север-Юг (аварийный режим)"
  | east =>
    exact processDirection_fst_sublist s.eastQueue s.westQueue "Восток-Запад (аварийный режим)"
  | west =>
    exact processDirection_snd_sublist s.eastQueue s.westQueue "Восток-Запад (аварийный режим)"

theorem handleCongestionLoop_sublist (d : Direction) (n : Nat) (s : Intersection) :
    (queueAt (handleCongestionLoop n s).1 d).Sublist (queueAt s d) := by
  induction n generalizing s with
  | zero => exact List.Sublist.refl _
  | succ n ih => exact (ih (congestionRound s).1).trans (congestionRound_sublist d s)

theorem normalPhase_sublist (d : Direction) (s : Intersection) :
    (queueAt (normalPhase s).1 d).Sublist (queueAt s d) := by
  unfold normalPhase
  split
  · cases d with
    | north => exact processDirection_fst_sublist s.northQueue s.southQueue "Север-Юг"
    | south => exact processDirection_snd_sublist s.northQueue s.southQueue "Север-Юг"
    | east => exact List.Sublist.refl _
    | west => exact List.Sublist.refl _
  · cases d with
    | north => exact List.Sublist.refl _
    | south => exact List.Sublist.refl _
    | east => exact processDirection_fst_sublist s.eastQueue s.westQueue "Восток-Запад"
    | west => exact processDirection_snd_sublist s.eastQueue s.westQueue "Восток-Запад"
  · exact List.Sublist.refl _

theorem runTrafficLightIteration_sublist (d : Direction) (s : Intersection) :
    (queueAt (runTrafficLightIteration s).1 d).Sublist (queueAt s d) := by
  have hc := queueAt_checkCongestion d s
  unfold runTrafficLightIteration
  dsimp only
  split
  · rw [handleEmergency_eq, ← hc]
    cases d <;> exact nonEmergency_sublist _
  · split
    · have hl := handleCongestionLoop_sublist d 2
        { checkCongestion s with currentState := LightState.CONGESTION }
      have e1 : queueAt { checkCongestion s with currentState := LightState.CONGESTION } d
          = queueAt s d := by rw [← hc]; cases d <;> rfl
      rw [e1] at hl
      have e2 : queueAt { (handleCongestion
            { checkCongestion s with currentState := LightState.CONGESTION }).1 with
            congestionFlag := false } d
          = queueAt (handleCongestionLoop 2
            { checkCongestion s with currentState := LightState.CONGESTION }).1 d := by
        cases d <;> rfl
      rw [e2]
      exact hl
    · split
      · have hn := normalPhase_sublist d (adaptTimings (checkCongestion s)).1
        rw [queueAt_adaptTimings, hc] at hn
        exact hn
      · have hn := normalPhase_sublist d (checkCongestion s)
        rw [hc] at hn
        exact hn

theorem allVehicles_eq_queueAt (s : Intersection) :
    allVehicles s
      = queueAt s Direction.north ++ queueAt s Direction.south
        ++ queueAt s Direction.east ++ queueAt s Direction.west := rfl

theorem runTrafficLightIteration_allVehicles_sublist (s : Intersection) :
    (allVehicles (runTrafficLightIteration s).1).Sublist (allVehicles s) := by
  rw [allVehicles_eq_queueAt, allVehicles_eq_queueAt]
  exact List.Sublist.append (List.Sublist.append (List.Sublist.append
    (runTrafficLightIteration_sublist _ s) (runTrafficLightIteration_sublist _ s))
    (runTrafficLightIteration_sublist _ s)) (runTrafficLightIteration_sublist _ s)

theorem runTrafficLightIteration_vehicleId (s : Intersection) :
    (runTrafficLightIteration s).1.vehicleId = s.vehicleId := by
  have hcc : (checkCongestion s).vehicleId = s.vehicleId := by
    unfold checkCongestion
    split <;> rfl
  have hloop : ∀ (n : Nat) (t : Intersection),
      (handleCongestionLoop n t).1.vehicleId = t.vehicleId := by
    intro n
    induction n with
    | zero => intro t; rfl
    | succ n ih => intro t; exact (ih (congestionRound t).1).trans rfl
  have had : ∀ t : Intersection, (adaptTimings t).1.vehicleId = t.vehicleId := by
    intro t
    unfold adaptTimings
    dsimp only
    split
    · rfl
    · split <;> rfl
  have hnp : ∀ t : Intersection, (normalPhase t).1.vehicleId = t.vehicleId := by
    intro t
    unfold normalPhase
    split <;> rfl
  unfold runTrafficLightIteration
  dsimp only
  split
  · exact hcc
  · split
    · exact (hloop 2 _).trans hcc
    · split
      · exact (hnp _).trans ((had _).trans hcc)
      · exact (hnp _).trans hcc

theorem IdInv.of_sublist (k : Int) (s t : Intersection) (h : IdInv k s)
    (hq : ∀ d : Direction, (queueAt t d).Sublist (queueAt s d)) : IdInv k t := by
  have hall : (allVehicles t).Sublist (allVehicles s) := by
    rw [allVehicles_eq_queueAt, allVehicles_eq_queueAt]
    exact List.Sublist.append (List.Sublist.append (List.Sublist.append
      (hq _) (hq _)) (hq _)) (hq _)
  obtain ⟨h1, h2, h3⟩ := h
  refine ⟨fun v hv => h1 v (hall.subset hv), ?_, fun d => ?_⟩
  · exact List.Nodup.sublist (List.Sublist.map Vehicle.id hall) h2
  · exact List.Pairwise.sublist (List.Sublist.map Vehicle.id (hq d)) (h3 d)

theorem wrapInt32_of_inRange (k : Int) (h1 : -2147483648 ≤ k) (h2 : k ≤ 2147483647) :
    wrapInt32 k = k := by
  unfold wrapInt32
  omega

theorem addVehicle_vehicleId (s : Intersection) (type : VehicleType) (direction : String)
    (now : Nat) :
    (addVehicle s type direction now).1.vehicleId = wrapInt32 (s.vehicleId + 1) := by
  unfold addVehicle
  dsimp only
  split <;> split <;> (try split) <;> (try split) <;> (try split) <;> rfl

theorem addVehicle_allVehicles (s : Intersection) (type : VehicleType) (direction : String)
    (now : Nat) :
    (allVehicles (addVehicle s type direction now).1).Perm
      (allVehicles s ++ [{ id := s.vehicleId, type := type, arrivalTime := now }]) ∨
    allVehicles (addVehicle s type direction now).1 = allVehicles s := by
  by_cases hd : validDirection direction
  · left
    have hc := addVehicle_conserves s type direction now hd
    have ha : arrivedVehicles (addVehicle s type direction now).2
        = [{ id := s.vehicleId, type := type, arrivalTime := now }] := rfl
    have hs : servicedVehicles (addVehicle s type direction now).2 = [] := rfl
    rw [ha, hs, Multiset.coe_add, Multiset.coe_add, List.append_nil, Multiset.coe_eq_coe] at hc
    exact hc.symm
  · right
    simp only [validDirection, not_or] at hd
    obtain ⟨h1, h2, h3, h4⟩ := hd
    by_cases ht : type = VehicleType.EMERGENCY <;>
      simp [addVehicle, h1, h2, h3, h4, ht, allVehicles]

theorem ids_arrivedVehicles_addVehicle (s : Intersection) (type : VehicleType)
    (direction : String) (now : Nat) :
    ids (arrivedVehicles (addVehicle s type direction now).2) = [s.vehicleId] := rfl

theorem IdInv_addVehicle (k : Int) (s : Intersection) (type : VehicleType)
    (direction : String) (now : Nat) (hk : s.vehicleId = k) (hI : IdInv k s) :
    IdInv (k + 1) (addVehicle s type direction now).1 := by
  obtain ⟨h1, h2, h3⟩ := hI
  refine ⟨?_, ?_, fun d => ?_⟩
  · intro v hv
    rcases addVehicle_allVehicles s type direction now with hp | he
    · rcases List.mem_append.1 (hp.mem_iff.1 hv) with hv | hv
      · have := h1 v hv
        omega
      · rw [List.mem_singleton] at hv
        subst hv
        show s.vehicleId < k + 1
        omega
    · rw [he] at hv
      have := h1 v hv
      omega
  · rcases addVehicle_allVehicles s type direction now with hp | he
    · have hp2 : (ids (allVehicles (addVehicle s type direction now).1)).Perm
          (ids (allVehicles s) ++ [s.vehicleId]) := by
        have := hp.map Vehicle.id
        simpa [ids] using this
      rw [hp2.nodup_iff, List.nodup_append]
      refine ⟨h2, List.nodup_singleton _, ?_⟩
      intro a ha hb
      rw [List.mem_singleton] at hb
      subst hb
      simp only [ids, List.mem_map] at ha
      obtain ⟨v, hv, hvid⟩ := ha
      have := h1 v hv
      omega
    · rw [he]
      exact h2
  · rw [addVehicle_queueAt, addVehicle_arrivedAt]
    by_cases hd : direction = d.name
    · rw [if_pos hd]
      simp only [ids, List.map_append, List.map_cons, List.map_nil]
      rw [List.pairwise_append]
      refine ⟨h3 d, List.pairwise_singleton _ _, ?_⟩
      intro a ha b hb
      rw [List.mem_singleton] at hb
      subst hb
      simp only [List.mem_map] at ha
      obtain ⟨v, hv, hvid⟩ := ha
      have hmem : v ∈ allVehicles s := by
        rw [allVehicles_eq_queueAt]
        cases d <;> simp [hv]
      have := h1 v hmem
      omega
    · rw [if_neg hd, List.append_nil]
      exact h3 d

theorem IdInv.mono (k k2 : Int) (s t : Intersection) (h : IdInv k s) (hk : k ≤ k2)
    (hq : ∀ d : Direction, queueAt t d = queueAt s d) : IdInv k2 t := by
  have ht := IdInv.of_sublist k s t h (fun d => by rw [hq d])
  obtain ⟨h1, h2, h3⟩ := ht
  exact ⟨fun v hv => lt_of_lt_of_le (h1 v hv) hk, h2, h3⟩

theorem step_ids (s : Intersection) (op : Op) (k : Int)
    (hk : s.vehicleId = wrapInt32 k) (hlo : -2147483648 ≤ k)
    (hhi : k + (op.idCost : Int) ≤ 2147483648) (hI : IdInv k s) :
    IdInv (k + (op.idCost : Int)) (step s op).1 ∧
    (step s op).1.vehicleId = wrapInt32 (k + (op.idCost : Int)) ∧
    (ids (arrivedVehicles (step s op).2)).Pairwise (fun a b => a < b) ∧
    ∀ i ∈ ids (arrivedVehicles (step s op).2), k ≤ i ∧ i < k + (op.idCost : Int) := by
  cases op with
  | arrive type direction now =>
    have hc : ((Op.arrive type direction now).idCost : Int) = 1 := rfl
    rw [hc] at hhi ⊢
    have hw : wrapInt32 k = k := wrapInt32_of_inRange k hlo (by omega)
    rw [hw] at hk
    simp only [step]
    rw [ids_arrivedVehicles_addVehicle, addVehicle_vehicleId, hk]
    refine ⟨IdInv_addVehicle k s type direction now hk hI, rfl, List.pairwise_singleton _ _, ?_⟩
    intro i hi
    rw [List.mem_singleton] at hi
    omega
  | arriveElsewhere =>
    have hc : ((Op.arriveElsewhere).idCost : Int) = 1 := rfl
    rw [hc] at hhi ⊢
    have hw : wrapInt32 k = k := wrapInt32_of_inRange k hlo (by omega)
    rw [hw] at hk
    simp only [step]
    refine ⟨IdInv.mono k (k + 1) s _ hI (by omega) (fun d => by cases d <;> rfl), ?_, ?_, ?_⟩
    · rw [hk]
    · exact List.Pairwise.nil
    · intro i hi
      simp [ids, arrivedVehicles] at hi
  | iterate =>
    have hc : ((Op.iterate).idCost : Int) = 0 := rfl
    rw [hc, add_zero]
    simp only [step]
    rw [arrivedVehicles_runTrafficLightIteration, runTrafficLightIteration_vehicleId]
    refine ⟨IdInv.of_sublist k s _ hI (fun d => runTrafficLightIteration_sublist d s), hk,
      List.Pairwise.nil, ?_⟩
    intro i hi
    simp [ids] at hi

theorem exec_ids (ops : List Op) (s : Intersection) (k : Int)
    (hk : s.vehicleId = wrapInt32 k) (hlo : -2147483648 ≤ k)
    (hhi : k + (idsTaken ops : Int) ≤ 2147483648) (hI : IdInv k s) :
    IdInv (k + (idsTaken ops : Int)) (exec s ops).1 ∧
    (ids (arrivedVehicles (exec s ops).2)).Pairwise (fun a b => a < b) ∧
    ∀ i ∈ ids (arrivedVehicles (exec s ops).2), k ≤ i ∧ i < k + (idsTaken ops : Int) := by
  induction ops generalizing s k with
  | nil =>
    simp only [exec, idsTaken, Nat.cast_zero, add_zero]
    refine ⟨hI, ?_, ?_⟩
    · simp [ids, arrivedVehicles]
    · intro i hi
      simp [ids, arrivedVehicles] at hi
  | cons op ops ih =>
    have hcost : (idsTaken (op :: ops) : Int) = (op.idCost : Int) + (idsTaken ops : Int) := by
      simp [idsTaken]
    rw [hcost] at hhi ⊢
    have hn : (0 : Int) ≤ (idsTaken ops : Int) := Int.natCast_nonneg _
    have hn2 : (0 : Int) ≤ (op.idCost : Int) := Int.natCast_nonneg _
    obtain ⟨s1, s2, s3, s4⟩ := step_ids s op k hk hlo (by omega) hI
    obtain ⟨r1, r2, r3⟩ := ih (step s op).1 (k + (op.idCost : Int)) s2 (by omega)
      (by omega) s1
    simp only [exec, arrivedVehicles_append]
    refine ⟨?_, ?_, ?_⟩
    · rw [← add_assoc]
      exact r1
    · simp only [ids, List.map_append]
      rw [List.pairwise_append]
      refine ⟨s3, r2, ?_⟩
      intro a ha b hb
      have := s4 a ha
      have := r3 b hb
      omega
    · intro i hi
      simp only [ids, List.map_append, List.mem_append] at hi
      rcases hi with hi | hi
      · have := s4 i hi
        omega
      · have := r3 i hi
        omega

/-- C10: take any interleaving of arrivals (from any direction string, at this
or another intersection) and control-loop iterations, started on a fresh
intersection, that takes at most 2147483647 ids from the counter, so that the
32-bit counter never wraps.  Then the ids assigned to the arrivals logged at
this intersection are strictly increasing in arrival order, the ids of the
vehicles held in the four queues are pairwise distinct (so no vehicle is queued
twice), within each queue the ids increase strictly from head to tail, and
every queued id is positive and below the number of ids taken plus one. -/
theorem C10_vehicle_ids_unique_and_increasing (id : Int) (ops : List Op)
    (h : idsTaken ops ≤ 2147483647) :
    (ids (arrivedVehicles (exec (Intersection.fresh id) ops).2)).Pairwise (fun a b => a < b) ∧
    (ids (allVehicles (exec (Intersection.fresh id) ops).1)).Nodup ∧
    (allVehicles (exec (Intersection.fresh id) ops).1).Nodup ∧
    (∀ d : Direction,
      (ids (queueAt (exec (Intersection.fresh id) ops).1 d)).Pairwise (fun a b => a < b)) ∧
    (∀ i ∈ ids (arrivedVehicles (exec (Intersection.fresh id) ops).2),
      1 ≤ i ∧ i ≤ (idsTaken ops : Int)) ∧
    (∀ v ∈ allVehicles (exec (Intersection.fresh id) ops).1, v.id ≤ (idsTaken ops : Int)) := by
  have hI : IdInv 1 (Intersection.fresh id) := by
    refine ⟨?_, ?_, fun d => ?_⟩
    · intro v hv
      simp [allVehicles, Intersection.fresh] at hv
    · simp [allVehicles, Intersection.fresh, ids]
    · cases d <;> simp [queueAt, Intersection.fresh, ids]
  have hk : (Intersection.fresh id).vehicleId = wrapInt32 1 :=
    (wrapInt32_of_inRange 1 (by omega) (by omega)).symm
  have hh : (1 : Int) + (idsTaken ops : Int) ≤ 2147483648 := by omega
  obtain ⟨⟨r1, r2, r3⟩, r4, r5⟩ := exec_ids ops (Intersection.fresh id) 1 hk (by omega) hh hI
  refine ⟨r4, r2, ?_, r3, ?_, ?_⟩
  · exact List.Nodup.of_map Vehicle.id r2
  · intro i hi
    have := r5 i hi
    omega
  · intro v hv
    have := r1 v hv
    omega

/-- Witness for C10: five arrivals, one of them elsewhere and one from an
unrecognised direction, interleaved with two iterations. -/
theorem C10_vehicle_ids_unique_and_increasing_witness :
    idsTaken [Op.arrive VehicleType.CAR "north" 0, Op.arriveElsewhere,
        Op.arrive VehicleType.EMERGENCY "south" 1, Op.iterate,
        Op.arrive VehicleType.CAR "up" 2, Op.arrive VehicleType.CAR "north" 3, Op.iterate]
      ≤ 2147483647 ∧
    (ids (arrivedVehicles (exec (Intersection.fresh 1)
        [Op.arrive VehicleType.CAR "north" 0, Op.arriveElsewhere,
          Op.arrive VehicleType.EMERGENCY "south" 1, Op.iterate,
          Op.arrive VehicleType.CAR "up" 2, Op.arrive VehicleType.CAR "north" 3,
          Op.iterate]).2)).Pairwise (fun a b => a < b) ∧
    (ids (allVehicles (exec (Intersection.fresh 1)
        [Op.arrive VehicleType.CAR "north" 0, Op.arriveElsewhere,
          Op.arrive VehicleType.EMERGENCY "south" 1, Op.iterate,
          Op.arrive VehicleType.CAR "up" 2, Op.arrive VehicleType.CAR "north" 3,
          Op.iterate]).1)).Nodup :=
  ⟨by decide,
    (C10_vehicle_ids_unique_and_increasing 1
      [Op.arrive VehicleType.CAR "north" 0, Op.arriveElsewhere,
        Op.arrive VehicleType.EMERGENCY "south" 1, Op.iterate,
        Op.arrive VehicleType.CAR "up" 2, Op.arrive VehicleType.CAR "north" 3, Op.iterate]
      (by decide)).1,
    (C10_vehicle_ids_unique_and_increasing 1
      [Op.arrive VehicleType.CAR "north" 0, Op.arriveElsewhere,
        Op.arrive VehicleType.EMERGENCY "south" 1, Op.iterate,
        Op.arrive VehicleType.CAR "up" 2, Op.arrive VehicleType.CAR "north" 3, Op.iterate]
      (by decide)).2.1⟩

/-! ## C11: the normal phase -/

theorem checkCongestion_of_le (s : Intersection) (ht : getTotalVehicles s ≤ 10) :
    checkCongestion s = s := by
  unfold checkCongestion
  rw [if_neg (by omega)]

theorem runTrafficLightIteration_normal (s : Intersection)
    (he : s.emergencyFlag = false) (hc : s.congestionFlag = false)
    (ht : getTotalVehicles s ≤ 10) :
    runTrafficLightIteration s
      = ((normalPhase (if getTotalVehicles s > 7 then adaptTimings s else (s, [])).1).1,
          [Event.lock] ++ (if getTotalVehicles s > 7 then adaptTimings s else (s, [])).2
            ++ (normalPhase (if getTotalVehicles s > 7 then adaptTimings s else (s, [])).1).2
            ++ [Event.unlock,
                Event.sleep
                  (if (normalPhase
                        (if getTotalVehicles s > 7 then adaptTimings s else (s, [])).1).1.currentState
                      = LightState.NORTH_SOUTH
                    then (normalPhase
                        (if getTotalVehicles s > 7 then adaptTimings s else (s, [])).1).1.northSouthTime
                    else (normalPhase
                        (if getTotalVehicles s > 7 then adaptTimings s
                          else (s, [])).1).1.eastWestTime)]) := by
  unfold runTrafficLightIteration
  rw [checkCongestion_of_le s ht]
  simp only [he, hc, Bool.false_eq_true, if_false]

theorem retimed_queueAt (s : Intersection) (d : Direction) :
    queueAt (if getTotalVehicles s > 7 then adaptTimings s else (s, [])).1 d = queueAt s d := by
  split
  · exact queueAt_adaptTimings d s
  · rfl

theorem retimed_currentState (s : Intersection) :
    (if getTotalVehicles s > 7 then adaptTimings s else (s, [])).1.currentState
      = s.currentState := by
  split
  · exact adaptTimings_currentState s
  · rfl

theorem retimed_log (s : Intersection) :
    (if getTotalVehicles s > 7 then adaptTimings s else (s, [])).2
      = if getTotalVehicles s > 7
        then [Event.timingsAdapted (adaptTimings s).1.northSouthTime
                (adaptTimings s).1.eastWestTime]
        else [] := by
  split <;> rfl

theorem normalPhase_northSouth (t : Intersection)
    (hs : t.currentState = LightState.NORTH_SOUTH) :
    normalPhase t
      = ({ t with
            northQueue := (processDirection t.northQueue t.southQueue "Север-Юг").1
            southQueue := (processDirection t.northQueue t.southQueue "Север-Юг").2.1
            currentState := LightState.EAST_WEST },
          (processDirection t.northQueue t.southQueue "Север-Юг").2.2) := by
  unfold normalPhase
  rw [hs]

theorem normalPhase_eastWest (t : Intersection)
    (hs : t.currentState = LightState.EAST_WEST) :
    normalPhase t
      = ({ t with
            eastQueue := (processDirection t.eastQueue t.westQueue "Восток-Запад").1
            westQueue := (processDirection t.eastQueue t.westQueue "Восток-Запад").2.1
            currentState := LightState.NORTH_SOUTH },
          (processDirection t.eastQueue t.westQueue "Восток-Запад").2.2) := by
  unfold normalPhase
  rw [hs]

theorem passedVehicles_retimed (s : Intersection) :
    passedVehicles (if getTotalVehicles s > 7 then adaptTimings s else (s, [])).2 = [] := by
  rw [retimed_log]
  split <;> rfl

theorem greenPhases_retimed (s : Intersection) :
    greenPhases (if getTotalVehicles s > 7 then adaptTimings s else (s, [])).2 = [] := by
  rw [retimed_log]
  split <;> rfl

/-- C11: with neither flag raised and at most ten vehicles queued, an iteration
in state `NORTH_SOUTH` runs exactly one green phase, "Север-Юг": North and South
each become their non-Emergency subsequence without its head, East and West are
unchanged, the vehicles that pass on green are the head of the non-Emergency
part of North followed by that of South (at most one from each, none of them
Emergency-class), and the state becomes `EAST_WEST`.  Symmetrically, in state
`EAST_WEST` the phase "Восток-Запад" treats East and West that way, leaves North
and South unchanged and the state becomes `NORTH_SOUTH`. -/
theorem C11_normal_phase (s : Intersection)
    (he : s.emergencyFlag = false) (hc : s.congestionFlag = false)
    (ht : getTotalVehicles s ≤ 10) :
    (s.currentState = LightState.NORTH_SOUTH →
      (runTrafficLightIteration s).1.northQueue = (nonEmergency s.northQueue).drop 1 ∧
      (runTrafficLightIteration s).1.southQueue = (nonEmergency s.southQueue).drop 1 ∧
      (runTrafficLightIteration s).1.eastQueue = s.eastQueue ∧
      (runTrafficLightIteration s).1.westQueue = s.westQueue ∧
      (runTrafficLightIteration s).1.currentState = LightState.EAST_WEST ∧
      greenPhases (runTrafficLightIteration s).2 = ["Север-Юг"] ∧
      passedVehicles (runTrafficLightIteration s).2
        = (nonEmergency s.northQueue).take 1 ++ (nonEmergency s.southQueue).take 1) ∧
    (s.currentState = LightState.EAST_WEST →
      (runTrafficLightIteration s).1.eastQueue = (nonEmergency s.eastQueue).drop 1 ∧
      (runTrafficLightIteration s).1.westQueue = (nonEmergency s.westQueue).drop 1 ∧
      (runTrafficLightIteration s).1.northQueue = s.northQueue ∧
      (runTrafficLightIteration s).1.southQueue = s.southQueue ∧
      (runTrafficLightIteration s).1.currentState = LightState.NORTH_SOUTH ∧
      greenPhases (runTrafficLightIteration s).2 = ["Восток-Запад"] ∧
      passedVehicles (runTrafficLightIteration s).2
        = (nonEmergency s.eastQueue).take 1 ++ (nonEmergency s.westQueue).take 1) := by
  have hn := runTrafficLightIteration_normal s he hc ht
  have hl : passedVehicles [Event.lock] = [] := rfl
  have hg : greenPhases [Event.lock] = [] := rfl
  have hu : ∀ n, passedVehicles [Event.unlock, Event.sleep n] = [] := fun _ => rfl
  have hv : ∀ n, greenPhases [Event.unlock, Event.sleep n] = [] := fun _ => rfl
  have qN := retimed_queueAt s Direction.north
  have qS := retimed_queueAt s Direction.south
  have qE := retimed_queueAt s Direction.east
  have qW := retimed_queueAt s Direction.west
  simp only [queueAt] at qN qS qE qW
  constructor
  · intro hs
    have hs2 := (retimed_currentState s).trans hs
    rw [hn, normalPhase_northSouth _ hs2]
    simp only [passedVehicles_append, greenPhases_append, hl, hg, hu, hv,
      passedVehicles_retimed, greenPhases_retimed, passedVehicles_processDirection,
      greenPhases_processDirection, processDirection_fst, processDirection_snd,
      List.nil_append, List.append_nil, qN, qS, qE, qW, and_self]
  · intro hs
    have hs2 := (retimed_currentState s).trans hs
    rw [hn, normalPhase_eastWest _ hs2]
    simp only [passedVehicles_append, greenPhases_append, hl, hg, hu, hv,
      passedVehicles_retimed, greenPhases_retimed, passedVehicles_processDirection,
      greenPhases_processDirection, processDirection_fst, processDirection_snd,
      List.nil_append, List.append_nil, qN, qS, qE, qW, and_self]

/-- Witness for C11: two Normal vehicles at North and one at South, state
`NORTH_SOUTH`. -/
theorem C11_normal_phase_witness :
    ({ Intersection.fresh 1 with
        northQueue := [{ id := 1, type := VehicleType.CAR, arrivalTime := 0 },
                       { id := 3, type := VehicleType.CAR, arrivalTime := 2 }]
        southQueue := [{ id := 2, type := VehicleType.CAR, arrivalTime := 1 }] }
      : Intersection).emergencyFlag = false ∧
    ({ Intersection.fresh 1 with
        northQueue := [{ id := 1, type := VehicleType.CAR, arrivalTime := 0 },
                       { id := 3, type := VehicleType.CAR, arrivalTime := 2 }]
        southQueue := [{ id := 2, type := VehicleType.CAR, arrivalTime := 1 }] }
      : Intersection).congestionFlag = false ∧
    getTotalVehicles
      { Intersection.fresh 1 with
        northQueue := [{ id := 1, type := VehicleType.CAR, arrivalTime := 0 },
                       { id := 3, type := VehicleType.CAR, arrivalTime := 2 }]
        southQueue := [{ id := 2, type := VehicleType.CAR, arrivalTime := 1 }] } ≤ 10 ∧
    (runTrafficLightIteration
      { Intersection.fresh 1 with
        northQueue := [{ id := 1, type := VehicleType.CAR, arrivalTime := 0 },
                       { id := 3, type := VehicleType.CAR, arrivalTime := 2 }]
        southQueue := [{ id := 2, type := VehicleType.CAR, arrivalTime := 1 }] }).1.currentState
      = LightState.EAST_WEST :=
  ⟨rfl, rfl, by decide,
    ((C11_normal_phase
      { Intersection.fresh 1 with
        northQueue := [{ id := 1, type := VehicleType.CAR, arrivalTime := 0 },
                       { id := 3, type := VehicleType.CAR, arrivalTime := 2 }]
        southQueue := [{ id := 2, type := VehicleType.CAR, arrivalTime := 1 }] }
      rfl rfl (by decide)).1 rfl).2.2.2.2.1⟩

/-! ## C12: the sleep after a normal phase -/

theorem sleeps_append (a b : List Event) : sleeps (a ++ b) = sleeps a ++ sleeps b := by
  simp [sleeps]

theorem sleeps_priorityPassed (l : List Vehicle) :
    sleeps (l.map Event.priorityPassed) = [] := by
  induction l with
  | nil => rfl
  | cons v l ih =>
    simp only [sleeps] at ih
    simp [sleeps, Event.sleepSeconds, ih]

theorem sleeps_passed (l : List Vehicle) (dirName : String) :
    sleeps (l.map (fun v => Event.passed v dirName)) = [] := by
  induction l with
  | nil => rfl
  | cons v l ih =>
    simp only [sleeps] at ih
    simp [sleeps, Event.sleepSeconds, ih]

theorem sleeps_processDirection (primary secondary : List Vehicle) (dirName : String) :
    sleeps (processDirection primary secondary dirName).2.2 = [] := by
  rw [processDirection_eq]
  simp only [sleeps_append, sleeps_priorityPassed, sleeps_passed]
  rfl

theorem sleeps_retimed (s : Intersection) :
    sleeps (if getTotalVehicles s > 7 then adaptTimings s else (s, [])).2 = [] := by
  rw [retimed_log]
  split <;> rfl

/-- In the code as written, a normal iteration that runs the North-South phase
sleeps for `eastWestTime`, and one that runs the East-West phase sleeps for
`northSouthTime`: the duration is chosen by `currentState` after the flip. -/
theorem runTrafficLightIteration_sleeps (s : Intersection)
    (he : s.emergencyFlag = false) (hc : s.congestionFlag = false)
    (ht : getTotalVehicles s ≤ 10) :
    (s.currentState = LightState.NORTH_SOUTH →
      sleeps (runTrafficLightIteration s).2 = [(runTrafficLightIteration s).1.eastWestTime]) ∧
    (s.currentState = LightState.EAST_WEST →
      sleeps (runTrafficLightIteration s).2
        = [(runTrafficLightIteration s).1.northSouthTime]) := by
  have hn := runTrafficLightIteration_normal s he hc ht
  have hl : sleeps [Event.lock] = [] := rfl
  have hu : ∀ n, sleeps [Event.unlock, Event.sleep n] = [n] := fun _ => rfl
  constructor
  · intro hs
    have hs2 := (retimed_currentState s).trans hs
    rw [hn, normalPhase_northSouth _ hs2]
    simp only [sleeps_append, hl, hu, sleeps_retimed, sleeps_processDirection,
      List.nil_append, List.append_nil]
    rfl
  · intro hs
    have hs2 := (retimed_currentState s).trans hs
    rw [hn, normalPhase_eastWest _ hs2]
    simp only [sleeps_append, hl, hu, sleeps_retimed, sleeps_processDirection,
      List.nil_append, List.append_nil]
    rfl

/-- C12, evaluated on the code: eight Normal vehicles arrive at North of a
fresh intersection.  The first iteration retimes to (15, 5), runs the
North-South phase and then sleeps 5 s, which is `eastWestTime`, not
`northSouthTime`; the second iteration runs the East-West phase and sleeps
15 s, which is `northSouthTime`. -/
theorem C12_sleep_uses_state_after_flip :
    timing (runTrafficLightIteration
      (exec (Intersection.fresh 1)
        (List.replicate 8 (Op.arrive VehicleType.CAR "north" 0))).1).1 = (15, 5) ∧
    greenPhases (runTrafficLightIteration
      (exec (Intersection.fresh 1)
        (List.replicate 8 (Op.arrive VehicleType.CAR "north" 0))).1).2 = ["Север-Юг"] ∧
    sleeps (runTrafficLightIteration
      (exec (Intersection.fresh 1)
        (List.replicate 8 (Op.arrive VehicleType.CAR "north" 0))).1).2 = [5] ∧
    timing (runTrafficLightIteration
      (exec (Intersection.fresh 1)
        (List.replicate 8 (Op.arrive VehicleType.CAR "north" 0) ++ [Op.iterate])).1).1
      = (15, 5) ∧
    greenPhases (runTrafficLightIteration
      (exec (Intersection.fresh 1)
        (List.replicate 8 (Op.arrive VehicleType.CAR "north" 0) ++ [Op.iterate])).1).2
      = ["Восток-Запад"] ∧
    sleeps (runTrafficLightIteration
      (exec (Intersection.fresh 1)
        (List.replicate 8 (Op.arrive VehicleType.CAR "north" 0) ++ [Op.iterate])).1).2
      = [15] := by
  refine ⟨by decide, by decide, by decide, by decide, by decide, by decide⟩

/-! ## C13: when the congestion handler runs -/

theorem congestionMode_not_mem_processDirection (primary secondary : List Vehicle)
    (dirName : String) :
    Event.congestionMode ∉ (processDirection primary secondary dirName).2.2 := by
  rw [processDirection_eq]
  intro h
  simp only [List.mem_append, List.mem_singleton, List.mem_map] at h
  rcases h with (((h | h) | h) | h) | h
  · cases h
  · obtain ⟨v, _, hv⟩ := h
    cases hv
  · obtain ⟨v, _, hv⟩ := h
    cases hv
  · obtain ⟨v, _, hv⟩ := h
    cases hv
  · obtain ⟨v, _, hv⟩ := h
    cases hv

theorem congestionMode_not_mem_normalPhase (t : Intersection) :
    Event.congestionMode ∉ (normalPhase t).2 := by
  unfold normalPhase
  split
  · exact congestionMode_not_mem_processDirection _ _ _
  · exact congestionMode_not_mem_processDirection _ _ _
  · simp

theorem congestionMode_not_mem_retimed (s : Intersection) :
    Event.congestionMode ∉ (if getTotalVehicles s > 7 then adaptTimings s else (s, [])).2 := by
  rw [retimed_log]
  split <;> simp

theorem congestionMode_mem_iff (s : Intersection) :
    Event.congestionMode ∈ (runTrafficLightIteration s).2
      ↔ s.emergencyFlag = false ∧ (s.congestionFlag = true ∨ getTotalVehicles s > 10) := by
  by_cases he : s.emergencyFlag = true
  · rw [runTrafficLightIteration_emergency s he]
    simp [he]
  · have he2 : s.emergencyFlag = false := by simpa using he
    by_cases hc : s.congestionFlag = true ∨ getTotalVehicles s > 10
    · have hflag : (s.congestionFlag || decide (getTotalVehicles s > 10)) = true := by
        rcases hc with hc | hc <;> simp [hc]
      have hmem : Event.congestionMode ∈ (runTrafficLightIteration s).2 := by
        unfold runTrafficLightIteration
        rw [getTotalVehicles_checkCongestion]
        simp [he2, hflag, handleCongestion]
      exact ⟨fun _ => ⟨he2, hc⟩, fun _ => hmem⟩
    · have hc1 : s.congestionFlag = false := by
        cases h : s.congestionFlag
        · rfl
        · exact absurd (Or.inl h) hc
      have ht : getTotalVehicles s ≤ 10 := by
        by_contra h
        exact hc (Or.inr (by omega))
      rw [runTrafficLightIteration_normal s he2 hc1 ht]
      have h1 := congestionMode_not_mem_retimed s
      have h2 := congestionMode_not_mem_normalPhase
        (if getTotalVehicles s > 7 then adaptTimings s else (s, [])).1
      constructor
      · intro hm
        simp only [List.mem_append, List.mem_cons, List.mem_singleton, List.mem_nil_iff,
          or_false] at hm
        rcases hm with ((hm | hm) | hm) | hm
        · cases hm
        · exact absurd hm h1
        · exact absurd hm h2
        · rcases hm with hm | hm <;> cases hm
      · intro h
        exact absurd h.2 hc

/-- C13, as stated, fails on a reachable state: after ten Normal arrivals at
North, one Emergency arrival at South and one iteration (the emergency sweep,
which leaves `congestionFlag` raised), ten vehicles are queued, yet the flag is
still true after `checkCongestion`, and the next iteration runs the congestion
handler although the total does not exceed 10. -/
theorem C13_flag_not_recomputed :
    ¬ (∀ ops : List Op,
        ((checkCongestion (exec (Intersection.fresh 1) ops).1).congestionFlag = true
            ↔ getTotalVehicles (exec (Intersection.fresh 1) ops).1 > 10) ∧
        (Event.congestionMode ∈ (runTrafficLightIteration (exec (Intersection.fresh 1) ops).1).2
            → getTotalVehicles (exec (Intersection.fresh 1) ops).1 > 10)) := by
  intro h
  have h1 := (h (List.replicate 10 (Op.arrive VehicleType.CAR "north" 0)
    ++ [Op.arrive VehicleType.EMERGENCY "south" 1, Op.iterate])).1
  revert h1
  decide

theorem congestionFlag_addVehicle (s : Intersection) (type : VehicleType)
    (direction : String) (now : Nat) :
    (addVehicle s type direction now).1.congestionFlag = s.congestionFlag := by
  unfold addVehicle
  dsimp only
  split <;> split <;> (try split) <;> (try split) <;> (try split) <;> rfl

theorem congestionFlag_adaptTimings (s : Intersection) :
    (adaptTimings s).1.congestionFlag = s.congestionFlag := by
  unfold adaptTimings
  dsimp only
  split
  · rfl
  · split <;> rfl

theorem congestionFlag_normalPhase (t : Intersection) :
    (normalPhase t).1.congestionFlag = t.congestionFlag := by
  unfold normalPhase
  split <;> rfl

theorem congestionFlag_runTrafficLightIteration (s : Intersection) :
    (runTrafficLightIteration s).1.congestionFlag
      = if Event.congestionMode ∈ (runTrafficLightIteration s).2 then false
        else (s.congestionFlag || decide (getTotalVehicles s > 10)) := by
  by_cases hm : Event.congestionMode ∈ (runTrafficLightIteration s).2
  · rw [if_pos hm]
    obtain ⟨he, hc⟩ := (congestionMode_mem_iff s).1 hm
    have hflag : (s.congestionFlag || decide (getTotalVehicles s > 10)) = true := by
      rcases hc with hc | hc <;> simp [hc]
    unfold runTrafficLightIteration
    rw [getTotalVehicles_checkCongestion]
    simp [he, hflag]
  · rw [if_neg hm]
    by_cases he : s.emergencyFlag = true
    · rw [runTrafficLightIteration_emergency s he]
    · have he2 : s.emergencyFlag = false := by simpa using he
      have hc : ¬ (s.congestionFlag = true ∨ getTotalVehicles s > 10) :=
        fun h => hm ((congestionMode_mem_iff s).2 ⟨he2, h⟩)
      have hc1 : s.congestionFlag = false := by
        cases h : s.congestionFlag
        · rfl
        · exact absurd (Or.inl h) hc
      have ht : getTotalVehicles s ≤ 10 := by
        by_contra h
        exact hc (Or.inr (by omega))
      have ht2 : ¬ getTotalVehicles s > 10 := by omega
      rw [runTrafficLightIteration_normal s he2 hc1 ht]
      show (normalPhase (if getTotalVehicles s > 7 then adaptTimings s else (s, [])).1).1.congestionFlag
        = (s.congestionFlag || decide (getTotalVehicles s > 10))
      rw [congestionFlag_normalPhase]
      have hr : (if getTotalVehicles s > 7 then adaptTimings s else (s, [])).1.congestionFlag
          = s.congestionFlag := by
        split
        · exact congestionFlag_adaptTimings s
        · rfl
      rw [hr, hc1]
      simp [ht2]

/-- C13, amended: the congestion flag is a latch.  `checkCongestion` only ever
raises it: after it the flag is true exactly when it was already true or the
total exceeds 10, and nothing else in the state changes.  An arrival leaves the
flag as it is.  An iteration runs the congestion handler exactly when
`emergencyFlag` is clear and the flag was already raised or the total exceeds
10; so from a state whose flag is clear it does so only when the total exceeds
10.  After an iteration the flag is false if the congestion handler ran, and
otherwise it keeps the value `checkCongestion` gave it; so a raised flag is
cleared only by an iteration that runs the congestion handler. -/
theorem C13_congestion_flag_latched (s : Intersection) :
    checkCongestion s
      = { s with congestionFlag := s.congestionFlag || decide (getTotalVehicles s > 10) } ∧
    ((checkCongestion s).congestionFlag = true
      ↔ s.congestionFlag = true ∨ getTotalVehicles s > 10) ∧
    (∀ (type : VehicleType) (direction : String) (now : Nat),
      (addVehicle s type direction now).1.congestionFlag = s.congestionFlag) ∧
    (Event.congestionMode ∈ (runTrafficLightIteration s).2
      ↔ s.emergencyFlag = false ∧ (s.congestionFlag = true ∨ getTotalVehicles s > 10)) ∧
    (runTrafficLightIteration s).1.congestionFlag
      = (if Event.congestionMode ∈ (runTrafficLightIteration s).2 then false
         else (checkCongestion s).congestionFlag) ∧
    (Event.congestionMode ∈ (runTrafficLightIteration s).2 ∨
      ((runTrafficLightIteration s).1.congestionFlag = true
        ↔ s.congestionFlag = true ∨ getTotalVehicles s > 10)) := by
  have hflag : ((checkCongestion s).congestionFlag = true
      ↔ s.congestionFlag = true ∨ getTotalVehicles s > 10) := by
    rw [getTotalVehicles_checkCongestion]
    simp
  have hafter : (runTrafficLightIteration s).1.congestionFlag
      = (if Event.congestionMode ∈ (runTrafficLightIteration s).2 then false
         else (checkCongestion s).congestionFlag) := by
    rw [congestionFlag_runTrafficLightIteration, getTotalVehicles_checkCongestion]
  refine ⟨getTotalVehicles_checkCongestion s, hflag,
    fun type direction now => congestionFlag_addVehicle s type direction now,
    congestionMode_mem_iff s, hafter, ?_⟩
  by_cases hm : Event.congestionMode ∈ (runTrafficLightIteration s).2
  · exact Or.inl hm
  · right
    rw [hafter, if_neg hm]
    exact hflag

/-! ## C14 and C17: when the green durations change -/

theorem filterMap_map_none {α β γ : Type} (f : β → Option γ) (g : α → β) (l : List α)
    (h : ∀ x, f (g x) = none) : (l.map g).filterMap f = [] := by
  induction l with
  | nil => rfl
  | cons x l ih => simp [List.filterMap_cons, h x, ih]

theorem timerCalls_append (a b : List Event) :
    timerCalls (a ++ b) = timerCalls a ++ timerCalls b := by
  simp [timerCalls]

theorem timerCalls_processDirection (primary secondary : List Vehicle) (dirName : String) :
    timerCalls (processDirection primary secondary dirName).2.2 = [] := by
  rw [processDirection_eq]
  simp only [timerCalls_append]
  have h1 : ∀ l : List Vehicle, timerCalls (l.map Event.priorityPassed) = [] :=
    fun l => filterMap_map_none _ _ l (fun _ => rfl)
  have h2 : ∀ l : List Vehicle, timerCalls (l.map (fun v => Event.passed v dirName)) = [] :=
    fun l => filterMap_map_none _ _ l (fun _ => rfl)
  rw [h1, h1, h2, h2]
  rfl

theorem timerCalls_handleCongestionLoop (n : Nat) (s : Intersection) :
    timerCalls (handleCongestionLoop n s).2 = [] := by
  induction n generalizing s with
  | zero => rfl
  | succ n ih =>
    simp only [handleCongestionLoop, congestionRound, timerCalls_append,
      timerCalls_processDirection, ih, List.append_nil]

theorem timerCalls_normalPhase (t : Intersection) : timerCalls (normalPhase t).2 = [] := by
  unfold normalPhase
  split
  · exact timerCalls_processDirection _ _ _
  · exact timerCalls_processDirection _ _ _
  · rfl

theorem timing_handleCongestionLoop (n : Nat) (s : Intersection) :
    timing (handleCongestionLoop n s).1 = timing s := by
  induction n generalizing s with
  | zero => rfl
  | succ n ih => exact (ih (congestionRound s).1).trans rfl

theorem timing_normalPhase (t : Intersection) : timing (normalPhase t).1 = timing t := by
  unfold normalPhase
  split <;> rfl

theorem timing_checkCongestion (s : Intersection) : timing (checkCongestion s) = timing s := by
  rw [getTotalVehicles_checkCongestion]
  rfl

theorem timing_addVehicle (s : Intersection) (type : VehicleType) (direction : String)
    (now : Nat) : timing (addVehicle s type direction now).1 = timing s := by
  unfold addVehicle
  dsimp only
  split <;> split <;> (try split) <;> (try split) <;> (try split) <;> rfl

theorem runTrafficLightIteration_timing_emergency (s : Intersection)
    (he : s.emergencyFlag = true) :
    timing (runTrafficLightIteration s).1 = timing s ∧
    timerCalls (runTrafficLightIteration s).2 = [] := by
  rw [runTrafficLightIteration_emergency s he]
  refine ⟨rfl, ?_⟩
  simp only [timerCalls_append]
  have h1 : ∀ l : List Vehicle, timerCalls (l.map Event.priorityPassed) = [] :=
    fun l => filterMap_map_none _ _ l (fun _ => rfl)
  rw [h1, h1, h1, h1]
  rfl

theorem runTrafficLightIteration_timing_congestion (s : Intersection)
    (he : s.emergencyFlag = false)
    (hc : s.congestionFlag = true ∨ getTotalVehicles s > 10) :
    timing (runTrafficLightIteration s).1 = timing s ∧
    timerCalls (runTrafficLightIteration s).2 = [] := by
  have hflag : (s.congestionFlag || decide (getTotalVehicles s > 10)) = true := by
    rcases hc with hc | hc <;> simp [hc]
  have hrun : runTrafficLightIteration s
      = ({ (handleCongestion
            { s with
              congestionFlag := s.congestionFlag || decide (getTotalVehicles s > 10)
              currentState := LightState.CONGESTION }).1 with congestionFlag := false },
          [Event.lock] ++ (handleCongestion
            { s with
              congestionFlag := s.congestionFlag || decide (getTotalVehicles s > 10)
              currentState := LightState.CONGESTION }).2 ++ [Event.unlock]) := by
    unfold runTrafficLightIteration
    rw [getTotalVehicles_checkCongestion]
    simp [he, hflag]
  rw [hrun]
  constructor
  · exact timing_handleCongestionLoop 2 _
  · simp only [handleCongestion, timerCalls_append, timerCalls_handleCongestionLoop]
    rfl

theorem runTrafficLightIteration_timing_normal (s : Intersection)
    (he : s.emergencyFlag = false) (hc : s.congestionFlag = false)
    (ht : getTotalVehicles s ≤ 10) :
    timing (runTrafficLightIteration s).1
      = timing (if getTotalVehicles s > 7 then adaptTimings s else (s, [])).1 ∧
    timerCalls (runTrafficLightIteration s).2
      = timerCalls (if getTotalVehicles s > 7 then adaptTimings s else (s, [])).2 := by
  rw [runTrafficLightIteration_normal s he hc ht]
  constructor
  · exact timing_normalPhase _
  · simp only [timerCalls_append, timerCalls_normalPhase]
    have h1 : timerCalls [Event.lock] = [] := rfl
    have h2 : ∀ n, timerCalls [Event.unlock, Event.sleep n] = [] := fun _ => rfl
    rw [h1, h2, List.nil_append, List.append_nil, List.append_nil]

theorem runTrafficLightIteration_timing_cases (s : Intersection) :
    (timing (runTrafficLightIteration s).1 = timing s ∧
      timerCalls (runTrafficLightIteration s).2 = []) ∨
    (s.emergencyFlag = false ∧ s.congestionFlag = false ∧
      7 < getTotalVehicles s ∧ getTotalVehicles s ≤ 10 ∧
      timing (runTrafficLightIteration s).1 = timing (adaptTimings s).1 ∧
      timerCalls (runTrafficLightIteration s).2 = [timing (adaptTimings s).1]) := by
  by_cases he : s.emergencyFlag = true
  · exact Or.inl (runTrafficLightIteration_timing_emergency s he)
  · have he2 : s.emergencyFlag = false := by simpa using he
    by_cases hc : s.congestionFlag = true ∨ getTotalVehicles s > 10
    · exact Or.inl (runTrafficLightIteration_timing_congestion s he2 hc)
    · have hc1 : s.congestionFlag = false := by
        cases h : s.congestionFlag
        · rfl
        · exact absurd (Or.inl h) hc
      have ht : getTotalVehicles s ≤ 10 := by
        by_contra h
        exact hc (Or.inr (by omega))
      obtain ⟨h1, h2⟩ := runTrafficLightIteration_timing_normal s he2 hc1 ht
      by_cases h7 : getTotalVehicles s > 7
      · right
        rw [if_pos h7] at h1 h2
        exact ⟨he2, hc1, h7, ht, h1, h2⟩
      · left
        rw [if_neg h7] at h1 h2
        exact ⟨h1, h2⟩

/-- C14: an iteration that starts with `emergencyFlag` raised, or with
`congestionFlag` raised, or with more than 10 vehicles, or with at most 7
vehicles, leaves the pair `(northSouthTime, eastWestTime)` unchanged and does
not call the adaptive timer.  In every state, whatever its flags and total, an
arrival (any class, any direction string, here or at another intersection)
leaves the pair unchanged.  And every atomic step from every state either
leaves the pair unchanged or is an iteration that starts with more than 7
vehicles and sets the pair to what its single call of the adaptive timer
computed. -/
theorem C14_timing_changed_only_by_timer (s : Intersection)
    (h : s.emergencyFlag = true ∨ s.congestionFlag = true ∨ getTotalVehicles s > 10
          ∨ getTotalVehicles s ≤ 7) :
    timing (runTrafficLightIteration s).1 = timing s ∧
    timerCalls (runTrafficLightIteration s).2 = [] ∧
    (∀ (t : Intersection) (type : VehicleType) (direction : String) (now : Nat),
      timing (addVehicle t type direction now).1 = timing t) ∧
    (∀ t : Intersection, timing (step t Op.arriveElsewhere).1 = timing t) ∧
    (∀ t : Intersection,
      timing (runTrafficLightIteration t).1 = timing t ∨
      (7 < getTotalVehicles t ∧
        timerCalls (runTrafficLightIteration t).2 = [timing (runTrafficLightIteration t).1])) ∧
    (∀ (t : Intersection) (op : Op),
      timing (step t op).1 = timing t ∨
      (op = Op.iterate ∧ 7 < getTotalVehicles t ∧
        timerCalls (step t op).2 = [timing (step t op).1])) := by
  have hmain : timing (runTrafficLightIteration s).1 = timing s ∧
      timerCalls (runTrafficLightIteration s).2 = [] := by
    rcases runTrafficLightIteration_timing_cases s with hl | ⟨he, hc, h7, h10, _, _⟩
    · exact hl
    · rcases h with h | h | h | h
      · rw [he] at h; cases h
      · rw [hc] at h; cases h
      · omega
      · omega
  have hiter : ∀ t : Intersection,
      timing (runTrafficLightIteration t).1 = timing t ∨
      (7 < getTotalVehicles t ∧
        timerCalls (runTrafficLightIteration t).2
          = [timing (runTrafficLightIteration t).1]) := by
    intro t
    rcases runTrafficLightIteration_timing_cases t with hl | ⟨_, _, h7, _, ht, hcalls⟩
    · exact Or.inl hl.1
    · right
      rw [ht]
      exact ⟨h7, hcalls⟩
  refine ⟨hmain.1, hmain.2,
    fun t type direction now => timing_addVehicle t type direction now,
    fun t => rfl, hiter, ?_⟩
  intro t op
  cases op with
  | arrive type direction now => exact Or.inl (timing_addVehicle t type direction now)
  | arriveElsewhere => exact Or.inl rfl
  | iterate =>
    rcases hiter t with hl | ⟨h7, hcalls⟩
    · exact Or.inl hl
    · exact Or.inr ⟨rfl, h7, hcalls⟩

/-- Witness for C14: an iteration on seven Normal vehicles at North with no flag
raised leaves the pair unchanged; and an arrival at a state with the pair
(15, 5), nine vehicles and no flag raised leaves the pair unchanged too. -/
theorem C14_timing_changed_only_by_timer_witness :
    (({ Intersection.fresh 1 with
          northQueue := List.replicate 7 { id := 1, type := VehicleType.CAR, arrivalTime := 0 } }
        : Intersection).emergencyFlag = true ∨
      ({ Intersection.fresh 1 with
          northQueue := List.replicate 7 { id := 1, type := VehicleType.CAR, arrivalTime := 0 } }
        : Intersection).congestionFlag = true ∨
      getTotalVehicles
        { Intersection.fresh 1 with
          northQueue := List.replicate 7 { id := 1, type := VehicleType.CAR, arrivalTime := 0 } }
        > 10 ∨
      getTotalVehicles
        { Intersection.fresh 1 with
          northQueue := List.replicate 7 { id := 1, type := VehicleType.CAR, arrivalTime := 0 } }
        ≤ 7) ∧
    timing (runTrafficLightIteration
      { Intersection.fresh 1 with
        northQueue := List.replicate 7 { id := 1, type := VehicleType.CAR, arrivalTime := 0 } }).1
      = timing
        { Intersection.fresh 1 with
          northQueue := List.replicate 7 { id := 1, type := VehicleType.CAR, arrivalTime := 0 } } ∧
    timing (addVehicle
      { Intersection.fresh 1 with
        northQueue := List.replicate 9 { id := 1, type := VehicleType.CAR, arrivalTime := 0 }
        northSouthTime := 15
        eastWestTime := 5 } VehicleType.EMERGENCY "east" 3).1 = (15, 5) :=
  ⟨by decide,
    (C14_timing_changed_only_by_timer
      { Intersection.fresh 1 with
        northQueue := List.replicate 7 { id := 1, type := VehicleType.CAR, arrivalTime := 0 } }
      (by decide)).1,
    (C14_timing_changed_only_by_timer
      { Intersection.fresh 1 with
        northQueue := List.replicate 7 { id := 1, type := VehicleType.CAR, arrivalTime := 0 } }
      (by decide)).2.2.1
      { Intersection.fresh 1 with
        northQueue := List.replicate 9 { id := 1, type := VehicleType.CAR, arrivalTime := 0 }
        northSouthTime := 15
        eastWestTime := 5 } VehicleType.EMERGENCY "east" 3⟩

/-- C17: if an iteration calls the adaptive timer then both flags were clear
at its start and the total was 8, 9 or 10, so the combined loads the timer sees
add up to at most 10 (never North+South = 12 with East+West = 3); the timer is
called once, and sets the pair the iteration ends with. -/
theorem C17_timer_called_only_between_8_and_10 (s : Intersection)
    (h : timerCalls (runTrafficLightIteration s).2 ≠ []) :
    7 < getTotalVehicles s ∧ getTotalVehicles s ≤ 10 ∧
    s.emergencyFlag = false ∧ s.congestionFlag = false ∧
    (s.northQueue.length + s.southQueue.length)
      + (s.eastQueue.length + s.westQueue.length) ≤ 10 ∧
    ¬ (s.northQueue.length + s.southQueue.length = 12
        ∧ s.eastQueue.length + s.westQueue.length = 3) ∧
    timerCalls (runTrafficLightIteration s).2 = [timing (adaptTimings s).1] ∧
    timing (runTrafficLightIteration s).1 = timing (adaptTimings s).1 := by
  rcases runTrafficLightIteration_timing_cases s with hl | ⟨he, hc, h7, h10, ht, hcalls⟩
  · exact absurd hl.2 h
  · have hsum : (s.northQueue.length + s.southQueue.length)
        + (s.eastQueue.length + s.westQueue.length) ≤ 10 := by
      unfold getTotalVehicles at h10
      omega
    refine ⟨h7, h10, he, hc, hsum, ?_, hcalls, ht⟩
    intro hns
    omega

/-- Witness for C17: eight Normal vehicles at North, no flag raised. -/
theorem C17_timer_called_only_between_8_and_10_witness :
    timerCalls (runTrafficLightIteration
      { Intersection.fresh 1 with
        northQueue := List.replicate 8 { id := 1, type := VehicleType.CAR, arrivalTime := 0 } }).2
      ≠ [] ∧
    7 < getTotalVehicles
      { Intersection.fresh 1 with
        northQueue := List.replicate 8 { id := 1, type := VehicleType.CAR, arrivalTime := 0 } } ∧
    getTotalVehicles
      { Intersection.fresh 1 with
        northQueue := List.replicate 8 { id := 1, type := VehicleType.CAR, arrivalTime := 0 } }
      ≤ 10 :=
  ⟨by decide,
    (C17_timer_called_only_between_8_and_10
      { Intersection.fresh 1 with
        northQueue := List.replicate 8 { id := 1, type := VehicleType.CAR, arrivalTime := 0 } }
      (by decide)).1,
    (C17_timer_called_only_between_8_and_10
      { Intersection.fresh 1 with
        northQueue := List.replicate 8 { id := 1, type := VehicleType.CAR, arrivalTime := 0 } }
      (by decide)).2.1⟩

/-! ## C15: sleeping and the lock -/

theorem sleepsUnderLock_priorityPassed (held : Bool) (l : List Vehicle) (rest : List Event) :
    sleepsUnderLock held (l.map Event.priorityPassed ++ rest) = sleepsUnderLock held rest := by
  induction l with
  | nil => rfl
  | cons v l ih =>
    simp only [List.map_cons, List.cons_append]
    cases held <;> simpa [sleepsUnderLock] using ih

/-- In the code as written, every iteration that takes the emergency path
sleeps its 5 s while `queueMutex` is held: `handleEmergency` is called, and
sleeps, before the `unique_lock` is released at `continue`. -/
theorem runTrafficLightIteration_emergency_sleeps_locked (s : Intersection)
    (he : s.emergencyFlag = true) :
    sleepsUnderLock false (runTrafficLightIteration s).2 = [5] := by
  rw [runTrafficLightIteration_emergency s he]
  have hlog : [Event.lock, Event.emergencyMode]
        ++ (emergencies s.northQueue).map Event.priorityPassed
        ++ (emergencies s.southQueue).map Event.priorityPassed
        ++ (emergencies s.eastQueue).map Event.priorityPassed
        ++ (emergencies s.westQueue).map Event.priorityPassed
        ++ [Event.sleep 5, Event.unlock]
      = Event.lock :: Event.emergencyMode ::
          ((emergencies s.northQueue).map Event.priorityPassed
            ++ ((emergencies s.southQueue).map Event.priorityPassed
              ++ ((emergencies s.eastQueue).map Event.priorityPassed
                ++ ((emergencies s.westQueue).map Event.priorityPassed
                  ++ [Event.sleep 5, Event.unlock])))) := by
    simp only [List.append_assoc, List.cons_append, List.nil_append]
  show sleepsUnderLock false ([Event.lock, Event.emergencyMode]
        ++ (emergencies s.northQueue).map Event.priorityPassed
        ++ (emergencies s.southQueue).map Event.priorityPassed
        ++ (emergencies s.eastQueue).map Event.priorityPassed
        ++ (emergencies s.westQueue).map Event.priorityPassed
        ++ [Event.sleep 5, Event.unlock]) = [5]
  rw [hlog]
  show sleepsUnderLock true
      ((emergencies s.northQueue).map Event.priorityPassed
        ++ ((emergencies s.southQueue).map Event.priorityPassed
          ++ ((emergencies s.eastQueue).map Event.priorityPassed
            ++ ((emergencies s.westQueue).map Event.priorityPassed
              ++ [Event.sleep 5, Event.unlock])))) = [5]
  rw [sleepsUnderLock_priorityPassed, sleepsUnderLock_priorityPassed,
    sleepsUnderLock_priorityPassed, sleepsUnderLock_priorityPassed]
  rfl

/-- C15, evaluated on the code: an Emergency vehicle arrives at South of a
fresh intersection.  The next iteration acquires the lock, runs the emergency
handler, sleeps 5 s and only then releases the lock, so that sleep is performed
with the lock held.  By contrast a normal iteration (one Normal vehicle at
North) unlocks before it sleeps. -/
theorem C15_emergency_sleep_holds_lock :
    (runTrafficLightIteration
        (exec (Intersection.fresh 1) [Op.arrive VehicleType.EMERGENCY "south" 0]).1).2
      = [Event.lock, Event.emergencyMode,
         Event.priorityPassed { id := 1, type := VehicleType.EMERGENCY, arrivalTime := 0 },
         Event.sleep 5, Event.unlock] ∧
    sleepsUnderLock false (runTrafficLightIteration
        (exec (Intersection.fresh 1) [Op.arrive VehicleType.EMERGENCY "south" 0]).1).2 = [5] ∧
    (runTrafficLightIteration
        (exec (Intersection.fresh 1) [Op.arrive VehicleType.CAR "north" 0]).1).2
      = [Event.lock, Event.green "Север-Юг",
         Event.passed { id := 1, type := VehicleType.CAR, arrivalTime := 0 } "Север-Юг",
         Event.unlock, Event.sleep 10] ∧
    sleepsUnderLock false (runTrafficLightIteration
        (exec (Intersection.fresh 1) [Op.arrive VehicleType.CAR "north" 0]).1).2 = [] := by
  refine ⟨by decide, by decide, by decide, by decide⟩

/-! ## C16: the emergency flag covers the queues -/

theorem priorityVehicles_append (a b : List Event) :
    priorityVehicles (a ++ b) = priorityVehicles a ++ priorityVehicles b := by
  simp [priorityVehicles]

theorem priorityVehicles_priorityPassed (l : List Vehicle) :
    priorityVehicles (l.map Event.priorityPassed) = l := by
  induction l with
  | nil => rfl
  | cons v l ih =>
    simp only [priorityVehicles] at ih
    simp [priorityVehicles, Event.priorityVehicle, ih]

theorem priorityVehicles_processDirection (primary secondary : List Vehicle)
    (dirName : String) :
    priorityVehicles (processDirection primary secondary dirName).2.2
      = emergencies primary ++ emergencies secondary := by
  rw [processDirection_eq]
  simp only [priorityVehicles_append, priorityVehicles_priorityPassed]
  have h2 : ∀ l : List Vehicle,
      priorityVehicles (l.map (fun v => Event.passed v dirName)) = [] :=
    fun l => filterMap_map_none _ _ l (fun _ => rfl)
  have hg : priorityVehicles [Event.green dirName] = [] := rfl
  rw [h2, h2, hg, List.nil_append, List.append_nil, List.append_nil]

theorem emergencyFree_of_sublist (q q2 : List Vehicle) (h : q2.Sublist q)
    (hq : emergencyFree q) : emergencyFree q2 :=
  fun v hv => hq v (h.subset hv)

theorem priorityVehicles_congestionRound (s : Intersection)
    (hq : ∀ d : Direction, emergencyFree (queueAt s d)) :
    priorityVehicles (congestionRound s).2 = [] := by
  have hN : emergencies s.northQueue = [] :=
    emergencies_of_emergencyFree _ (hq Direction.north)
  have hS : emergencies s.southQueue = [] :=
    emergencies_of_emergencyFree _ (hq Direction.south)
  have hE : emergencies s.eastQueue = [] :=
    emergencies_of_emergencyFree _ (hq Direction.east)
  have hW : emergencies s.westQueue = [] :=
    emergencies_of_emergencyFree _ (hq Direction.west)
  simp only [congestionRound, priorityVehicles_append, priorityVehicles_processDirection,
    hN, hS, hE, hW, List.append_nil]

theorem priorityVehicles_handleCongestionLoop (n : Nat) (s : Intersection)
    (hq : ∀ d : Direction, emergencyFree (queueAt s d)) :
    priorityVehicles (handleCongestionLoop n s).2 = [] := by
  induction n generalizing s with
  | zero => rfl
  | succ n ih =>
    have h1 := priorityVehicles_congestionRound s hq
    have h2 := ih (congestionRound s).1
      (fun d => emergencyFree_of_sublist _ _ (congestionRound_sublist d s) (hq d))
    simp only [handleCongestionLoop, priorityVehicles_append, h1, h2, List.append_nil]

theorem priorityVehicles_normalPhase (t : Intersection)
    (hq : ∀ d : Direction, emergencyFree (queueAt t d)) :
    priorityVehicles (normalPhase t).2 = [] := by
  unfold normalPhase
  split
  · show priorityVehicles (processDirection t.northQueue t.southQueue "Север-Юг").2.2 = []
    have hN : emergencies t.northQueue = [] :=
      emergencies_of_emergencyFree _ (hq Direction.north)
    have hS : emergencies t.southQueue = [] :=
      emergencies_of_emergencyFree _ (hq Direction.south)
    rw [priorityVehicles_processDirection, hN, hS]
    rfl
  · show priorityVehicles (processDirection t.eastQueue t.westQueue "Восток-Запад").2.2 = []
    have hE : emergencies t.eastQueue = [] :=
      emergencies_of_emergencyFree _ (hq Direction.east)
    have hW : emergencies t.westQueue = [] :=
      emergencies_of_emergencyFree _ (hq Direction.west)
    rw [priorityVehicles_processDirection, hE, hW]
    rfl
  · rfl

theorem priorityVehicles_runTrafficLightIteration (s : Intersection)
    (he : s.emergencyFlag = false) (hq : ∀ d : Direction, emergencyFree (queueAt s d)) :
    priorityVehicles (runTrafficLightIteration s).2 = [] := by
  have hl : priorityVehicles [Event.lock] = [] := rfl
  have hu : priorityVehicles [Event.unlock] = [] := rfl
  by_cases hc : s.congestionFlag = true ∨ getTotalVehicles s > 10
  · have hflag : (s.congestionFlag || decide (getTotalVehicles s > 10)) = true := by
      rcases hc with hc | hc <;> simp [hc]
    have hrun : (runTrafficLightIteration s).2
        = [Event.lock] ++ (handleCongestion
            { s with
              congestionFlag := s.congestionFlag || decide (getTotalVehicles s > 10)
              currentState := LightState.CONGESTION }).2 ++ [Event.unlock] := by
      unfold runTrafficLightIteration
      rw [getTotalVehicles_checkCongestion]
      simp [he, hflag]
    rw [hrun]
    simp only [handleCongestion, priorityVehicles_append, hl, hu]
    have hloop := priorityVehicles_handleCongestionLoop 2
      { s with
        congestionFlag := s.congestionFlag || decide (getTotalVehicles s > 10)
        currentState := LightState.CONGESTION }
      (fun d => by cases d <;> first | exact hq Direction.north | exact hq Direction.south
                                     | exact hq Direction.east | exact hq Direction.west)
    rw [hloop]
    rfl
  · have hc1 : s.congestionFlag = false := by
      cases h : s.congestionFlag
      · rfl
      · exact absurd (Or.inl h) hc
    have ht : getTotalVehicles s ≤ 10 := by
      by_contra h
      exact hc (Or.inr (by omega))
    rw [runTrafficLightIteration_normal s he hc1 ht]
    have hr : priorityVehicles (if getTotalVehicles s > 7 then adaptTimings s else (s, [])).2
        = [] := by
      rw [retimed_log]
      split <;> rfl
    have hn := priorityVehicles_normalPhase
      (if getTotalVehicles s > 7 then adaptTimings s else (s, [])).1
      (fun d => by rw [retimed_queueAt]; exact hq d)
    have hs : ∀ n, priorityVehicles [Event.unlock, Event.sleep n] = [] := fun _ => rfl
    simp only [priorityVehicles_append, hl, hr, hn, hs, List.append_nil]

theorem emergencyFree_after_iteration (s : Intersection) (h : FlagCoversEmergencies s) :
    ∀ d : Direction, emergencyFree (queueAt (runTrafficLightIteration s).1 d) := by
  intro d
  by_cases he : s.emergencyFlag = true
  · rw [runTrafficLightIteration_emergency s he]
    cases d <;> exact emergencyFree_nonEmergency _
  · have he2 : s.emergencyFlag = false := by simpa using he
    exact emergencyFree_of_sublist _ _ (runTrafficLightIteration_sublist d s) (h he2 d)

theorem addVehicle_emergencyFlag (s : Intersection) (type : VehicleType) (direction : String)
    (now : Nat) :
    (addVehicle s type direction now).1.emergencyFlag
      = if type = VehicleType.EMERGENCY then true else s.emergencyFlag := by
  unfold addVehicle
  dsimp only
  split <;> split <;> (try split) <;> (try split) <;> (try split) <;> rfl

theorem FlagCoversEmergencies_step (s : Intersection) (op : Op)
    (h : FlagCoversEmergencies s) : FlagCoversEmergencies (step s op).1 := by
  cases op with
  | arrive type direction now =>
    intro hf d v hv
    simp only [step] at hf hv
    rw [addVehicle_emergencyFlag] at hf
    by_cases ht : type = VehicleType.EMERGENCY
    · rw [if_pos ht] at hf
      cases hf
    · rw [if_neg ht] at hf
      rw [addVehicle_queueAt] at hv
      rcases List.mem_append.1 hv with hv | hv
      · exact h hf d v hv
      · rw [(addVehicle_arrivedAt_type d s type direction now v hv).1]
        exact ht
  | arriveElsewhere =>
    intro hf d
    have e : queueAt (step s Op.arriveElsewhere).1 d = queueAt s d := by cases d <;> rfl
    rw [e]
    exact h hf d
  | iterate =>
    intro _ d
    exact emergencyFree_after_iteration s h d

theorem FlagCoversEmergencies_exec (ops : List Op) (s : Intersection)
    (h : FlagCoversEmergencies s) : FlagCoversEmergencies (exec s ops).1 := by
  induction ops generalizing s with
  | nil => exact h
  | cons op ops ih => exact ih (step s op).1 (FlagCoversEmergencies_step s op h)

/-- C16: in every state reached from a fresh intersection by arrivals (any
class, any direction string, here or at another intersection) and control-loop
iterations, a queue that holds an Emergency vehicle implies `emergencyFlag` is
raised.  Consequently an iteration started in such a state with the flag clear
(a normal phase or a congestion drain) removes no vehicle in its emergency
sweeps, every Emergency vehicle an iteration services is serviced with the flag
raised, that is by the emergency handler, and after any iteration no Emergency
vehicle is left in a queue. -/
theorem C16_emergency_flag_covers_queues (id : Int) (ops : List Op) :
    (∀ (d : Direction) (v : Vehicle),
      v ∈ queueAt (exec (Intersection.fresh id) ops).1 d → v.type = VehicleType.EMERGENCY →
        (exec (Intersection.fresh id) ops).1.emergencyFlag = true) ∧
    ((exec (Intersection.fresh id) ops).1.emergencyFlag = false →
      priorityVehicles (runTrafficLightIteration (exec (Intersection.fresh id) ops).1).2 = []) ∧
    (∀ v ∈ servicedVehicles (runTrafficLightIteration (exec (Intersection.fresh id) ops).1).2,
      v.type = VehicleType.EMERGENCY →
        (exec (Intersection.fresh id) ops).1.emergencyFlag = true ∧
        Event.emergencyMode ∈ (runTrafficLightIteration (exec (Intersection.fresh id) ops).1).2) ∧
    (∀ d : Direction,
      emergencyFree (queueAt (runTrafficLightIteration (exec (Intersection.fresh id) ops).1).1 d)) := by
  have h0 : FlagCoversEmergencies (Intersection.fresh id) := by
    intro _ d v hv
    cases d <;> simp [queueAt, Intersection.fresh] at hv
  have hinv := FlagCoversEmergencies_exec ops (Intersection.fresh id) h0
  refine ⟨?_, ?_, ?_, emergencyFree_after_iteration _ hinv⟩
  · intro d v hv ht
    by_contra hf
    have hf2 : (exec (Intersection.fresh id) ops).1.emergencyFlag = false := by simpa using hf
    exact hinv hf2 d v hv ht
  · intro hf
    exact priorityVehicles_runTrafficLightIteration _ hf (hinv hf)
  · intro v hv ht
    have hflag : (exec (Intersection.fresh id) ops).1.emergencyFlag = true := by
      by_contra hf
      have hf2 : (exec (Intersection.fresh id) ops).1.emergencyFlag = false := by
        simpa using hf
      have hcons := runTrafficLightIteration_conserves (exec (Intersection.fresh id) ops).1
      have hmem : v ∈ allVehicles (exec (Intersection.fresh id) ops).1 := by
        have : v ∈ (↑(allVehicles (exec (Intersection.fresh id) ops).1) : Multiset Vehicle) := by
          rw [hcons]
          exact Multiset.mem_add.2 (Or.inr (by simpa using hv))
        simpa using this
      rw [allVehicles_eq_queueAt] at hmem
      simp only [List.mem_append] at hmem
      rcases hmem with ((hm | hm) | hm) | hm
      · exact hinv hf2 _ v hm ht
      · exact hinv hf2 _ v hm ht
      · exact hinv hf2 _ v hm ht
      · exact hinv hf2 _ v hm ht
    refine ⟨hflag, ?_⟩
    rw [runTrafficLightIteration_emergency _ hflag]
    simp

/-- Witness for C16: a Normal arrival, an Emergency arrival from an
unrecognised direction, an iteration (emergency sweep) and a Normal arrival
leave the flag clear, and the next iteration sweeps out nothing. -/
theorem C16_emergency_flag_covers_queues_witness :
    (exec (Intersection.fresh 1)
      [Op.arrive VehicleType.CAR "north" 0, Op.arrive VehicleType.EMERGENCY "up" 1,
        Op.iterate, Op.arrive VehicleType.CAR "east" 2]).1.emergencyFlag = false ∧
    priorityVehicles (runTrafficLightIteration (exec (Intersection.fresh 1)
      [Op.arrive VehicleType.CAR "north" 0, Op.arrive VehicleType.EMERGENCY "up" 1,
        Op.iterate, Op.arrive VehicleType.CAR "east" 2]).1).2 = [] :=
  ⟨by decide,
    (C16_emergency_flag_covers_queues 1
      [Op.arrive VehicleType.CAR "north" 0, Op.arrive VehicleType.EMERGENCY "up" 1,
        Op.iterate, Op.arrive VehicleType.CAR "east" 2]).2.1 (by decide)⟩

end Task2

namespace Task1

/-! ## C18: what a server processes next -/

theorem topFrom_mem (best : Task) (q : List Task) : topFrom best q ∈ best :: q := by
  induction q generalizing best with
  | nil => simp [topFrom]
  | cons task rest ih =>
    unfold topFrom
    split
    · have := ih task
      exact List.mem_cons_of_mem _ this
    · have := ih best
      rcases List.mem_cons.1 this with h | h
      · rw [h]; exact List.mem_cons_self _ _
      · exact List.mem_cons_of_mem _ (List.mem_cons_of_mem _ h)

theorem topFrom_le (best : Task) (q : List Task) :
    (topFrom best q).priority ≤ best.priority ∧
    ∀ x ∈ q, (topFrom best q).priority ≤ x.priority := by
  induction q generalizing best with
  | nil => simp [topFrom]
  | cons task rest ih =>
    unfold topFrom
    by_cases h : best.lt task = true
    · rw [if_pos h]
      obtain ⟨h1, h2⟩ := ih task
      have hlt : task.priority < best.priority := by
        simpa [Task.lt] using h
      refine ⟨by omega, ?_⟩
      intro x hx
      rcases List.mem_cons.1 hx with hx | hx
      · rw [hx]; exact h1
      · exact h2 x hx
    · rw [if_neg h]
      obtain ⟨h1, h2⟩ := ih best
      have hge : best.priority ≤ task.priority := by
        simpa [Task.lt] using h
      refine ⟨h1, ?_⟩
      intro x hx
      rcases List.mem_cons.1 hx with hx | hx
      · rw [hx]; omega
      · exact h2 x hx

theorem top_spec (q : List Task) (t : Task) (h : top q = some t) :
    t ∈ q ∧ ∀ x ∈ q, t.priority ≤ x.priority := by
  cases q with
  | nil => simp [top] at h
  | cons task rest =>
    simp only [top, Option.some.injEq] at h
    subst h
    refine ⟨topFrom_mem task rest, ?_⟩
    intro x hx
    obtain ⟨h1, h2⟩ := topFrom_le task rest
    rcases List.mem_cons.1 hx with hx | hx
    · rw [hx]; exact h1
    · exact h2 x hx

theorem top_isSome (q : List Task) (h : q ≠ []) : ∃ t, top q = some t := by
  cases q with
  | nil => exact absurd rfl h
  | cons task rest => exact ⟨topFrom task rest, rfl⟩

theorem Server.processTasks_load (s : Server)
    (h : s.currentLoad = (s.taskQueue.length : Int)) :
    s.processTasks.1.currentLoad = (s.processTasks.1.taskQueue.length : Int) := by
  unfold Server.processTasks
  split
  · next task ht =>
      have hm := (top_spec s.taskQueue task ht).1
      have hl := List.length_erase_of_mem hm
      have hpos : 0 < s.taskQueue.length := List.length_pos_of_mem hm
      show s.currentLoad - 1 = ((s.taskQueue.erase task).length : Int)
      rw [hl, h]
      omega
  · exact h

theorem Server.addTask_load (s : Server) (task : Task)
    (h : s.currentLoad = (s.taskQueue.length : Int)) :
    (s.addTask task).currentLoad = ((s.addTask task).taskQueue.length : Int) := by
  show s.currentLoad + 1 = ((s.taskQueue ++ [task]).length : Int)
  rw [h]
  simp

theorem Server.exec_load (ops : List ServerOp) (s : Server)
    (h : s.currentLoad = (s.taskQueue.length : Int)) :
    (s.exec ops).currentLoad = ((s.exec ops).taskQueue.length : Int) := by
  induction ops generalizing s with
  | nil => exact h
  | cons op ops ih =>
    cases op with
    | addTask task => exact ih (s.addTask task) (Server.addTask_load s task h)
    | process => exact ih s.processTasks.1 (Server.processTasks_load s h)

/-- C18: a server whose queue is not empty takes for processing a queued task
that is a top of the queue under `Task::operator<` (no queued task is above it)
and whose numeric priority is at most that of every queued task; exactly that
task leaves the queue and `currentLoad` drops by one.  And in every state a
server reaches from its construction by `addTask` calls and passes of its
worker loop, `currentLoad` equals the number of queued tasks. -/
theorem C18_server_processes_min_priority (s : Server) (h : s.taskQueue ≠ []) :
    (∃ task : Task,
      s.processTasks.2 = some task ∧
      task ∈ s.taskQueue ∧
      (∀ x ∈ s.taskQueue, task.priority ≤ x.priority) ∧
      (∀ x ∈ s.taskQueue, task.lt x = false) ∧
      s.processTasks.1.taskQueue = s.taskQueue.erase task ∧
      (↑s.processTasks.1.taskQueue : Multiset Task) + {task} = ↑s.taskQueue ∧
      s.processTasks.1.currentLoad = s.currentLoad - 1) ∧
    (∀ (serverId : Int) (ops : List ServerOp),
      ((Server.new serverId).exec ops).currentLoad
        = (((Server.new serverId).exec ops).taskQueue.length : Int)) := by
  constructor
  · obtain ⟨task, ht⟩ := top_isSome s.taskQueue h
    obtain ⟨hm, hle⟩ := top_spec s.taskQueue task ht
    have hp : s.processTasks
        = ({ s with taskQueue := s.taskQueue.erase task, currentLoad := s.currentLoad - 1 },
            some task) := by
      unfold Server.processTasks
      rw [ht]
    refine ⟨task, ?_, hm, hle, ?_, ?_, ?_, ?_⟩
    · rw [hp]
    · intro x hx
      have := hle x hx
      simp only [Task.lt, decide_eq_false_iff_not, gt_iff_lt, not_lt]
      exact this
    · rw [hp]
    · rw [hp]
      show (↑(s.taskQueue.erase task) : Multiset Task) + {task} = ↑s.taskQueue
      rw [← Multiset.coe_erase, add_comm, Multiset.singleton_add]
      exact Multiset.cons_erase (by simpa using hm)
    · rw [hp]
  · intro serverId ops
    exact Server.exec_load ops (Server.new serverId) rfl

/-- Witness for C18: three queued tasks with priorities 3, 1, 2. -/
theorem C18_server_processes_min_priority_witness :
    ({ id := 1
       taskQueue := [{ id := 1, priority := 3 }, { id := 2, priority := 1 },
                     { id := 3, priority := 2 }]
       currentLoad := 3 } : Server).taskQueue ≠ [] ∧
    ∃ task : Task,
      ({ id := 1
         taskQueue := [{ id := 1, priority := 3 }, { id := 2, priority := 1 },
                       { id := 3, priority := 2 }]
         currentLoad := 3 } : Server).processTasks.2 = some task ∧
      task ∈ ({ id := 1
                taskQueue := [{ id := 1, priority := 3 }, { id := 2, priority := 1 },
                              { id := 3, priority := 2 }]
                currentLoad := 3 } : Server).taskQueue ∧
      ∀ x ∈ ({ id := 1
               taskQueue := [{ id := 1, priority := 3 }, { id := 2, priority := 1 },
                             { id := 3, priority := 2 }]
               currentLoad := 3 } : Server).taskQueue, task.priority ≤ x.priority :=
  ⟨by decide,
    (C18_server_processes_min_priority
      { id := 1
        taskQueue := [{ id := 1, priority := 3 }, { id := 2, priority := 1 },
                      { id := 3, priority := 2 }]
        currentLoad := 3 } (by decide)).1.imp
      (fun _ hx => ⟨hx.1, hx.2.1, hx.2.2.1⟩)⟩

/-! ## Which server receives a task -/

theorem selectLoop_spec (l : List Server) (i : Nat) (m : Int) (t : Option Nat) :
    ((selectLoop l i m t).2 = t ∧ (selectLoop l i m t).1 = m ∧
      ∀ x ∈ l, m ≤ x.getCurrentLoad) ∨
    (∃ (k : Nat) (s : Server),
      l[k]? = some s ∧
      (selectLoop l i m t).2 = some (i + k) ∧
      (selectLoop l i m t).1 = s.getCurrentLoad ∧
      s.getCurrentLoad < m ∧
      (∀ x ∈ l.take k, s.getCurrentLoad < x.getCurrentLoad) ∧
      (∀ x ∈ l, s.getCurrentLoad ≤ x.getCurrentLoad)) := by
  induction l generalizing i m t with
  | nil => exact Or.inl ⟨rfl, rfl, fun x hx => absurd hx (List.not_mem_nil _)⟩
  | cons a rest ih =>
    unfold selectLoop
    by_cases ha : a.getCurrentLoad < m
    · rw [if_pos ha]
      right
      rcases ih (i + 1) a.getCurrentLoad (some i) with ⟨h1, h2, h3⟩ | ⟨k, s, h1, h2, h3, h4, h5, h6⟩
      · refine ⟨0, a, by simp, h1, h2, ha, ?_, ?_⟩
        · intro x hx
          simp at hx
        · intro x hx
          rcases List.mem_cons.1 hx with hx | hx
          · rw [hx]
          · exact h3 x hx
      · refine ⟨k + 1, s, by simpa using h1, ?_, h3, by omega, ?_, ?_⟩
        · rw [h2]
          congr 1
          omega
        · intro x hx
          rw [List.take_succ_cons] at hx
          rcases List.mem_cons.1 hx with hx | hx
          · rw [hx]; exact h4
          · exact h5 x hx
        · intro x hx
          rcases List.mem_cons.1 hx with hx | hx
          · rw [hx]; omega
          · exact h6 x hx
    · rw [if_neg ha]
      rcases ih (i + 1) m t with ⟨h1, h2, h3⟩ | ⟨k, s, h1, h2, h3, h4, h5, h6⟩
      · left
        refine ⟨h1, h2, ?_⟩
        intro x hx
        rcases List.mem_cons.1 hx with hx | hx
        · rw [hx]; omega
        · exact h3 x hx
      · right
        refine ⟨k + 1, s, by simpa using h1, ?_, h3, h4, ?_, ?_⟩
        · rw [h2]
          congr 1
          omega
        · intro x hx
          rw [List.take_succ_cons] at hx
          rcases List.mem_cons.1 hx with hx | hx
          · rw [hx]; omega
          · exact h5 x hx
        · intro x hx
          rcases List.mem_cons.1 hx with hx | hx
          · rw [hx]; omega
          · exact h6 x hx

theorem applyAt_eq (f : Server → Server) (l : List Server) (k : Nat) (s : Server)
    (h : l[k]? = some s) :
    applyAt f k l = l.take k ++ f s :: l.drop (k + 1) := by
  induction l generalizing k with
  | nil => simp at h
  | cons a rest ih =>
    cases k with
    | zero =>
      simp only [List.getElem?_cons_zero, Option.some.injEq] at h
      subst h
      simp [applyAt]
    | succ k =>
      simp only [List.getElem?_cons_succ] at h
      simp [applyAt, ih k h]

theorem applyAt_length (f : Server → Server) (l : List Server) (k : Nat) :
    (applyAt f k l).length = l.length := by
  induction l generalizing k with
  | nil => cases k <;> rfl
  | cons a rest ih =>
    cases k with
    | zero => rfl
    | succ k => simp [applyAt, ih k]

theorem int_gt_threshold (x : Int) : ((x : ℚ) > loadThreshold * 4) ↔ 4 ≤ x := by
  have hth : loadThreshold * 4 = (16 / 5 : ℚ) := by norm_num [loadThreshold]
  rw [hth]
  constructor
  · intro h
    by_contra hlt
    have hle : x ≤ 3 := by omega
    have hq : (x : ℚ) ≤ 3 := by exact_mod_cast hle
    linarith
  · intro h
    have hq : (4 : ℚ) ≤ (x : ℚ) := by exact_mod_cast h
    linarith

theorem avg_gt_threshold (total : Int) :
    ((total : ℚ) / ((5 : Nat) : ℚ) > loadThreshold * 4) ↔ 17 ≤ total := by
  have hth : loadThreshold * 4 = (16 / 5 : ℚ) := by norm_num [loadThreshold]
  rw [hth]
  have h5 : ((5 : Nat) : ℚ) = 5 := by norm_num
  rw [h5]
  constructor
  · intro h
    by_contra hlt
    have hle : total ≤ 16 := by omega
    have hq : (total : ℚ) ≤ 16 := by exact_mod_cast hle
    have : (total : ℚ) / 5 ≤ 16 / 5 := by linarith
    linarith
  · intro h
    have hq : (17 : ℚ) ≤ (total : ℚ) := by exact_mod_cast h
    have : (17 : ℚ) / 5 ≤ (total : ℚ) / 5 := by linarith
    linarith

theorem Cluster.checkLoad_five (c : Cluster) (h : c.servers.length = 5) :
    c.checkLoad = if 17 ≤ totalLoad c.servers then c.addServer else c := by
  unfold Cluster.checkLoad
  dsimp only
  rw [h]
  by_cases ht : 17 ≤ totalLoad c.servers
  · rw [if_pos ((avg_gt_threshold _).2 ht), if_pos ht]
  · rw [if_neg (fun hh => ht ((avg_gt_threshold _).1 hh)), if_neg ht]

theorem totalLoad_update (l : List Server) (k : Nat) (s : Server) (task : Task)
    (h : l[k]? = some s) :
    totalLoad (l.take k ++ s.addTask task :: l.drop (k + 1)) = totalLoad l + 1 := by
  have hsplit : l = l.take k ++ s :: l.drop (k + 1) := by
    have h0 := List.take_append_drop k l
    have hk := List.getElem?_eq_some_iff.1 h
    have hd : l.drop k = s :: l.drop (k + 1) := by
      rw [List.drop_eq_getElem_cons hk.1, hk.2]
    rw [hd] at h0
    exact h0.symm
  conv_rhs => rw [hsplit]
  simp only [totalLoad, List.map_append, List.map_cons, List.sum_append,
    List.sum_cons, Server.getCurrentLoad, Server.addTask]
  ring

theorem update_length (l : List Server) (k : Nat) (s s2 : Server) (h : l[k]? = some s) :
    (l.take k ++ s2 :: l.drop (k + 1)).length = l.length := by
  have hk := (List.getElem?_eq_some_iff.1 h).1
  simp only [List.length_append, List.length_take, List.length_cons, List.length_drop]
  omega

theorem Cluster.addTask_none (c : Cluster) (task : Task)
    (h : ¬ ∃ s ∈ c.servers, s.getCurrentLoad < intMax) :
    c.addTask task = c := by
  rcases selectLoop_spec c.servers 0 intMax none with ⟨h1, _, _⟩ | ⟨k, s, h1, _, _, h4, _, _⟩
  · unfold Cluster.addTask
    dsimp only
    rw [h1]
  · exact absurd ⟨s, List.mem_iff_getElem?.2 ⟨k, h1⟩, h4⟩ h

theorem Cluster.addTask_spec (c : Cluster) (task : Task)
    (h : ∃ s ∈ c.servers, s.getCurrentLoad < intMax) :
    ∃ (k : Nat) (target : Server),
      c.servers[k]? = some target ∧
      (∀ x ∈ c.servers, target.getCurrentLoad ≤ x.getCurrentLoad) ∧
      (∀ x ∈ c.servers.take k, target.getCurrentLoad < x.getCurrentLoad) ∧
      (c.addTask task).servers
        = if c.servers.length = 5 ∧ 3 ≤ target.getCurrentLoad ∧ 16 ≤ totalLoad c.servers
          then (c.servers.take k ++ target.addTask task :: c.servers.drop (k + 1))
                ++ [Server.new (c.servers.length + 1)]
          else c.servers.take k ++ target.addTask task :: c.servers.drop (k + 1) := by
  rcases selectLoop_spec c.servers 0 intMax none with ⟨_, _, h3⟩ | ⟨k, s, h1, h2, h3, h4, h5, h6⟩
  · obtain ⟨x, hx, hlt⟩ := h
    have := h3 x hx
    omega
  · refine ⟨k, s, h1, h6, h5, ?_⟩
    have hap : applyAt (fun server => server.addTask task) k c.servers
        = c.servers.take k ++ s.addTask task :: c.servers.drop (k + 1) :=
      applyAt_eq (fun server => server.addTask task) c.servers k s h1
    have hlen := update_length c.servers k s (s.addTask task) h1
    have htot := totalLoad_update c.servers k s task h1
    have h2b : (selectLoop c.servers 0 intMax none).2 = some k := by
      rw [h2]; simp
    unfold Cluster.addTask
    dsimp only
    rw [h2b]
    dsimp only
    rw [hap, hlen, h3]
    by_cases hc : c.servers.length = 5 ∧ 3 ≤ s.getCurrentLoad
    · have hcond : c.servers.length = initialServerCount
          ∧ ((s.getCurrentLoad + 1 : Int) : ℚ) > loadThreshold * 4 :=
        ⟨hc.1, (int_gt_threshold _).2 (by omega)⟩
      rw [if_pos hcond, Cluster.checkLoad_five _ (by rw [hlen]; exact hc.1)]
      dsimp only
      rw [htot]
      by_cases ht : 17 ≤ totalLoad c.servers + 1
      · rw [if_pos ht, if_pos ⟨hc.1, hc.2, by omega⟩]
        simp only [Cluster.addServer]
        rw [hlen]
      · rw [if_neg ht, if_neg (fun hh => ht (by omega))]
    · have hcond : ¬ (c.servers.length = initialServerCount
          ∧ ((s.getCurrentLoad + 1 : Int) : ℚ) > loadThreshold * 4) := by
        intro hh
        have := (int_gt_threshold _).1 hh.2
        exact hc ⟨hh.1, by omega⟩
      rw [if_neg hcond, if_neg (fun hh => hc ⟨hh.1, hh.2.1⟩)]

theorem applyAt_forall (P : Server → Prop) (f : Server → Server)
    (hf : ∀ s, P s → P (f s)) (l : List Server) (k : Nat) (h : ∀ s ∈ l, P s) :
    ∀ s ∈ applyAt f k l, P s := by
  induction l generalizing k with
  | nil =>
    intro s hs
    cases k <;> simp [applyAt] at hs
  | cons a rest ih =>
    cases k with
    | zero =>
      intro s hs
      simp only [applyAt, List.mem_cons] at hs
      rcases hs with hs | hs
      · rw [hs]; exact hf a (h a (List.mem_cons_self _ _))
      · exact h s (List.mem_cons_of_mem _ hs)
    | succ k =>
      intro s hs
      simp only [applyAt, List.mem_cons] at hs
      rcases hs with hs | hs
      · rw [hs]; exact h a (List.mem_cons_self _ _)
      · exact ih k (fun x hx => h x (List.mem_cons_of_mem _ hx)) s hs

theorem totalLoad_cons (a : Server) (l : List Server) :
    totalLoad (a :: l) = a.getCurrentLoad + totalLoad l := by
  simp [totalLoad]

theorem totalLoad_applyAt_le (f : Server → Server)
    (hf : ∀ s, (f s).getCurrentLoad ≤ s.getCurrentLoad) (l : List Server) (k : Nat) :
    totalLoad (applyAt f k l) ≤ totalLoad l := by
  induction l generalizing k with
  | nil => cases k <;> exact le_refl _
  | cons a rest ih =>
    cases k with
    | zero =>
      simp only [applyAt, totalLoad_cons]
      have := hf a
      omega
    | succ k =>
      simp only [applyAt, totalLoad_cons]
      have := ih k
      omega

theorem Server.processTasks_load_le (s : Server) :
    s.processTasks.1.getCurrentLoad ≤ s.getCurrentLoad := by
  unfold Server.processTasks
  split
  · show s.currentLoad - 1 ≤ s.currentLoad
    omega
  · exact le_refl _

theorem load_le_totalLoad (l : List Server) (h : ∀ s ∈ l, 0 ≤ s.getCurrentLoad) :
    0 ≤ totalLoad l ∧ ∀ s ∈ l, s.getCurrentLoad ≤ totalLoad l := by
  induction l with
  | nil => exact ⟨le_refl _, fun s hs => absurd hs (List.not_mem_nil _)⟩
  | cons a rest ih =>
    obtain ⟨h0, hle⟩ := ih (fun x hx => h x (List.mem_cons_of_mem _ hx))
    have ha := h a (List.mem_cons_self _ _)
    rw [totalLoad_cons]
    refine ⟨by omega, ?_⟩
    intro s hs
    rcases List.mem_cons.1 hs with hs | hs
    · rw [hs]; omega
    · have := hle s hs
      omega

theorem Cluster.step_consistent (c : Cluster) (op : ClusterOp) (n : Nat)
    (hc : c.Consistent) (hn : totalLoad c.servers ≤ (n : Int)) :
    (c.step op).Consistent ∧
    totalLoad (c.step op).servers ≤ ((n + addCount [op] : Nat) : Int) := by
  cases op with
  | process i =>
    constructor
    · exact applyAt_forall (fun s => s.currentLoad = (s.taskQueue.length : Int))
        (fun server => server.processTasks.1)
        (fun s hs => Server.processTasks_load s hs) c.servers i hc
    · have := totalLoad_applyAt_le (fun server => server.processTasks.1)
        Server.processTasks_load_le c.servers i
      show totalLoad (applyAt (fun server => server.processTasks.1) i c.servers)
        ≤ ((n + 0 : Nat) : Int)
      simp only [Nat.add_zero]
      omega
  | addTask task =>
    have hcost : ((n + addCount [ClusterOp.addTask task] : Nat) : Int) = (n : Int) + 1 := by
      simp [addCount]
    rw [hcost]
    show (c.addTask task).Consistent ∧ totalLoad (c.addTask task).servers ≤ (n : Int) + 1
    by_cases h : ∃ s ∈ c.servers, s.getCurrentLoad < intMax
    · obtain ⟨k, target, h1, _, _, h4⟩ := Cluster.addTask_spec c task h
      have htot := totalLoad_update c.servers k target task h1
      have hmemT : target ∈ c.servers := List.mem_iff_getElem?.2 ⟨k, h1⟩
      have hX : ∀ s ∈ c.servers.take k ++ target.addTask task :: c.servers.drop (k + 1),
          s.currentLoad = (s.taskQueue.length : Int) := by
        intro s hs
        rcases List.mem_append.1 hs with hs | hs
        · exact hc s (List.mem_of_mem_take hs)
        · rcases List.mem_cons.1 hs with hs | hs
          · rw [hs]; exact Server.addTask_load target task (hc target hmemT)
          · exact hc s (List.mem_of_mem_drop hs)
      unfold Cluster.Consistent
      rw [h4]
      split
      · constructor
        · intro s hs
          rcases List.mem_append.1 hs with hs | hs
          · exact hX s hs
          · rw [List.mem_singleton] at hs
            rw [hs]
            rfl
        · have happ : totalLoad ((c.servers.take k ++ target.addTask task
                :: c.servers.drop (k + 1)) ++ [Server.new (c.servers.length + 1)])
              = totalLoad (c.servers.take k ++ target.addTask task
                :: c.servers.drop (k + 1)) := by
            simp [totalLoad, Server.new, Server.getCurrentLoad]
          rw [happ, htot]
          omega
      · exact ⟨hX, by rw [htot]; omega⟩
    · rw [Cluster.addTask_none c task h]
      exact ⟨hc, by omega⟩

theorem Cluster.exec_consistent (ops : List ClusterOp) (c : Cluster) (n : Nat)
    (hc : c.Consistent) (hn : totalLoad c.servers ≤ (n : Int)) :
    (c.exec ops).Consistent ∧
    totalLoad (c.exec ops).servers ≤ ((n + addCount ops : Nat) : Int) := by
  induction ops generalizing c n with
  | nil => exact ⟨hc, by simpa [addCount] using hn⟩
  | cons op ops ih =>
    obtain ⟨h1, h2⟩ := Cluster.step_consistent c op n hc hn
    obtain ⟨h3, h4⟩ := ih (c.step op) (n + addCount [op]) h1 h2
    refine ⟨h3, ?_⟩
    have hcount : n + addCount (op :: ops) = n + addCount [op] + addCount ops := by
      cases op <;> simp only [addCount] <;> omega
    rw [hcount]
    exact h4

/-! ## How the number of servers changes -/

theorem Cluster.addTask_length (c : Cluster) (task : Task) :
    (c.addTask task).servers.length = c.servers.length ∨
    (c.servers.length = 5 ∧ (c.addTask task).servers.length = 6 ∧
      (∀ x ∈ c.servers, 3 ≤ x.getCurrentLoad) ∧ 16 ≤ totalLoad c.servers) := by
  by_cases h : ∃ s ∈ c.servers, s.getCurrentLoad < intMax
  · obtain ⟨k, target, h1, h2, _, h4⟩ := Cluster.addTask_spec c task h
    have hlen := update_length c.servers k target (target.addTask task) h1
    rw [h4]
    split
    · next hc =>
        right
        refine ⟨hc.1, ?_, ?_, hc.2.2⟩
        · rw [List.length_append, hlen, hc.1]
          rfl
        · intro x hx
          have := h2 x hx
          omega
    · exact Or.inl hlen
  · rw [Cluster.addTask_none c task h]
    exact Or.inl rfl

theorem Cluster.step_length (c : Cluster) (op : ClusterOp) :
    (c.step op).servers.length = c.servers.length ∨
    ((∃ task, op = ClusterOp.addTask task) ∧
      c.servers.length = 5 ∧ (c.step op).servers.length = 6 ∧
      (∀ x ∈ c.servers, 3 ≤ x.getCurrentLoad) ∧ 16 ≤ totalLoad c.servers) := by
  cases op with
  | addTask task =>
    rcases Cluster.addTask_length c task with h | ⟨h1, h2, h3, h4⟩
    · exact Or.inl h
    · exact Or.inr ⟨⟨task, rfl⟩, h1, h2, h3, h4⟩
  | process i => exact Or.inl (applyAt_length _ _ _)

theorem Cluster.exec_length_six (ops : List ClusterOp) (c : Cluster)
    (h : c.servers.length = 6) : (c.exec ops).servers.length = 6 := by
  induction ops generalizing c with
  | nil => exact h
  | cons op ops ih =>
    apply ih
    rcases Cluster.step_length c op with h1 | ⟨_, h1, _⟩
    · rw [h1]; exact h
    · omega

theorem Cluster.exec_length (ops : List ClusterOp) (c : Cluster)
    (h : c.servers.length = 5 ∨ c.servers.length = 6) :
    (c.exec ops).servers.length = 5 ∨ (c.exec ops).servers.length = 6 := by
  induction ops generalizing c with
  | nil => exact h
  | cons op ops ih =>
    apply ih
    rcases Cluster.step_length c op with h1 | ⟨_, _, h1, _⟩
    · rw [h1]; exact h
    · exact Or.inr h1

theorem length_of_loads (c : Cluster) (l : List Int) (h : loads c.servers = l) :
    c.servers.length = l.length := by
  rw [← h]
  simp [loads]

/-! ## C19: the chosen server -/

theorem Cluster.exec_loads (ops : List ClusterOp) :
    (Cluster.new.exec ops).servers ≠ [] ∧
    ∀ s ∈ (Cluster.new.exec ops).servers,
      s.getCurrentLoad = (s.taskQueue.length : Int) ∧
      s.getCurrentLoad ≤ (addCount ops : Int) := by
  have h0 : Cluster.new.Consistent := by
    intro s hs
    simp only [Cluster.new, List.mem_cons, List.mem_singleton, List.not_mem_nil,
      or_false] at hs
    rcases hs with hs | hs | hs | hs | hs <;> rw [hs] <;> rfl
  have ht0 : totalLoad Cluster.new.servers ≤ ((0 : Nat) : Int) := by decide
  obtain ⟨hc, ht⟩ := Cluster.exec_consistent ops Cluster.new 0 h0 ht0
  constructor
  · intro hnil
    have := Cluster.exec_length ops Cluster.new (Or.inl rfl)
    rw [hnil] at this
    simp at this
  · intro s hs
    have hnonneg : ∀ x ∈ (Cluster.new.exec ops).servers, 0 ≤ x.getCurrentLoad := by
      intro x hx
      show 0 ≤ x.currentLoad
      rw [hc x hx]
      exact Int.natCast_nonneg _
    have hle := (load_le_totalLoad _ hnonneg).2 s hs
    refine ⟨hc s hs, ?_⟩
    simp only [Nat.zero_add] at ht
    omega

/-- C19: for every list of servers in which some load is below 2147483647, the
value `numeric_limits<int>::max()` from which `minLoad` starts (so the list is
not empty), `Cluster::addTask` queues the task on the server at some position
`k` whose load is at most every server's load and strictly below the load of
every server before it; that server gets the task at the tail of its queue and
its load rises by exactly one, every other server already in the list is left
as it was, and the only other change is that one new server may be appended.
The condition on the loads holds in every state a cluster reaches from its
construction while fewer than 2147483647 tasks have been submitted: there the
server list is not empty and every load is the length of that server's queue
and at most the number of `addTask` calls. -/
theorem C19_addTask_first_least_loaded (c : Cluster) (task : Task)
    (h : ∃ s ∈ c.servers, s.getCurrentLoad < intMax) :
    (∃ (k : Nat) (target : Server),
      c.servers[k]? = some target ∧
      (∀ x ∈ c.servers, target.getCurrentLoad ≤ x.getCurrentLoad) ∧
      (∀ x ∈ c.servers.take k, target.getCurrentLoad < x.getCurrentLoad) ∧
      (c.addTask task).servers.take c.servers.length
        = c.servers.take k ++ target.addTask task :: c.servers.drop (k + 1) ∧
      (target.addTask task).getCurrentLoad = target.getCurrentLoad + 1 ∧
      (target.addTask task).taskQueue = target.taskQueue ++ [task] ∧
      ((c.addTask task).servers.drop c.servers.length = [] ∨
        (c.addTask task).servers.drop c.servers.length
          = [Server.new (c.servers.length + 1)])) ∧
    (∀ ops : List ClusterOp, addCount ops < 2147483647 →
      (Cluster.new.exec ops).servers ≠ [] ∧
      ∀ s ∈ (Cluster.new.exec ops).servers,
        s.getCurrentLoad = (s.taskQueue.length : Int) ∧ s.getCurrentLoad < intMax) := by
  constructor
  · obtain ⟨k, target, h1, h2, h3, h4⟩ := Cluster.addTask_spec c task h
    have hlen := update_length c.servers k target (target.addTask task) h1
    refine ⟨k, target, h1, h2, h3, ?_, rfl, rfl, ?_⟩
    · rw [h4]
      split
      · rw [← hlen, List.take_left]
      · rw [← hlen, List.take_length]
    · rw [h4]
      split
      · right
        rw [← hlen, List.drop_left]
      · left
        rw [← hlen, List.drop_length]
  · intro ops hb
    obtain ⟨hne, hl⟩ := Cluster.exec_loads ops
    refine ⟨hne, fun s hs => ⟨(hl s hs).1, ?_⟩⟩
    have := (hl s hs).2
    unfold intMax
    omega

/-- Witness for C19: loads 2, 1, 1, 3, 1: the task goes to the second server,
the first of the three with load 1. -/
theorem C19_addTask_first_least_loaded_witness :
    (∃ s ∈ ({ servers := [{ id := 1, taskQueue := [], currentLoad := 2 },
                          { id := 2, taskQueue := [], currentLoad := 1 },
                          { id := 3, taskQueue := [], currentLoad := 1 },
                          { id := 4, taskQueue := [], currentLoad := 3 },
                          { id := 5, taskQueue := [], currentLoad := 1 }] } : Cluster).servers,
      s.getCurrentLoad < intMax) ∧
    ∃ (k : Nat) (target : Server),
      ({ servers := [{ id := 1, taskQueue := [], currentLoad := 2 },
                     { id := 2, taskQueue := [], currentLoad := 1 },
                     { id := 3, taskQueue := [], currentLoad := 1 },
                     { id := 4, taskQueue := [], currentLoad := 3 },
                     { id := 5, taskQueue := [], currentLoad := 1 }] } : Cluster).servers[k]?
        = some target ∧
      ∀ x ∈ ({ servers := [{ id := 1, taskQueue := [], currentLoad := 2 },
                           { id := 2, taskQueue := [], currentLoad := 1 },
                           { id := 3, taskQueue := [], currentLoad := 1 },
                           { id := 4, taskQueue := [], currentLoad := 3 },
                           { id := 5, taskQueue := [], currentLoad := 1 }] } : Cluster).servers,
        target.getCurrentLoad ≤ x.getCurrentLoad :=
  ⟨⟨_, List.mem_cons_self _ _, by decide⟩,
    (C19_addTask_first_least_loaded
      { servers := [{ id := 1, taskQueue := [], currentLoad := 2 },
                    { id := 2, taskQueue := [], currentLoad := 1 },
                    { id := 3, taskQueue := [], currentLoad := 1 },
                    { id := 4, taskQueue := [], currentLoad := 3 },
                    { id := 5, taskQueue := [], currentLoad := 1 }] }
      { id := 9, priority := 1 } ⟨_, List.mem_cons_self _ _, by decide⟩).1.imp
      (fun _ hk => hk.imp (fun _ ht => ⟨ht.1, ht.2.1⟩))⟩

/-! ## C20: the number of servers -/

/-- C20: a cluster starts with 5 servers and in every state reached by
`addTask` calls and worker passes it has 5 or 6.  A step changes the number of
servers only if it is an `addTask` call made with exactly 5 servers, each
holding a load of at least 3 before the assignment, and with an average load
after the assignment strictly above 16/5; it then makes the number 6.  So five
servers at load 3 receiving one task (average exactly 16/5) add none, while
loads 4, 3, 3, 3, 3 receiving one task add the sixth; and once there are 6
servers no sequence of steps changes that. -/
theorem C20_cluster_has_five_or_six_servers (ops : List ClusterOp) :
    Cluster.new.servers.length = 5 ∧
    ((Cluster.new.exec ops).servers.length = 5 ∨ (Cluster.new.exec ops).servers.length = 6) ∧
    (∀ (c : Cluster) (op : ClusterOp),
      (c.step op).servers.length ≠ c.servers.length →
        (∃ task, op = ClusterOp.addTask task) ∧
        c.servers.length = 5 ∧ (c.step op).servers.length = 6 ∧
        (∀ x ∈ c.servers, 3 ≤ x.getCurrentLoad) ∧
        ((totalLoad c.servers + 1 : Int) : ℚ) / 5 > 16 / 5) ∧
    (∀ (c : Cluster) (task : Task),
      loads c.servers = [3, 3, 3, 3, 3] → (c.addTask task).servers.length = 5) ∧
    (∀ (c : Cluster) (task : Task),
      loads c.servers = [4, 3, 3, 3, 3] → (c.addTask task).servers.length = 6) ∧
    (∀ (c : Cluster) (ops2 : List ClusterOp),
      c.servers.length = 6 → (c.exec ops2).servers.length = 6) := by
  refine ⟨rfl, Cluster.exec_length ops Cluster.new (Or.inl rfl), ?_, ?_, ?_,
    fun c ops2 h => Cluster.exec_length_six ops2 c h⟩
  · intro c op hne
    rcases Cluster.step_length c op with h | ⟨h1, h2, h3, h4, h5⟩
    · exact absurd h hne
    · refine ⟨h1, h2, h3, h4, ?_⟩
      have hq : (17 : ℚ) ≤ ((totalLoad c.servers + 1 : Int) : ℚ) := by
        exact_mod_cast (show (17 : Int) ≤ totalLoad c.servers + 1 by omega)
      linarith
  · intro c task hl
    have hlen : c.servers.length = 5 := length_of_loads c _ hl
    have htot : totalLoad c.servers = 15 := by
      show (loads c.servers).sum = 15
      rw [hl]
      rfl
    rcases Cluster.addTask_length c task with h | ⟨_, _, _, h4⟩
    · rw [h, hlen]
    · omega
  · intro c task hl
    have hlen : c.servers.length = 5 := length_of_loads c _ hl
    have htot : totalLoad c.servers = 16 := by
      show (loads c.servers).sum = 16
      rw [hl]
      rfl
    have hmem : ∀ x ∈ c.servers, 3 ≤ x.getCurrentLoad := by
      intro x hx
      have hx2 : x.getCurrentLoad ∈ loads c.servers := List.mem_map_of_mem _ hx
      rw [hl] at hx2
      simp only [List.mem_cons, List.mem_singleton, List.not_mem_nil, or_false] at hx2
      omega
    have hex : ∃ s ∈ c.servers, s.getCurrentLoad < intMax := by
      cases hs : c.servers with
      | nil => rw [hs] at hlen; cases hlen
      | cons a rest =>
        refine ⟨a, List.mem_cons_self _ _, ?_⟩
        have ha : a.getCurrentLoad ∈ loads c.servers := by
          rw [hs]
          exact List.mem_map_of_mem _ (List.mem_cons_self _ _)
        rw [hl] at ha
        simp only [List.mem_cons, List.mem_singleton, List.not_mem_nil, or_false] at ha
        unfold intMax
        omega
    obtain ⟨k, target, h1, _, _, h4⟩ := Cluster.addTask_spec c task hex
    have hlen2 := update_length c.servers k target (target.addTask task) h1
    have ht3 : 3 ≤ target.getCurrentLoad := hmem target (List.mem_iff_getElem?.2 ⟨k, h1⟩)
    rw [h4, if_pos ⟨hlen, ht3, by omega⟩, List.length_append, hlen2, hlen]
    rfl

/-- Witness for C20: a cluster with six servers keeps six, and a run of three
`addTask` calls and a worker pass from a new cluster has five or six. -/
theorem C20_cluster_has_five_or_six_servers_witness :
    Cluster.new.addServer.servers.length = 6 ∧
    (Cluster.new.addServer.exec
      [ClusterOp.addTask { id := 1, priority := 2 }, ClusterOp.process 0,
        ClusterOp.addTask { id := 2, priority := 1 }]).servers.length = 6 ∧
    ((Cluster.new.exec
        [ClusterOp.addTask { id := 1, priority := 2 }, ClusterOp.addTask { id := 2, priority := 1 },
          ClusterOp.process 0, ClusterOp.addTask { id := 3, priority := 5 }]).servers.length = 5 ∨
      (Cluster.new.exec
        [ClusterOp.addTask { id := 1, priority := 2 }, ClusterOp.addTask { id := 2, priority := 1 },
          ClusterOp.process 0, ClusterOp.addTask { id := 3, priority := 5 }]).servers.length = 6) :=
  ⟨rfl,
    (C20_cluster_has_five_or_six_servers []).2.2.2.2.2 Cluster.new.addServer
      [ClusterOp.addTask { id := 1, priority := 2 }, ClusterOp.process 0,
        ClusterOp.addTask { id := 2, priority := 1 }] rfl,
    (C20_cluster_has_five_or_six_servers
      [ClusterOp.addTask { id := 1, priority := 2 }, ClusterOp.addTask { id := 2, priority := 1 },
        ClusterOp.process 0, ClusterOp.addTask { id := 3, priority := 5 }]).2.1⟩

end Task1
